import Mathlib

/-!
Verification of the declaration-linting checks of the clang-tidy `bsl` module.

A shallow embedding of four checks under `clang-tools-extra/clang-tidy/bsl/`:
`IdentifierTypographicallyUnambiguousCheck.cpp` (the name normaliser, the scope
relation and the registry of canonical names),
`UsingIdentUniqueNamespaceCheck.cpp` (the index of raw names),
`ForwardReferenceOverloadedCheck.cpp` (the scan of overload lists) and
`VerifyConstCheck.cpp` (the grammar of mutability names).

* A `std::string` is a list of characters.  The source works on bytes; every
  byte it inspects or produces is ASCII, and `::tolower` (C locale) changes
  only `A`..`Z`, so on UTF-8 text the byte-level and the character-level
  functions agree.
* A pointer to an AST node is the node's address (`addr`); a null pointer is
  `none`.  Pointer comparison is comparison of addresses.
* The clang AST classes are not part of the checked sources.  A declaration is
  represented by the values of the accessors the checks call on it.
* A `std::unordered_map` from strings to lists is the list of its key-value
  pairs; the checks never iterate over a map, so the order of the pairs is
  not observed.
* A call of `check` is a function from the state before the call to the state
  after it and the list of `diag` calls made, in order.

The definitions come first, the lemmas and the claims (`C1`, `C2`, ...) after
them.
-/

namespace Bsl

/-! ## `removeAmbiguity` (lines 36–118) -/

/-- The C-locale `::tolower`: `A`..`Z` (65..90) go to `a`..`z`, every other
character is returned unchanged. -/
def tolower (c : Char) : Char :=
  if 65 ≤ c.toNat ∧ c.toNat ≤ 90 then Char.ofNat (c.toNat + 32) else c

/-- The `switch (in[i])` of lines 46–85: `some r` when a case appends `r` and
continues, `none` for the `default: break`. -/
def switchTable (c : Char) : Option Char :=
  if c = '0' then some 'o'
  else if c = '1' then some 'i'
  else if c = 'l' then some 'i'
  else if c = 'L' then some 'i'
  else if c = '5' then some 's'
  else if c = '2' then some 'z'
  else if c = 'h' then some 'n'
  else if c = 'H' then some 'n'
  else if c = '8' then some 'b'
  else none

/-- The four tests of lines 88, 94, 100 and 106 on `in[i]` and `in[i + 1]`. -/
def isDigraph (c d : Char) : Bool :=
  (c == 'r' && d == 'n') || (c == 'R' && d == 'n') ||
  (c == 'r' && d == 'N') || (c == 'R' && d == 'N')

/-- The `for` loop of lines 42–114, as a function of the input from index `i`
on; the result is what the loop appends to `out`.  The second equation is the
last index, where `i < in.length() - 1` fails and no look-ahead happens; in
the third, `d` is `in[i + 1]` and a digraph match skips it (`++i`). -/
def scanLoop : List Char → List Char
  | [] => []
  | [c] =>
    if c = '_' then []
    else match switchTable c with
      | some r => [r]
      | none => [c]
  | c :: d :: rest =>
    if c = '_' then scanLoop (d :: rest)
    else match switchTable c with
      | some r => r :: scanLoop (d :: rest)
      | none =>
        if isDigraph c d then 'm' :: scanLoop rest
        else c :: scanLoop (d :: rest)

/-- The function `removeAmbiguity`: the loop, then `std::transform` with
`::tolower` over the whole of `out` (line 116). -/
def removeAmbiguity (s : String) : String :=
  String.mk ((scanLoop s.data).map tolower)

/-! ### The reference normaliser of the specification

These definitions follow the wording of the specification, not the source;
they are compared with `removeAmbiguity` below. -/

/-- The single-character substitution table as the specification lists it. -/
def specSingleTable : List (Char × Char) :=
  [('0', 'o'), ('1', 'i'), ('l', 'i'), ('L', 'i'), ('5', 's'), ('2', 'z'),
   ('h', 'n'), ('H', 'n'), ('8', 'b')]

/-- The digraphs the specification lists, each replaced by `m`. -/
def specDigraphs : List (Char × Char) :=
  [('r', 'n'), ('R', 'n'), ('r', 'N'), ('R', 'N')]

/-- The reference scan: at each non-underscore position the two-character
rule is tried first (consuming two input characters), otherwise the
single-character table, otherwise the character is copied. -/
def referenceScan : List Char → List Char
  | [] => []
  | [c] =>
    if c = '_' then []
    else match specSingleTable.lookup c with
      | some r => [r]
      | none => [c]
  | c :: d :: rest =>
    if c = '_' then referenceScan (d :: rest)
    else if (c, d) ∈ specDigraphs then 'm' :: referenceScan rest
    else match specSingleTable.lookup c with
      | some r => r :: referenceScan (d :: rest)
      | none => c :: referenceScan (d :: rest)

/-- The reference normaliser: the reference scan, then lower-casing. -/
def referenceNormalize (s : String) : String :=
  String.mk ((referenceScan s.data).map Char.toLower)

/-- The string `s` with every `_` removed. -/
def stripUnderscores (s : String) : String :=
  String.mk (s.data.filter (fun c => c != '_'))

/-! ## The scope relation (lines 20–34 and 148–233) -/

/-- A declaration reached through a pointer (an enclosing function, method or
block, or an enclosing class): its address, whether `dyn_cast<NamedDecl>`
succeeds on it, and the text `printNestedNameSpecifier` writes for it. -/
structure DeclRef where
  addr : Nat
  isNamed : Bool := true
  specifier : String := ""
deriving DecidableEq

/-- The dynamic class of a declaration, as far as the `isa` and `dyn_cast`
tests of the checks tell classes apart.  `cxxMethod` stands for the methods
that are neither constructors nor destructors, `function` for the functions
that are not methods and not deduction guides, `var` for the variables that
are not parameters, `cxxRecord` for the classes that are not template
specialisations, `record` for the records that are not C++ classes. -/
inductive DeclKind where
  | field
  | namespaceDecl
  | usingDirective
  | cxxConstructor
  | cxxDestructor
  | cxxDeductionGuide
  | varTemplate
  | functionTemplate
  | typeAliasTemplate
  | classTemplate
  | classTemplateSpecialization
  | function
  | cxxMethod
  | cxxRecord
  | record
  | templateTypeParm
  | nonTypeTemplateParm
  | templateTemplateParm
  | var
  | parmVar
  | other
deriving DecidableEq

/-- The result of `getDeclContext()` as far as the checks tell contexts apart:
a `CXXRecordDecl` that is not a specialisation, a
`ClassTemplateSpecializationDecl` (which is a `CXXRecordDecl` too), a
`CXXMethodDecl` (with its `getParent()`), a `CXXDeductionGuideDecl`, a
`NamespaceDecl`, the `TranslationUnitDecl`, or any other context. -/
inductive DeclContext where
  | cxxRecord (rd : DeclRef)
  | classTemplateSpecialization (rd : DeclRef)
  | cxxMethod (parent : DeclRef)
  | cxxDeductionGuide
  | namespaceDecl
  | translationUnit
  | other
deriving DecidableEq

/-- A `NamedDecl` as the checks read it: its address, the text of
`getNameAsString`, of `printNestedNameSpecifier` and of
`getQualifiedNameAsString`, the result of `getDeclContext()` and of
`getParentFunctionOrMethod()`, its dynamic class, the raw encoding of
`getLocation()` (0 is the invalid location), and the answers of the
class-specific accessors the checks call: `isOverloadedOperator()`, whether
`getDefinition()` is the declaration itself, whether
`getMemberSpecializationInfo()`, `getTemplateSpecializationInfo()` and
`getInstantiatedFromMemberClass()` are non-null, `isStaticDataMember()`,
`hasExternalFormalLinkage()`, and for a function template whether
`getTemplatedDecl()` is a constructor. -/
structure NamedDecl where
  addr : Nat
  name : String := ""
  specifier : String := ""
  qualifiedName : String := ""
  declContext : Option DeclContext := none
  parentFunctionOrMethod : Option DeclRef := none
  kind : DeclKind := DeclKind.other
  location : Nat := 1
  isOverloadedOperator : Bool := false
  definitionIsSelf : Bool := true
  hasMemberSpecializationInfo : Bool := false
  hasTemplateSpecializationInfo : Bool := false
  hasInstantiatedFromMemberClass : Bool := false
  isStaticDataMember : Bool := false
  hasExternalFormalLinkage : Bool := false
  templatedIsConstructor : Bool := false
deriving DecidableEq

/-- A `NamedDecl const *` to the declaration itself. -/
def NamedDecl.toRef (d : NamedDecl) : DeclRef :=
  { addr := d.addr, isNamed := true, specifier := d.specifier }

/-- The cast `dyn_cast<NamedDecl>(p)` of a possibly null pointer `p`. -/
def dynCastNamedDecl : Option DeclRef → Option DeclRef
  | none => none
  | some r => if r.isNamed then some r else none

/-- Lines 20–34: the empty string for a null pointer, otherwise the printed
nested-name specifier. -/
def getNestedNameSpecifierAsString : Option DeclRef → String
  | none => ""
  | some D => D.specifier

/-- Lines 148–152. -/
def hasDifferentNamespaces (arg1 arg2 : Option DeclRef) : Bool :=
  getNestedNameSpecifierAsString arg1 != getNestedNameSpecifierAsString arg2

/-- Lines 154–158. -/
def hasSameQualifiedName (arg1 arg2 : NamedDecl) : Bool :=
  arg1.qualifiedName == arg2.qualifiedName

/-- Lines 160–170. -/
def areContainedInDifferentNamespaces (arg1 arg2 : Option DeclRef) : Bool :=
  let NS1 := getNestedNameSpecifierAsString arg1
  let NS2 := getNestedNameSpecifierAsString arg2
  if NS1.isEmpty || NS2.isEmpty then false
  else NS1 != NS2

/-- Lines 172–184. -/
def findParentDecl (arg : NamedDecl) : Option DeclRef :=
  match arg.declContext with
  | some (DeclContext.cxxRecord rd) => some rd
  | some (DeclContext.classTemplateSpecialization rd) => some rd
  | some (DeclContext.cxxMethod parent) => some parent
  | _ => none

/-- Comparison `p != q` of two pointers. -/
def ptrNe (p q : Option DeclRef) : Bool :=
  p.map DeclRef.addr != q.map DeclRef.addr

/-- Lines 186–233, with the return statement that is taken made visible:
`some b` when one of the `return` statements of lines 193–228 returns `b`,
`none` when control reaches the final `return false` of line 232. -/
def areContainedInDifferentBlocksAux (arg1 arg2 : NamedDecl) : Option Bool :=
  let PoM1 := arg1.parentFunctionOrMethod
  let PoM2 := arg2.parentFunctionOrMethod
  if PoM1.isSome && PoM2.isSome then some (ptrNe PoM1 PoM2)
  else
    let D1 := findParentDecl arg1
    let D2 := findParentDecl arg2
    (if D1.isNone && D2.isNone then
      if PoM1.isSome && PoM2.isNone then
        some (areContainedInDifferentNamespaces (dynCastNamedDecl PoM1) (some arg2.toRef))
      else if PoM1.isNone && PoM2.isSome then
        some (areContainedInDifferentNamespaces (some arg1.toRef) (dynCastNamedDecl PoM2))
      else if PoM1.isNone && PoM2.isNone then
        some (areContainedInDifferentNamespaces (some arg1.toRef) (some arg2.toRef))
      else none
    else none).orElse fun _ =>
    (if D1.isSome && D2.isSome then some (ptrNe D1 D2) else none).orElse fun _ =>
    (if D1.isNone && D2.isSome then
      if PoM1.isNone then
        some (hasDifferentNamespaces (some arg1.toRef) (dynCastNamedDecl D2))
      else if PoM1.isSome then some true
      else none
    else none).orElse fun _ =>
    (if D1.isSome && D2.isNone then
      if PoM2.isNone then
        some (hasDifferentNamespaces (dynCastNamedDecl D1) (some arg2.toRef))
      else if PoM2.isSome then some true
      else none
    else none)

/-- The function `areContainedInDifferentBlocks`: the value returned, the
final `return false` included. -/
def areContainedInDifferentBlocks (arg1 arg2 : NamedDecl) : Bool :=
  (areContainedInDifferentBlocksAux arg1 arg2).getD false

end Bsl

namespace Bsl

/-- Whether a text contains the letter `r` immediately followed by `n`. -/
def hasAdjacentRN : List Char → Bool
  | [] => false
  | [_] => false
  | c :: d :: rest => (c == 'r' && d == 'n') || hasAdjacentRN (d :: rest)

/-- A character the normaliser leaves alone when it stands by itself: not `_`,
not a key of the switch, not an upper-case letter. -/
def Stable (e : Char) : Prop :=
  e ≠ '_' ∧ switchTable e = none ∧ tolower e = e

end Bsl

namespace Bsl

/-- The declaration whose printed nested-name specifier stands for `d` when
neither declaration has an enclosing class (lines 199–208): the enclosing
function or method, cast to `NamedDecl`, when there is one, otherwise `d`
itself. -/
def scopePathDecl (d : NamedDecl) : Option DeclRef :=
  match d.parentFunctionOrMethod with
  | some f => dynCastNamedDecl (some f)
  | none => some d.toRef

end Bsl

namespace Bsl

/-- The scope-path string that lines 214–229 compare for `d`: the printed
nested-name specifier of the enclosing class (cast to `NamedDecl`) when
`findParentDecl` finds one, otherwise that of `d` itself. -/
def containerOrOwnPath (d : NamedDecl) : String :=
  match findParentDecl d with
  | some r => getNestedNameSpecifierAsString (dynCastNamedDecl (some r))
  | none => getNestedNameSpecifierAsString (some d.toRef)

end Bsl

namespace Bsl

/-! ## The typographic check (lines 270–433) -/

/-- The test `isa<FieldDecl>`. -/
def isaFieldDecl (k : DeclKind) : Bool := k == DeclKind.field

/-- The test `isa<FunctionDecl>`: functions, methods, constructors,
destructors and deduction guides. -/
def isaFunctionDecl (k : DeclKind) : Bool :=
  k == DeclKind.function || k == DeclKind.cxxMethod || k == DeclKind.cxxConstructor ||
  k == DeclKind.cxxDestructor || k == DeclKind.cxxDeductionGuide

/-- The test `isa<CXXRecordDecl>`: classes and class template specialisations. -/
def isaCXXRecordDecl (k : DeclKind) : Bool :=
  k == DeclKind.cxxRecord || k == DeclKind.classTemplateSpecialization

/-- The test `isa<RecordDecl>`. -/
def isaRecordDecl (k : DeclKind) : Bool :=
  k == DeclKind.record || isaCXXRecordDecl k

/-- The test `isa<VarDecl>`: variables and parameters. -/
def isaVarDecl (k : DeclKind) : Bool := k == DeclKind.var || k == DeclKind.parmVar

/-- The test `isa<ParmVarDecl>`. -/
def isaParmVarDecl (k : DeclKind) : Bool := k == DeclKind.parmVar

/-- The one-class `bothAre<T>` of lines 120–131. -/
def bothAre (isaT : DeclKind → Bool) (arg1 arg2 : NamedDecl) : Bool :=
  if isaT arg1.kind then
    if isaT arg2.kind then true else false
  else false

/-- Lines 235–253. -/
def areTheSameVarDecls (arg1 arg2 : NamedDecl) : Bool :=
  if !isaVarDecl arg1.kind || !isaVarDecl arg2.kind then false
  else if !ptrNe arg1.parentFunctionOrMethod arg2.parentFunctionOrMethod then
    hasSameQualifiedName arg1 arg2
  else false

/-- Severity of a diagnostic: the default level of `diag` or
`DiagnosticIDs::Note`. -/
inductive DiagLevel where
  | warning
  | note
deriving DecidableEq

/-- One call of `diag`: the location, the message and the level. -/
structure Diag where
  location : Nat
  message : String
  level : DiagLevel
deriving DecidableEq

/-- The lookup `m.find(k)` in a `std::unordered_map` from strings to lists,
represented by its key-value pairs: `none` is `m.end()`. -/
def mapFind {α : Type} (m : List (String × List α)) (k : String) : Option (List α) :=
  m.lookup k

/-- The statement `m[k].push_back(x)`: the list of `k` gets `x` at its end; a
key that is absent is inserted with the list `[x]`. -/
def pushBack {α : Type} : List (String × List α) → String → α → List (String × List α)
  | [], k, x => [(k, [x])]
  | (k', l) :: rest, k, x =>
    if k' = k then (k', l ++ [x]) :: rest else (k', l) :: pushBack rest k x

/-- The state `m_ids` of the typographic check. -/
abbrev Registry := List (String × List NamedDecl)

/-- Lines 274–361: whether `check` returns before it looks the name up. -/
def typoIgnored (D : NamedDecl) : Bool :=
  (D.kind == DeclKind.field || D.kind == DeclKind.namespaceDecl ||
    D.kind == DeclKind.usingDirective || D.kind == DeclKind.cxxConstructor ||
    D.kind == DeclKind.cxxDestructor || D.kind == DeclKind.cxxDeductionGuide ||
    D.kind == DeclKind.varTemplate || D.kind == DeclKind.functionTemplate ||
    D.kind == DeclKind.typeAliasTemplate || D.kind == DeclKind.classTemplate ||
    D.kind == DeclKind.classTemplateSpecialization) ||
  (match D.declContext with
    | some DeclContext.cxxDeductionGuide => true
    | some (DeclContext.classTemplateSpecialization _) => true
    | _ => false) ||
  (isaFunctionDecl D.kind &&
    (D.isOverloadedOperator || !D.definitionIsSelf || D.hasMemberSpecializationInfo ||
      D.hasTemplateSpecializationInfo)) ||
  (isaCXXRecordDecl D.kind && (D.hasInstantiatedFromMemberClass || !D.definitionIsSelf)) ||
  (isaRecordDecl D.kind && !D.definitionIsSelf) ||
  ((D.kind == DeclKind.templateTypeParm || D.kind == DeclKind.nonTypeTemplateParm ||
      D.kind == DeclKind.templateTemplateParm) &&
    (match D.declContext with
      | some DeclContext.namespaceDecl => true
      | some DeclContext.translationUnit => true
      | _ => false)) ||
  (isaVarDecl D.kind &&
    ((D.isStaticDataMember && D.definitionIsSelf) || D.hasExternalFormalLinkage)) ||
  D.location == 0 ||
  (D.name.isEmpty || D.name.data.head? == some '_')

/-- Lines 369–393, the tests of one iteration of the loop over the records:
whether the iteration ends in one of its `continue` statements. -/
def skipsRecord (D r : NamedDecl) : Bool :=
  (bothAre isaFunctionDecl D r && hasSameQualifiedName D r) ||
  (bothAre isaVarDecl D r && areTheSameVarDecls D r) ||
  areContainedInDifferentBlocks D r ||
  (isaParmVarDecl D.kind && isaFieldDecl r.kind) ||
  (isaParmVarDecl r.kind && isaFieldDecl D.kind)

/-- The loop of lines 366–428 over `recordList`: the record at which the two
diagnostics are emitted and `check` returns, `none` when the loop runs to its
end. -/
def firstCollision (D : NamedDecl) : List NamedDecl → Option NamedDecl
  | [] => none
  | r :: rest => if skipsRecord D r then firstCollision D rest else some r

/-- The two `diag` calls of lines 395–396. -/
def typoDiags (D r : NamedDecl) : List Diag :=
  [{ location := D.location,
     message := "Different identifiers shall be typographically unambiguous",
     level := DiagLevel.warning },
   { location := r.location,
     message := "previous identifier found here",
     level := DiagLevel.note }]

/-- The function `IdentifierTypographicallyUnambiguousCheck::check` on the
matched declaration `D`: the state `m_ids` after the call and the diagnostics
emitted by the call, in order. -/
def typoCheck (m : Registry) (D : NamedDecl) : Registry × List Diag :=
  if typoIgnored D then (m, [])
  else
    let name := removeAmbiguity D.name
    match mapFind m name with
    | some recordList =>
      match firstCollision D recordList with
      | some r => (m, typoDiags D r)
      | none => (pushBack m name D, [])
    | none => (pushBack m name D, [])

/-- The check called on the declarations of `ds` in turn, from the state `st`
on: the final state and all diagnostics emitted. -/
def typoRunFrom (st : Registry × List Diag) (ds : List NamedDecl) : Registry × List Diag :=
  ds.foldl (fun acc d => ((typoCheck acc.1 d).1, acc.2 ++ (typoCheck acc.1 d).2)) st

/-- The check called on the declarations of `ds` in turn, from the empty
registry. -/
def typoRun (ds : List NamedDecl) : Registry × List Diag :=
  typoRunFrom ([], []) ds

/-- The condition of the specification under which an offered declaration `d`
collides with a record `r`: they are not function overloads with one
qualified name, not the same variable, and not in distinct scopes. -/
def specCollides (d r : NamedDecl) : Bool :=
  !(isaFunctionDecl d.kind && isaFunctionDecl r.kind && d.qualifiedName == r.qualifiedName) &&
  !(areTheSameVarDecls d r) &&
  !(areContainedInDifferentBlocks d r)

end Bsl

namespace Bsl

/-- The records stored under the key `k`: the list `m.find(k)` points to, the
empty list when the key is absent. -/
def recordsOf {α : Type} (m : List (String × List α)) (k : String) : List α :=
  (mapFind m k).getD []

/-- Two declarations collide when they have the same canonical name and the
loop of the check passes over neither for the other, that is, none of its
`continue` statements applies. -/
def collide (x y : NamedDecl) : Bool :=
  removeAmbiguity x.name == removeAmbiguity y.name && !skipsRecord x y

end Bsl

namespace Bsl

/-! ### Sample declarations -/

/-- A local variable `l` of the function at address 1, declared at location 100. -/
def sampleVarL : NamedDecl :=
  { addr := 10, name := "l", qualifiedName := "l", kind := DeclKind.var, location := 100,
    declContext := some DeclContext.other, parentFunctionOrMethod := some { addr := 1 } }

/-- A local variable `I` of the same function, declared at location 200; its
canonical name is `i`, as for `l`. -/
def sampleVarI : NamedDecl :=
  { addr := 20, name := "I", qualifiedName := "I", kind := DeclKind.var, location := 200,
    declContext := some DeclContext.other, parentFunctionOrMethod := some { addr := 1 } }

/-- A local variable `I` of another function, the one at address 2. -/
def sampleVarI2 : NamedDecl :=
  { addr := 30, name := "I", qualifiedName := "I", kind := DeclKind.var, location := 300,
    declContext := some DeclContext.other, parentFunctionOrMethod := some { addr := 2 } }

end Bsl

namespace Bsl

/-! ## The namespace-uniqueness check (`UsingIdentUniqueNamespaceCheck.cpp`) -/

/-- The search of `std::string::find` from the text position `i` on: the first
position at which `str` occurs, `none` for `npos`.  The empty string occurs
at the first position tried, also at the end of the text. -/
def findFrom (str : List Char) : List Char → Nat → Option Nat
  | [], i => if str.isEmpty then some i else none
  | c :: rest, i => if str.isPrefixOf (c :: rest) then some i else findFrom str rest (i + 1)

/-- The call `s.find(str)` of `std::string`: `none` is `std::string::npos`. -/
def stringFind (s str : String) : Option Nat := findFrom str.data s.data 0

/-- The `record_t` of the namespace-uniqueness check: the printed nested-name
specifier and the declaration. -/
structure NsRecord where
  spec : String
  D : NamedDecl
deriving DecidableEq

/-- The state `m_ids` of the namespace-uniqueness check. -/
abbrev NsIndex := List (String × List NsRecord)

/-- Lines 43–92 of `UsingIdentUniqueNamespaceCheck::check`: whether the
function returns before it looks the name up. -/
def nsIgnored (D : NamedDecl) : Bool :=
  (D.kind == DeclKind.namespaceDecl || isaVarDecl D.kind || D.kind == DeclKind.field ||
    D.kind == DeclKind.cxxConstructor || D.kind == DeclKind.cxxDestructor ||
    D.kind == DeclKind.varTemplate || D.kind == DeclKind.templateTypeParm ||
    D.kind == DeclKind.nonTypeTemplateParm || D.kind == DeclKind.templateTemplateParm ||
    D.kind == DeclKind.typeAliasTemplate || D.kind == DeclKind.classTemplate ||
    D.kind == DeclKind.classTemplateSpecialization) ||
  (isaFunctionDecl D.kind && D.isOverloadedOperator) ||
  (D.kind == DeclKind.functionTemplate && D.templatedIsConstructor) ||
  D.location == 0 ||
  (D.name.isEmpty || D.name.data.head? == some '_') ||
  (stringFind D.name "nullptr_t").isSome ||
  (stringFind D.name "max_align_t").isSome

/-- The loop of lines 96–118 over `recordList`: the record at which the two
diagnostics are emitted and `check` returns, `none` when the loop runs to its
end. -/
def nsFirstClash (spec : String) : List NsRecord → Option NsRecord
  | [] => none
  | record :: rest =>
    if spec = record.spec then nsFirstClash spec rest
    else if (stringFind spec record.spec).isSome then some record
    else if (stringFind record.spec spec).isSome then some record
    else nsFirstClash spec rest

/-- The two `diag` calls of lines 107–108 and of lines 113–114. -/
def nsDiags (D : NamedDecl) (record : NsRecord) : List Diag :=
  [{ location := D.location,
     message := "A user-defined type name shall be a unique identifier within a namespace",
     level := DiagLevel.warning },
   { location := record.D.location,
     message := "previous user-defined with the same name found here",
     level := DiagLevel.note }]

/-- The function `UsingIdentUniqueNamespaceCheck::check` on the matched
declaration `D`: the state `m_ids` after the call and the diagnostics emitted
by the call, in order. -/
def nsCheck (m : NsIndex) (D : NamedDecl) : NsIndex × List Diag :=
  if nsIgnored D then (m, [])
  else
    let name := D.name
    let spec := D.specifier
    match mapFind m name with
    | some recordList =>
      match nsFirstClash spec recordList with
      | some record => (m, nsDiags D record)
      | none => (pushBack m name { spec := spec, D := D }, [])
    | none => (pushBack m name { spec := spec, D := D }, [])

/-- The check called on the declarations of `ds` in turn, from the state `st`
on: the final state and all diagnostics emitted. -/
def nsRunFrom (st : NsIndex × List Diag) (ds : List NamedDecl) : NsIndex × List Diag :=
  ds.foldl (fun acc d => ((nsCheck acc.1 d).1, acc.2 ++ (nsCheck acc.1 d).2)) st

/-- The check called on the declarations of `ds` in turn, from the empty index. -/
def nsRun (ds : List NamedDecl) : NsIndex × List Diag :=
  nsRunFrom ([], []) ds

/-- A class `T` declared in the namespace `b` (sample input). -/
def sampleTypeB : NamedDecl :=
  { addr := 40, name := "T", specifier := "b::", qualifiedName := "b::T",
    kind := DeclKind.cxxRecord, location := 400, declContext := some DeclContext.namespaceDecl }

/-- A class `T` declared in the namespace `a::b` (sample input). -/
def sampleTypeAB : NamedDecl :=
  { addr := 50, name := "T", specifier := "a::b::", qualifiedName := "a::b::T",
    kind := DeclKind.cxxRecord, location := 500, declContext := some DeclContext.namespaceDecl }

/-- A class `T` declared in the namespace `b::c` (sample input). -/
def sampleTypeBC : NamedDecl :=
  { addr := 60, name := "T", specifier := "b::c::", qualifiedName := "b::c::T",
    kind := DeclKind.cxxRecord, location := 600, declContext := some DeclContext.namespaceDecl }

/-- A class `T` declared in the namespace `x` (sample input). -/
def sampleTypeX : NamedDecl :=
  { addr := 70, name := "T", specifier := "x::", qualifiedName := "x::T",
    kind := DeclKind.cxxRecord, location := 700, declContext := some DeclContext.namespaceDecl }

end Bsl

namespace Bsl

/-! ## The forwarding-reference overload check (`ForwardReferenceOverloadedCheck.cpp`) -/

/-- A `FunctionTemplateDecl` as the check reads it: the result of
`getTemplateParameters()`, the addresses of the template parameters, `none`
for a null pointer. -/
structure FunctionTemplateDecl where
  templateParameters : Option (List Nat)
deriving DecidableEq

/-- The enclosing function of a parameter as the check reads it: the text of
`getQualifiedNameAsString()` and the result of
`getDescribedFunctionTemplate()`. -/
structure ParentFunction where
  qualifiedName : String
  describedFunctionTemplate : Option FunctionTemplateDecl
deriving DecidableEq

/-- The result of `getParentFunctionOrMethod()` of a parameter when it is not
null: a context on which `dyn_cast<FunctionDecl>` succeeds, or another one
(a block, a captured statement). -/
inductive ParmParent where
  | function (parentFD : ParentFunction)
  | otherContext
deriving DecidableEq

/-- A `ParmVarDecl` as the check reads it: its address, the address
`getType().getTypePtr()`, the raw encoding of `getLocation()` and the result
of `getParentFunctionOrMethod()`. -/
structure ParmVarDecl where
  addr : Nat
  typePtr : Nat
  location : Nat := 1
  parent : Option ParmParent := none
deriving DecidableEq

/-- A `FunctionDecl` as the check reads it: its address, the text of
`getQualifiedNameAsString()`, whether `getDefinition()` is the declaration
itself, whether `getMemberSpecializationInfo()` and
`getTemplateSpecializationInfo()` are non-null, and `parameters()`. -/
structure FunctionDecl where
  addr : Nat
  qualifiedName : String := ""
  definitionIsSelf : Bool := true
  hasMemberSpecializationInfo : Bool := false
  hasTemplateSpecializationInfo : Bool := false
  parameters : List ParmVarDecl := []
deriving DecidableEq

/-- The nodes bound in a match result: `func-decl`, or `parm-var` together
with the address of `type-parm-decl`. -/
inductive FwdMatch where
  | funcDecl (FD : FunctionDecl)
  | parmVar (PVD : ParmVarDecl) (TTPD : Nat)
deriving DecidableEq

/-- The state of the check: the set `m_fr_params` of parameter addresses and
the map `m_fds`. -/
structure FwdState where
  frParams : List Nat := []
  fds : List (String × List FunctionDecl) := []
deriving DecidableEq

/-- The variables `foundParam1` with `foundParam1Previous` and `foundParam2`
with `foundParam2Previous` of lines 144–147.  A found parameter and its
previous one are assigned together; the reset of lines 167–168 clears only
the found parameters, and a previous parameter is read only when its found
parameter is not null. -/
structure Found where
  param1 : Option (ParmVarDecl × ParmVarDecl) := none
  param2 : Option (ParmVarDecl × ParmVarDecl) := none
deriving DecidableEq

/-- The loop of lines 149–170 over the parameter positions of two functions
with equally many parameters. -/
def paramLoop (frParams : List Nat) : List ParmVarDecl → List ParmVarDecl → Found → Found
  | param1 :: rest1, param2 :: rest2, st =>
    if param1.typePtr != param2.typePtr then
      if param1.addr ∈ frParams then
        paramLoop frParams rest1 rest2 { st with param1 := some (param1, param2) }
      else if param2.addr ∈ frParams then
        paramLoop frParams rest1 rest2 { st with param2 := some (param2, param1) }
      else paramLoop frParams rest1 rest2 { param1 := none, param2 := none }
    else paramLoop frParams rest1 rest2 st
  | _, _, st => st

/-- The two `diag` calls of lines 173–175 and of lines 179–181. -/
def fwdDiags (found previous : ParmVarDecl) : List Diag :=
  [{ location := found.location,
     message := "A function that contains an ambiguous forwarding " ++
       "reference as an argument shall not be overloaded.",
     level := DiagLevel.warning },
   { location := previous.location, message := "previous argument found here",
     level := DiagLevel.note }]

/-- The body of the inner loop, lines 135–182, for one `fd1` and one `fd2`. -/
def pairDiags (frParams : List Nat) (fd1 fd2 : FunctionDecl) : List Diag :=
  if fd1.addr = fd2.addr then []
  else if fd1.parameters.length ≠ fd2.parameters.length then []
  else
    let st := paramLoop frParams fd1.parameters fd2.parameters {}
    (match st.param1 with
      | some (p, q) => fwdDiags p q
      | none => []) ++
    (match st.param2 with
      | some (p, q) => fwdDiags p q
      | none => [])

/-- Lines 128–184: the scan of the overload list `fdOverloads`, all ordered
pairs of its members. -/
def scanOverloads (frParams : List Nat) (fdOverloads : List FunctionDecl) : List Diag :=
  if fdOverloads.length ≤ 1 then []
  else
    fdOverloads.flatMap fun fd1 => fdOverloads.flatMap fun fd2 => pairDiags frParams fd1 fd2

/-- The expression `m[k]` read for its value: an absent key is inserted with an
empty list. -/
def subscript {α : Type} (m : List (String × List α)) (k : String) : List (String × List α) :=
  if (mapFind m k).isSome then m else m ++ [(k, [])]

/-- The function `ForwardReferenceOverloadedCheck::check`: the state after the
call and the diagnostics emitted by the call, in order. -/
def fwdCheck (st : FwdState) : FwdMatch → FwdState × List Diag
  | FwdMatch.funcDecl FD =>
    let name := FD.qualifiedName
    if !FD.definitionIsSelf then (st, [])
    else if FD.hasMemberSpecializationInfo then (st, [])
    else if FD.hasTemplateSpecializationInfo then (st, [])
    else
      let fds := subscript (pushBack st.fds name FD) name
      ({ st with fds := fds }, scanOverloads st.frParams (recordsOf fds name))
  | FwdMatch.parmVar PVD TTPD =>
    match PVD.parent with
    | none => (st, [])
    | some ParmParent.otherContext => (st, [])
    | some (ParmParent.function parentFD) =>
      let name := parentFD.qualifiedName
      match parentFD.describedFunctionTemplate with
      | none => (st, [])
      | some parentFTD =>
        match parentFTD.templateParameters with
        | none => (st, [])
        | some templateParameters =>
          if TTPD ∉ templateParameters then (st, [])
          else
            let frParams := st.frParams.insert PVD.addr
            let fds := subscript st.fds name
            ({ frParams := frParams, fds := fds }, scanOverloads frParams (recordsOf fds name))

/-- The overload `f(T&&)`: one parameter, at address 1, of type 100, declared
at location 11 (sample input). -/
def sampleForwarding : FunctionDecl :=
  { addr := 1000, qualifiedName := "f",
    parameters := [{ addr := 1, typePtr := 100, location := 11 }] }

/-- The overload `f(int)`: one parameter, at address 2, of type 200, declared
at location 21 (sample input). -/
def sampleInt : FunctionDecl :=
  { addr := 2000, qualifiedName := "f",
    parameters := [{ addr := 2, typePtr := 200, location := 21 }] }

end Bsl

namespace Bsl

/-- The check called on the match results of `ms` in turn, from the state `st`
on: the final state and all diagnostics emitted. -/
def fwdRunFrom (st : FwdState × List Diag) (ms : List FwdMatch) : FwdState × List Diag :=
  ms.foldl (fun acc m => ((fwdCheck acc.1 m).1, acc.2 ++ (fwdCheck acc.1 m).2)) st

/-- The check called on the match results of `ms` in turn, from the empty
state. -/
def fwdRun (ms : List FwdMatch) : FwdState × List Diag :=
  fwdRunFrom ({}, []) ms

/-- The condition of the specification under which a parameter is recorded as
a forwarding reference: its enclosing context is a function that has a
described function template whose template parameter list contains the
template type parameter `TTPD` the parameter refers to. -/
def recordableParm (PVD : ParmVarDecl) (TTPD : Nat) : Bool :=
  match PVD.parent with
  | some (ParmParent.function parentFD) =>
    match parentFD.describedFunctionTemplate with
    | some parentFTD =>
      match parentFTD.templateParameters with
      | some templateParameters => decide (TTPD ∈ templateParameters)
      | none => false
    | none => false
  | _ => false

/-- The parameter of `template <typename T> void f(T &&)`: at address 1, of
type 100, declared at location 11, in the function template `f` whose only
template parameter is at address 7 (sample input). -/
def sampleParmT : ParmVarDecl :=
  { addr := 1, typePtr := 100, location := 11,
    parent := some (ParmParent.function
      { qualifiedName := "f",
        describedFunctionTemplate := some { templateParameters := some [7] } }) }

/-- The parameter of `template <typename T> void f(T const &)`: at address 3,
of type 300, declared at location 31 (sample input). -/
def sampleParmConstRef : ParmVarDecl :=
  { addr := 3, typePtr := 300, location := 31,
    parent := some (ParmParent.function
      { qualifiedName := "f",
        describedFunctionTemplate := some { templateParameters := some [8] } }) }

/-- The definition of `f(T &&)` (sample input). -/
def sampleTemplateF : FunctionDecl :=
  { addr := 1000, qualifiedName := "f", parameters := [sampleParmT] }

/-- The definition of `f(T const &)` (sample input). -/
def sampleConstRefF : FunctionDecl :=
  { addr := 3000, qualifiedName := "f", parameters := [sampleParmConstRef] }

/-- The definition of `f(int a, T && b)`: `a` at address 4, of type 200, at
location 41; `b` at address 5, of type 100, at location 51 (sample input). -/
def sampleIntThenT : FunctionDecl :=
  { addr := 4000, qualifiedName := "f",
    parameters := [{ addr := 4, typePtr := 200, location := 41 },
                   { addr := 5, typePtr := 100, location := 51 }] }

/-- The definition of `f(long c, int d)`: `c` at address 6, of type 400, at
location 61; `d` at address 7, of type 200, at location 71 (sample input). -/
def sampleLongThenInt : FunctionDecl :=
  { addr := 5000, qualifiedName := "f",
    parameters := [{ addr := 6, typePtr := 400, location := 61 },
                   { addr := 7, typePtr := 200, location := 71 }] }

/-- The definition of `f(T && b, int a)`, the parameters of `sampleIntThenT`
in the other order (sample input). -/
def sampleTThenInt : FunctionDecl :=
  { addr := 6000, qualifiedName := "f",
    parameters := [{ addr := 5, typePtr := 100, location := 51 },
                   { addr := 4, typePtr := 200, location := 41 }] }

/-- The definition of `f(int d, long c)`, the parameters of
`sampleLongThenInt` in the other order (sample input). -/
def sampleIntThenLong : FunctionDecl :=
  { addr := 7000, qualifiedName := "f",
    parameters := [{ addr := 7, typePtr := 200, location := 71 },
                   { addr := 6, typePtr := 400, location := 61 }] }

/-- The definition of `template <typename T, typename U> void f(U &&)`, a
second function template named `f`: its parameter at address 9, of type 900,
at location 91 (sample input). -/
def sampleOtherTemplate : FunctionDecl :=
  { addr := 8000, qualifiedName := "f",
    parameters := [{ addr := 9, typePtr := 900, location := 91 }] }

end Bsl

namespace Bsl

/-! ## The check of constness and of mutability names (`VerifyConstCheck.cpp`) -/

/-- The call `s.startswith(p)` of `StringRef`. -/
def startswith (s p : String) : Bool := p.data.isPrefixOf s.data

/-- The call `s.drop_front(n)` of `StringRef`. -/
def drop_front (s : String) (n : Nat) : String := String.mk (s.data.drop n)

/-- A source location as `getRawTokenIdentifierStr` reads it: `isInvalid()`,
`isMacroID()`, whether `Lexer::getRawToken` fails at it (returns true), and
the text `getRawIdentifier()` of the token lexed there. -/
structure TokenLoc where
  isInvalid : Bool := false
  isMacroID : Bool := false
  getRawTokenFails : Bool := false
  rawIdentifier : String := ""
deriving DecidableEq

/-- Lines 43–56: the empty string for an invalid or macro location and when
the lexer fails, otherwise the text of the raw token. -/
def getRawTokenIdentifierStr (Loc : TokenLoc) : String :=
  if Loc.isInvalid || Loc.isMacroID then ""
  else if Loc.getRawTokenFails then ""
  else Loc.rawIdentifier

/-- The type `getType().getNonReferenceType()` as the check reads it:
`isDependentType()`, `isPointerType()`, `getPointeeType().isConstQualified()`
(read for pointer types only) and `isConstQualified()`. -/
structure QualType where
  isDependentType : Bool := false
  isPointerType : Bool := false
  pointeeIsConstQualified : Bool := false
  isConstQualified : Bool := false
deriving DecidableEq

/-- A `VarDecl` as `check_var_decl` reads it: `isInvalidDecl()`,
`isConstexpr()`, `getName()`, `isStaticLocal()`, `isStaticDataMember()`,
`isLocalVarDeclOrParm()`, the raw encoding of `getLocation()` (0 is the
invalid location), the type and `getBeginLoc()`. -/
structure VarDecl where
  name : String
  isInvalidDecl : Bool := false
  isConstexpr : Bool := false
  isStaticLocal : Bool := false
  isStaticDataMember : Bool := false
  isLocalVarDeclOrParm : Bool := true
  location : Nat := 1
  type : QualType := {}
  beginLoc : TokenLoc := {}
deriving DecidableEq

/-- A `FieldDecl` as `check_field_decl` reads it. -/
structure FieldDecl where
  name : String
  isInvalidDecl : Bool := false
  location : Nat := 1
  type : QualType := {}
  beginLoc : TokenLoc := {}
deriving DecidableEq

/-- The nodes bound in a match result of the check: `var-decl` or
`field-decl`. -/
inductive VerifyMatch where
  | varDecl (VD : VarDecl)
  | fieldDecl (FD : FieldDecl)
deriving DecidableEq

/-- A call of `diag` at the default level. -/
def warningAt (Loc : Nat) (message : String) : Diag :=
  { location := Loc, message := message, level := DiagLevel.warning }

/-- The message of line 246. -/
def msgLeftConstPointer : String :=
  "the const qualifier for the pointee to the pointer type %0 for variable %1 must be on " ++
  "the right of the type, not the left"

/-- The message of lines 252 and 347. -/
def msgLeftConst : String :=
  "the const qualifier for variable %0 must be on the right of the type, not the left"

/-- The message of lines 260–261. -/
def msgPointeeCannotBeConst : String :=
  "the pointee to the pointer type %0 for variable %1 cannot be marked as const or the " ++
  "variable's name must start with " ++
  "cst_, mut_, udm_, pcst_cst_, pcst_mut_, pcst_udm_, pudm_cst_, pudm_mut_ or pudm_udm_"

/-- The message of lines 268–269. -/
def msgPointeeMustBeConst : String :=
  "the pointee to the pointer type %0 for variable %1 must be marked as const or the " ++
  "variable's name must start with " ++
  "pmut_cst_, pmut_mut_, pmut_udm_, pudm_cst_, pudm_mut_ or pudm_udm_"

/-- The message of lines 279–280. -/
def msgPointerCannotBeConst : String :=
  "the variable %0 of type %1 canont be marked as const or the variable's name must " ++
  "start with " ++
  "cst_, udm_, pcst_cst_, pcst_udm_, pmut_cst_, pmut_udm_, pudm_cst_ or pudm_udm_"

/-- The message of lines 293–294. -/
def msgPointerMustBeConst : String :=
  "the variable %0 of type %1 must be marked as const or the variable's name must " ++
  "start with " ++
  "mut_, udm_, pcst_mut_, pcst_udm_, pmut_mut_, pmut_udm_, pudm_mut_ or pudm_udm_"

/-- The message of line 308. -/
def msgPointerOnly : String :=
  "the variable %0 has a pointer-only suffix which is not allowed for non-pointer types"

/-- The message of line 314. -/
def msgValueCannotBeConst : String :=
  "the variable %0 of type %1 canont be marked as const if it starts with mut_"

/-- The message of line 320. -/
def msgValueMustBeConst : String :=
  "the variable %0 of type %1 must be marked as const or start with mut_, udm_ or pudm_udm_"

/-- Lines 69–81: the name the grammar is applied to.  A leading `s_` is
dropped for a static local and for a static data member, then a leading `g_`
is dropped for a variable that is not local. -/
def storageStrippedName (VD : VarDecl) : String :=
  let name := VD.name
  let name :=
    if VD.isStaticLocal || VD.isStaticDataMember then
      if startswith name "s_" then drop_front name 2 else name
    else name
  let name :=
    if !VD.isLocalVarDeclOrParm then
      if startswith name "g_" then drop_front name 2 else name
    else name
  name

/-- Lines 258–272: the test of the pointee of a pointer type; a non-empty
result is a `diag` followed by `return`. -/
def pointeeTest (QT : QualType) (name : String) (Loc : Nat) : List Diag :=
  if QT.pointeeIsConstQualified then
    if startswith name "pmut_" then [warningAt Loc msgPointeeCannotBeConst] else []
  else
    if !startswith name "pmut_" && !startswith name "pudm_" then
      [warningAt Loc msgPointeeMustBeConst]
    else []

/-- Lines 274–297: the test of the pointer variable itself. -/
def pointerVariableTest (QT : QualType) (name : String) (Loc : Nat) : List Diag :=
  if QT.isConstQualified then
    if startswith name "mut_" || startswith name "pcst_mut_" || startswith name "pmut_mut_" ||
        startswith name "pudm_mut_" then
      [warningAt Loc msgPointerCannotBeConst]
    else []
  else
    if !startswith name "mut_" && !startswith name "udm_" && !startswith name "pcst_mut_" &&
        !startswith name "pcst_udm_" && !startswith name "pmut_mut_" &&
        !startswith name "pmut_udm_" && !startswith name "pudm_mut_" &&
        !startswith name "pudm_udm_" then
      [warningAt Loc msgPointerMustBeConst]
    else []

/-- Lines 300–310: the test for pointer-only tokens in the name of a variable
that is not a pointer. -/
def pointerOnlyTest (name : String) (Loc : Nat) : List Diag :=
  if startswith name "pcst_cst_" || startswith name "pcst_mut_" ||
      startswith name "pcst_udm_" || startswith name "pmut_cst_" ||
      startswith name "pmut_mut_" || startswith name "pmut_udm_" ||
      startswith name "pudm_cst_" || startswith name "pudm_mut_" then
    [warningAt Loc msgPointerOnly]
  else []

/-- Lines 312–323: the test of a variable that is not a pointer. -/
def valueVariableTest (QT : QualType) (name : String) (Loc : Nat) : List Diag :=
  if QT.isConstQualified then
    if startswith name "mut_" then [warningAt Loc msgValueCannotBeConst] else []
  else
    if !startswith name "mut_" && !startswith name "udm_" && !startswith name "pudm_udm_" then
      [warningAt Loc msgValueMustBeConst]
    else []

/-- Two tests in sequence: when the first emits a diagnostic the function
returns and the second is not run. -/
def thenTest (first second : List Diag) : List Diag :=
  match first with
  | [] => second
  | ds => ds

/-- The function `VerifyConstCheck::check_var_decl` (lines 58–325): the
diagnostics it emits; `none` is a match result that binds no `var-decl`. -/
def check_var_decl : Option VarDecl → List Diag
  | none => []
  | some VD =>
    if VD.isInvalidDecl then []
    else if VD.isConstexpr then []
    else if VD.name.isEmpty then []
    else
      let name := storageStrippedName VD
      let Loc := VD.location
      if Loc == 0 then []
      else
        let QT := VD.type
        if QT.isDependentType then []
        else if getRawTokenIdentifierStr VD.beginLoc == "const" then
          if QT.isPointerType then [warningAt Loc msgLeftConstPointer]
          else [warningAt Loc msgLeftConst]
        else if QT.isPointerType then
          thenTest (pointeeTest QT name Loc) (pointerVariableTest QT name Loc)
        else
          thenTest (pointerOnlyTest name Loc) (valueVariableTest QT name Loc)

/-- The function `VerifyConstCheck::check_field_decl` (lines 327–349). -/
def check_field_decl : Option FieldDecl → List Diag
  | none => []
  | some FD =>
    if FD.isInvalidDecl then []
    else if FD.location == 0 then []
    else if FD.name.isEmpty then []
    else if FD.type.isConstQualified then
      if getRawTokenIdentifierStr FD.beginLoc != "const" then []
      else [warningAt FD.location msgLeftConst]
    else []

/-- The node `getNodeAs<VarDecl>("var-decl")` of a match result. -/
def VerifyMatch.varNode : VerifyMatch → Option VarDecl
  | VerifyMatch.varDecl VD => some VD
  | VerifyMatch.fieldDecl _ => none

/-- The node `getNodeAs<FieldDecl>("field-decl")` of a match result. -/
def VerifyMatch.fieldNode : VerifyMatch → Option FieldDecl
  | VerifyMatch.varDecl _ => none
  | VerifyMatch.fieldDecl FD => some FD

/-- The function `VerifyConstCheck::check` (lines 351–354). -/
def VerifyConstCheck.check (Result : VerifyMatch) : List Diag :=
  check_var_decl Result.varNode ++ check_field_decl Result.fieldNode

/-! ### The tables of the source comment -/

/-- A local variable of the table of non-pointer types: of type `bool const`
when `topConst` holds, otherwise `bool`; the declaration starts with the
token `bool`. -/
def valueRow (r : Bool × String) : VarDecl :=
  { name := r.2, type := { isConstQualified := r.1 }, beginLoc := { rawIdentifier := "bool" } }

/-- A local variable of the table of pointer types: the pointee is
`bool const` when the first component holds, the pointer is `*const` when
the second holds; the declaration starts with the token `bool`. -/
def pointerRow (r : Bool × Bool × String) : VarDecl :=
  { name := r.2.2,
    type := { isPointerType := true, pointeeIsConstQualified := r.1, isConstQualified := r.2.1 },
    beginLoc := { rawIdentifier := "bool" } }

/-- The thirteen name prefixes of the grammar: none, the three variable
tokens, and the nine pairs of a pointee token and a variable token. -/
def namePrefixes : List String :=
  ["", "cst_", "mut_", "udm_", "pcst_cst_", "pcst_mut_", "pcst_udm_", "pmut_cst_",
   "pmut_mut_", "pmut_udm_", "pudm_cst_", "pudm_mut_", "pudm_udm_"]

/-- The rows marked `correct` of the table of non-pointer types in the comment
of lines 153–161: whether the type is `bool const` (otherwise `bool`), and
the name. -/
def valueRowsCorrect : List (Bool × String) :=
  [(true, "i"), (true, "cst_i"), (false, "mut_i"), (false, "udm_i"), (true, "udm_i"),
   (false, "pudm_udm_i"), (true, "pudm_udm_i")]

/-- The rows marked `error` of the table of non-pointer types in the comment
of lines 163–181. -/
def valueRowsError : List (Bool × String) :=
  [(false, "i"), (false, "cst_i"), (true, "mut_i"), (false, "pcst_cst_i"),
   (true, "pcst_cst_i"), (false, "pcst_mut_i"), (true, "pcst_mut_i"), (false, "pcst_udm_i"),
   (true, "pcst_udm_i"), (false, "pmut_cst_i"), (true, "pmut_cst_i"), (false, "pmut_mut_i"),
   (true, "pmut_mut_i"), (false, "pmut_udm_i"), (true, "pmut_udm_i"), (false, "pudm_cst_i"),
   (true, "pudm_cst_i"), (false, "pudm_mut_i"), (true, "pudm_mut_i")]

/-- The rows marked `correct` of the table of pointer types in the comment of
lines 185–205: whether the pointee is `bool const` (otherwise `bool`),
whether the pointer is `*const` (otherwise `*`), and the name. -/
def pointerRowsCorrect : List (Bool × Bool × String) :=
  [(true, true, "i"), (true, true, "cst_i"), (true, false, "mut_i"), (true, false, "udm_i"),
   (true, true, "udm_i"), (true, true, "pcst_cst_i"), (true, false, "pcst_mut_i"),
   (true, false, "pcst_udm_i"), (true, true, "pcst_udm_i"), (false, true, "pmut_cst_i"),
   (false, false, "pmut_mut_i"), (false, false, "pmut_udm_i"), (false, true, "pmut_udm_i"),
   (false, true, "pudm_cst_i"), (true, true, "pudm_cst_i"), (false, false, "pudm_mut_i"),
   (true, false, "pudm_mut_i"), (false, false, "pudm_udm_i"), (false, true, "pudm_udm_i"),
   (true, false, "pudm_udm_i"), (true, true, "pudm_udm_i")]

/-- The rows marked `error` of the table of pointer types in the comment of
lines 207–237. -/
def pointerRowsError : List (Bool × Bool × String) :=
  [(false, false, "i"), (false, true, "i"), (true, false, "i"), (false, false, "cst_i"),
   (false, true, "cst_i"), (true, false, "cst_i"), (false, false, "mut_i"),
   (false, true, "mut_i"), (true, true, "mut_i"), (false, false, "udm_i"),
   (false, true, "udm_i"), (false, false, "pcst_cst_i"), (false, true, "pcst_cst_i"),
   (true, false, "pcst_cst_i"), (false, false, "pcst_mut_i"), (false, true, "pcst_mut_i"),
   (true, true, "pcst_mut_i"), (false, false, "pcst_udm_i"), (false, true, "pcst_udm_i"),
   (false, false, "pmut_cst_i"), (true, false, "pmut_cst_i"), (true, true, "pmut_cst_i"),
   (false, true, "pmut_mut_i"), (true, false, "pmut_mut_i"), (true, true, "pmut_mut_i"),
   (true, false, "pmut_udm_i"), (true, true, "pmut_udm_i"), (false, false, "pudm_cst_i"),
   (true, false, "pudm_cst_i"), (false, true, "pudm_mut_i"), (true, true, "pudm_mut_i")]

/-- An unnamed parameter of type `bool *` (sample input). -/
def sampleUnnamedPointer : VarDecl :=
  { name := "", type := { isPointerType := true }, beginLoc := { rawIdentifier := "bool" } }

/-- The local variable `bool *pcst_mut_p` (sample input). -/
def samplePointerVar : VarDecl :=
  { name := "pcst_mut_p", type := { isPointerType := true },
    beginLoc := { rawIdentifier := "bool" } }

/-- The local variable `const bool leftConstVar`, declared at location 9
(sample input). -/
def sampleLeftConst : VarDecl :=
  { name := "leftConstVar", location := 9, type := { isConstQualified := true },
    beginLoc := { rawIdentifier := "const" } }

/-- The local variable `bool const pcst_cst_i`, declared at location 5 (sample
input). -/
def samplePointerOnlyName : VarDecl :=
  { name := "pcst_cst_i", location := 5, type := { isConstQualified := true },
    beginLoc := { rawIdentifier := "bool" } }

end Bsl

namespace Bsl

/-! ### Further definitions for the claims on the checks -/

/-- Lines 244–324 of `check_var_decl`: the tests applied to the name `name`
for a variable of type `QT` whose declaration starts with the raw identifier
`tok`. -/
def nameGrammar (QT : QualType) (tok : String) (name : String) (Loc : Nat) : List Diag :=
  if tok == "const" then
    if QT.isPointerType then [warningAt Loc msgLeftConstPointer]
    else [warningAt Loc msgLeftConst]
  else if QT.isPointerType then
    thenTest (pointeeTest QT name Loc) (pointerVariableTest QT name Loc)
  else
    thenTest (pointerOnlyTest name Loc) (valueVariableTest QT name Loc)

/-- The static data member `static bool s_g_mut_x` of a class (sample input). -/
def sampleStaticMember : VarDecl :=
  { name := "s_g_mut_x", isStaticDataMember := true, isLocalVarDeclOrParm := false,
    location := 3, beginLoc := { rawIdentifier := "static" } }

/-- The field `const bool *m_p`, a pointer to const, declared at location 4
(sample input). -/
def sampleFieldPointerToConst : FieldDecl :=
  { name := "m_p", location := 4,
    type := { isPointerType := true, pointeeIsConstQualified := true },
    beginLoc := { rawIdentifier := "const" } }

/-- The field `const bool m_b`, declared at location 6 (sample input). -/
def sampleFieldLeftConst : FieldDecl :=
  { name := "m_b", location := 6, type := { isConstQualified := true },
    beginLoc := { rawIdentifier := "const" } }

/-- The definition of `void ns::f(int)` (sample input). -/
def sampleFuncF1 : NamedDecl :=
  { addr := 80, name := "f", specifier := "ns::", qualifiedName := "ns::f",
    kind := DeclKind.function, location := 800, declContext := some DeclContext.namespaceDecl }

/-- The definition of `void ns::f(long)` (sample input). -/
def sampleFuncF2 : NamedDecl :=
  { addr := 81, name := "f", specifier := "ns::", qualifiedName := "ns::f",
    kind := DeclKind.function, location := 810, declContext := some DeclContext.namespaceDecl }

/-- A class named `_T` in the namespace `b`, a reserved name (sample input). -/
def sampleReserved : NamedDecl :=
  { addr := 90, name := "_T", specifier := "b::", qualifiedName := "b::_T",
    kind := DeclKind.cxxRecord, location := 900, declContext := some DeclContext.namespaceDecl }

/-- The class `outer::my_nullptr_t_box` (sample input). -/
def sampleBoxOuter : NamedDecl :=
  { addr := 91, name := "my_nullptr_t_box", specifier := "outer::",
    qualifiedName := "outer::my_nullptr_t_box", kind := DeclKind.cxxRecord, location := 910,
    declContext := some DeclContext.namespaceDecl }

/-- The class `outer::inner::my_nullptr_t_box` (sample input). -/
def sampleBoxInner : NamedDecl :=
  { addr := 92, name := "my_nullptr_t_box", specifier := "outer::inner::",
    qualifiedName := "outer::inner::my_nullptr_t_box", kind := DeclKind.cxxRecord,
    location := 920, declContext := some DeclContext.namespaceDecl }

end Bsl

namespace Bsl

/-! ## Characters -/

theorem char_eq_iff_toNat (a b : Char) : a = b ↔ a.toNat = b.toNat := by
  constructor
  · intro h; rw [h]
  · intro h; exact Char.ext (UInt32.ext h)

theorem toNat_ofNat_of_lt (n : Nat) (h : n < 55296) : (Char.ofNat n).toNat = n := by
  have hv : n.isValidChar := Or.inl h
  simp [Char.ofNat, hv, Char.ofNatAux, Char.toNat, UInt32.toNat]

theorem tolower_toNat (c : Char) :
    (tolower c).toNat = if 65 ≤ c.toNat ∧ c.toNat ≤ 90 then c.toNat + 32 else c.toNat := by
  unfold tolower
  split
  · exact toNat_ofNat_of_lt _ (by omega)
  · rfl

theorem tolower_eq_toLower (c : Char) : tolower c = Char.toLower c := by
  simp [tolower, Char.toLower]

theorem switchTable_eq_none_iff (c : Char) :
    switchTable c = none ↔
      c.toNat ≠ 48 ∧ c.toNat ≠ 49 ∧ c.toNat ≠ 108 ∧ c.toNat ≠ 76 ∧ c.toNat ≠ 53 ∧
      c.toNat ≠ 50 ∧ c.toNat ≠ 104 ∧ c.toNat ≠ 72 ∧ c.toNat ≠ 56 := by
  unfold switchTable
  simp only [char_eq_iff_toNat c]
  repeat' split
  all_goals simp_all

theorem switchTable_some_out {c r : Char} (h : switchTable c = some r) :
    r ≠ '_' ∧ switchTable r = none := by
  unfold switchTable at h
  repeat' split at h
  all_goals first
    | (cases h; exact ⟨by decide, by decide⟩)
    | (exact absurd h (by simp))

theorem stable_tolower {e : Char} (h1 : e ≠ '_') (h2 : switchTable e = none) :
    Stable (tolower e) := by
  rw [switchTable_eq_none_iff] at h2
  have h95 : ('_' : Char).toNat = 95 := by decide
  have h1 : e.toNat ≠ 95 := fun h => h1 ((char_eq_iff_toNat e '_').2 (h.trans h95.symm))
  have ht := tolower_toNat e
  refine ⟨?_, ?_, ?_⟩
  · intro h
    have := (char_eq_iff_toNat _ _).1 h
    rw [h95, ht] at this
    split at this <;> omega
  · rw [switchTable_eq_none_iff, ht]; split <;> omega
  · rw [char_eq_iff_toNat, tolower_toNat, ht]
    by_cases hu : 65 ≤ e.toNat ∧ e.toNat ≤ 90
    · rw [if_pos hu, if_neg (by omega)]
    · rw [if_neg hu, if_neg hu]

end Bsl

namespace Bsl

/-! ## The scan loop, one step at a time -/

theorem isDigraph_iff (c d : Char) :
    isDigraph c d = true ↔ (c = 'r' ∨ c = 'R') ∧ (d = 'n' ∨ d = 'N') := by
  simp only [isDigraph, Bool.or_eq_true, Bool.and_eq_true, beq_iff_eq]
  tauto

theorem switchTable_of_isDigraph {c d : Char} (h : isDigraph c d = true) :
    c ≠ '_' ∧ switchTable c = none := by
  rw [isDigraph_iff] at h
  rcases h.1 with rfl | rfl <;> exact ⟨by decide, by decide⟩

theorem scanLoop_cons_underscore (l : List Char) : scanLoop ('_' :: l) = scanLoop l := by
  cases l with
  | nil => simp [scanLoop]
  | cons d rest => simp [scanLoop]

theorem scanLoop_cons_table {c r : Char} (l : List Char) (hc : c ≠ '_')
    (h : switchTable c = some r) : scanLoop (c :: l) = r :: scanLoop l := by
  cases l with
  | nil => simp [scanLoop, hc, h]
  | cons d rest => simp [scanLoop, hc, h]

theorem scanLoop_cons_digraph {c d : Char} (l : List Char) (h : isDigraph c d = true) :
    scanLoop (c :: d :: l) = 'm' :: scanLoop l := by
  obtain ⟨hc, ht⟩ := switchTable_of_isDigraph h
  simp [scanLoop, hc, ht, h]

theorem scanLoop_cons_copy {c : Char} (l : List Char) (hc : c ≠ '_')
    (ht : switchTable c = none) (hd : ∀ d ∈ l.head?, isDigraph c d = false) :
    scanLoop (c :: l) = c :: scanLoop l := by
  cases l with
  | nil => simp [scanLoop, hc, ht]
  | cons d rest =>
    have := hd d (by simp)
    simp [scanLoop, hc, ht, this]

/-- Induction along the iterations of the loop: an underscore is skipped, a key
of the switch is replaced, a digraph is replaced and its second character
skipped, any other character is copied. -/
theorem scanLoop_ind (P : List Char → Prop) (hnil : P [])
    (hus : ∀ l, P l → P ('_' :: l))
    (htab : ∀ c r l, c ≠ '_' → switchTable c = some r → P l → P (c :: l))
    (hdig : ∀ c d l, isDigraph c d = true → P l → P (c :: d :: l))
    (hcopy : ∀ c l, c ≠ '_' → switchTable c = none →
      (∀ d ∈ l.head?, isDigraph c d = false) → P l → P (c :: l)) :
    ∀ l, P l := by
  intro l
  induction l using scanLoop.induct with
  | case1 => exact hnil
  | case2 => exact hus [] hnil
  | case3 c hc r hr => exact htab c r [] hc hr hnil
  | case4 c hc ht => exact hcopy c [] hc ht (by simp) hnil
  | case5 d rest ih => exact hus _ ih
  | case6 c d rest hc r hr ih => exact htab c r _ hc hr ih
  | case7 c d rest hc ht hd ih => exact hdig c d rest hd ih
  | case8 c d rest hc ht hd ih =>
    refine hcopy c _ hc ht ?_ ih
    intro x hx
    simp at hx
    subst hx
    simpa using hd

/-- Every character the loop appends is neither `_` nor a key of the switch. -/
theorem scanLoop_emits (l : List Char) :
    ∀ e ∈ scanLoop l, e ≠ '_' ∧ switchTable e = none := by
  induction l using scanLoop_ind with
  | hnil => simp [scanLoop]
  | hus l ih => rw [scanLoop_cons_underscore]; exact ih
  | htab c r l hc hr ih =>
    rw [scanLoop_cons_table l hc hr]
    intro e he
    rcases List.mem_cons.1 he with rfl | he
    · exact switchTable_some_out hr
    · exact ih e he
  | hdig c d l h ih =>
    rw [scanLoop_cons_digraph l h]
    intro e he
    rcases List.mem_cons.1 he with rfl | he
    · exact ⟨by decide, by decide⟩
    · exact ih e he
  | hcopy c l hc ht hd ih =>
    rw [scanLoop_cons_copy l hc ht hd]
    intro e he
    rcases List.mem_cons.1 he with rfl | he
    · exact ⟨hc, ht⟩
    · exact ih e he

theorem scanLoop_length_le (l : List Char) : (scanLoop l).length ≤ l.length := by
  induction l using scanLoop_ind with
  | hnil => simp [scanLoop]
  | hus l ih => rw [scanLoop_cons_underscore]; simp; omega
  | htab c r l hc hr ih => rw [scanLoop_cons_table l hc hr]; simpa using ih
  | hdig c d l h ih => rw [scanLoop_cons_digraph l h]; simp; omega
  | hcopy c l hc ht hd ih => rw [scanLoop_cons_copy l hc ht hd]; simpa using ih

theorem scanLoop_eq_nil_iff (l : List Char) : scanLoop l = [] ↔ ∀ c ∈ l, c = '_' := by
  induction l using scanLoop_ind with
  | hnil => simp [scanLoop]
  | hus l ih => rw [scanLoop_cons_underscore, ih]; simp
  | htab c r l hc hr ih => rw [scanLoop_cons_table l hc hr]; simp [hc]
  | hdig c d l h ih =>
    rw [scanLoop_cons_digraph l h]; simp [(switchTable_of_isDigraph h).1]
  | hcopy c l hc ht hd ih => rw [scanLoop_cons_copy l hc ht hd]; simp [hc]

theorem removeAmbiguity_data (s : String) :
    (removeAmbiguity s).data = (scanLoop s.data).map tolower := rfl

theorem stable_of_mem_removeAmbiguity (s : String) :
    ∀ e ∈ (removeAmbiguity s).data, Stable e := by
  intro e he
  rw [removeAmbiguity_data] at he
  obtain ⟨a, ha, rfl⟩ := List.mem_map.1 he
  exact stable_tolower (scanLoop_emits _ a ha).1 (scanLoop_emits _ a ha).2

theorem map_tolower_of_stable (t : List Char) (h : ∀ e ∈ t, Stable e) :
    t.map tolower = t := by
  induction t with
  | nil => rfl
  | cons c l ih =>
    simp only [List.map_cons]
    rw [(h c (by simp)).2.2, ih (fun e he => h e (List.mem_cons_of_mem _ he))]

theorem not_isDigraph_of_stable {c d : Char} (hc : Stable c) (hd : Stable d)
    (h : ¬ (c = 'r' ∧ d = 'n')) : isDigraph c d = false := by
  by_contra hcon
  have hcon : isDigraph c d = true := by simpa using hcon
  rw [isDigraph_iff] at hcon
  obtain ⟨h1, h2⟩ := hcon
  have hR : c ≠ 'R' := fun e => by
    have := hc.2.2; rw [e] at this; exact absurd this (by decide)
  have hN : d ≠ 'N' := fun e => by
    have := hd.2.2; rw [e] at this; exact absurd this (by decide)
  rcases h1 with h1 | h1
  · rcases h2 with h2 | h2
    · exact h ⟨h1, h2⟩
    · exact hN h2
  · exact hR h1

/-- On a text of stable characters without `rn` the loop is the identity. -/
theorem scanLoop_of_stable (t : List Char) (h : ∀ e ∈ t, Stable e)
    (hrn : hasAdjacentRN t = false) : scanLoop t = t := by
  induction t with
  | nil => rfl
  | cons c l ih =>
    have hc := h c (by simp)
    have hl : ∀ e ∈ l, Stable e := fun e he => h e (List.mem_cons_of_mem _ he)
    have hrn' : hasAdjacentRN l = false := by
      cases l with
      | nil => rfl
      | cons d rest => simp [hasAdjacentRN] at hrn; exact hrn.2
    rw [scanLoop_cons_copy l hc.1 hc.2.1, ih hl hrn']
    intro d hd
    cases l with
    | nil => simp at hd
    | cons x rest =>
      simp at hd
      subst hd
      apply not_isDigraph_of_stable hc (hl _ (by simp))
      simp [hasAdjacentRN] at hrn
      intro hh
      exact absurd hh.2 (hrn.1 hh.1)

/-! ## The reference scan -/

theorem lookup_cons_ite (a k b : Char) (es : List (Char × Char)) :
    List.lookup a ((k, b) :: es) = if a = k then some b else List.lookup a es := by
  by_cases h : a = k
  · simp [List.lookup, h]
  · have hb : (a == k) = false := by simpa using h
    simp [List.lookup, hb, h]

theorem lookup_specSingleTable (c : Char) : specSingleTable.lookup c = switchTable c := by
  simp only [specSingleTable, lookup_cons_ite, List.lookup_nil, switchTable]

theorem mem_specDigraphs (c d : Char) : (c, d) ∈ specDigraphs ↔ isDigraph c d = true := by
  rw [isDigraph_iff]
  simp [specDigraphs]
  tauto

theorem referenceScan_eq_scanLoop (l : List Char) : referenceScan l = scanLoop l := by
  induction l using scanLoop.induct with
  | case1 => rfl
  | case2 => simp [referenceScan, scanLoop]
  | case3 c hc r hr => simp [referenceScan, scanLoop, hc, lookup_specSingleTable, hr]
  | case4 c hc ht => simp [referenceScan, scanLoop, hc, lookup_specSingleTable, ht]
  | case5 d rest ih => simp [referenceScan, scanLoop, ih]
  | case6 c d rest hc r hr ih =>
    have hnd : ¬ isDigraph c d = true := fun h => by
      have := (switchTable_of_isDigraph h).2; rw [hr] at this; cases this
    simp [referenceScan, scanLoop, hc, lookup_specSingleTable, hr, mem_specDigraphs, hnd, ih]
  | case7 c d rest hc ht hd ih =>
    simp [referenceScan, scanLoop, hc, ht, mem_specDigraphs, hd, ih]
  | case8 c d rest hc ht hd ih =>
    simp [referenceScan, scanLoop, hc, lookup_specSingleTable, ht, mem_specDigraphs, hd, ih]

end Bsl

namespace Bsl

/-! ## Claims about `removeAmbiguity` -/

/-- C1, counterexample: normalising `rh` gives `rn`, and normalising `rn`
gives `m`, so `removeAmbiguity` is not idempotent at `rh`. -/
theorem removeAmbiguity_not_idempotent_rh :
    removeAmbiguity (removeAmbiguity "rh") ≠ removeAmbiguity "rh" := by
  decide

/-- C1, amended: for every string `s` whose normal form contains no `r`
immediately followed by `n`, normalising the normal form again changes
nothing. -/
theorem removeAmbiguity_idempotent_of_no_rn (s : String)
    (h : hasAdjacentRN (removeAmbiguity s).data = false) :
    removeAmbiguity (removeAmbiguity s) = removeAmbiguity s := by
  have hst := stable_of_mem_removeAmbiguity s
  show String.mk ((scanLoop (removeAmbiguity s).data).map tolower) = removeAmbiguity s
  rw [scanLoop_of_stable _ hst h, map_tolower_of_stable _ hst]

theorem removeAmbiguity_idempotent_of_no_rn_witness :
    hasAdjacentRN (removeAmbiguity "l0g1n").data = false ∧
      removeAmbiguity (removeAmbiguity "l0g1n") = removeAmbiguity "l0g1n" :=
  ⟨by decide, removeAmbiguity_idempotent_of_no_rn "l0g1n" (by decide)⟩

/-- C2: the three confusable laws: `l0g1n` and `iogin`, `Rnmut` and `mmut`,
`H8` and `nb` have the same normal form. -/
theorem removeAmbiguity_confusable_laws :
    removeAmbiguity "l0g1n" = removeAmbiguity "iogin" ∧
    removeAmbiguity "Rnmut" = removeAmbiguity "mmut" ∧
    removeAmbiguity "H8" = removeAmbiguity "nb" := by
  decide

/-- C3: for every string, `removeAmbiguity` returns what the reference
normaliser returns, which tries the digraph rule before the single-character
table; trying the table first, as the source does, makes no difference. -/
theorem removeAmbiguity_eq_referenceNormalize (s : String) :
    removeAmbiguity s = referenceNormalize s := by
  unfold removeAmbiguity referenceNormalize
  have hmap : (scanLoop s.data).map tolower = (scanLoop s.data).map Char.toLower :=
    List.map_congr_left (fun c _ => tolower_eq_toLower c)
  rw [referenceScan_eq_scanLoop, hmap]

/-- C4, the code at the failing input `r_n`: the look-ahead of the digraph
test reads the underscore, so `r` and `n` are copied and the result is `rn`,
whereas the same name without its underscore is normalised to `m`. -/
theorem removeAmbiguity_underscore_blocks_digraph :
    removeAmbiguity "r_n" = "rn" ∧ removeAmbiguity (stripUnderscores "r_n") = "m" ∧
      removeAmbiguity "r_n" ≠ removeAmbiguity (stripUnderscores "r_n") := by
  decide

/-- C5: the normal form of a string is empty exactly when every character of
the string is an underscore, the empty string included. -/
theorem removeAmbiguity_eq_empty_iff (s : String) :
    removeAmbiguity s = "" ↔ ∀ c ∈ s.data, c = '_' := by
  rw [← scanLoop_eq_nil_iff]
  constructor
  · intro h
    have h2 : (removeAmbiguity s).data = [] := by rw [h]
    rw [removeAmbiguity_data] at h2
    exact List.map_eq_nil_iff.1 h2
  · intro h
    unfold removeAmbiguity
    rw [h]
    rfl

/-! ## Claims about `areContainedInDifferentBlocks` -/

/-- C6: when both declarations have an enclosing function or method, the
result is true exactly when the two enclosing functions are different
entities, whatever the other attributes are. -/
theorem areContainedInDifferentBlocks_both_local (a b : NamedDecl) (p q : DeclRef)
    (ha : a.parentFunctionOrMethod = some p) (hb : b.parentFunctionOrMethod = some q) :
    areContainedInDifferentBlocks a b = true ↔ p.addr ≠ q.addr := by
  simp [areContainedInDifferentBlocks, areContainedInDifferentBlocksAux, ha, hb, ptrNe]

theorem areContainedInDifferentBlocks_both_local_witness :
    areContainedInDifferentBlocks
        { addr := 10, specifier := "ns::", parentFunctionOrMethod := some { addr := 1 } }
        { addr := 11, specifier := "ns::", parentFunctionOrMethod := some { addr := 2 } } = true ↔
      (1 : Nat) ≠ 2 :=
  areContainedInDifferentBlocks_both_local
    { addr := 10, specifier := "ns::", parentFunctionOrMethod := some { addr := 1 } }
    { addr := 11, specifier := "ns::", parentFunctionOrMethod := some { addr := 2 } }
    { addr := 1 } { addr := 2 } rfl rfl

end Bsl

namespace Bsl

theorem isEmpty_eq_true_iff (s : String) : s.isEmpty = true ↔ s = "" := by
  cases s with
  | mk l =>
    cases l with
    | nil => simp [String.isEmpty, String.endPos, String.utf8ByteSize, String.utf8ByteSize.go]
    | cons c t =>
      have hne : (String.mk (c :: t)) ≠ "" := fun h => by
        have := congrArg String.data h
        simp at this
      have hpos : 0 < c.utf8Size := Char.utf8Size_pos c
      simp only [String.isEmpty, String.endPos, String.utf8ByteSize, String.utf8ByteSize.go,
        beq_iff_eq, hne, iff_false]
      intro h
      have := congrArg String.Pos.byteIdx h
      simp at this
      omega

theorem areContainedInDifferentNamespaces_iff (x y : Option DeclRef) :
    areContainedInDifferentNamespaces x y = true ↔
      getNestedNameSpecifierAsString x ≠ "" ∧ getNestedNameSpecifierAsString y ≠ "" ∧
        getNestedNameSpecifierAsString x ≠ getNestedNameSpecifierAsString y := by
  unfold areContainedInDifferentNamespaces
  by_cases h1 : getNestedNameSpecifierAsString x = ""
  · simp [h1, (isEmpty_eq_true_iff "").2 rfl]
  · by_cases h2 : getNestedNameSpecifierAsString y = ""
    · simp [h2, (isEmpty_eq_true_iff "").2 rfl]
    · have e1 : (getNestedNameSpecifierAsString x).isEmpty = false := by
        rw [Bool.eq_false_iff]; exact fun h => h1 ((isEmpty_eq_true_iff _).1 h)
      have e2 : (getNestedNameSpecifierAsString y).isEmpty = false := by
        rw [Bool.eq_false_iff]; exact fun h => h2 ((isEmpty_eq_true_iff _).1 h)
      simp [e1, e2, h1, h2]

/-- C7, counterexample: a declaration at global scope (empty path) and one in
namespace `ns`, neither local to a function nor inside a class: the paths
differ and the result is false. -/
theorem areContainedInDifferentBlocks_global_vs_namespace :
    findParentDecl { addr := 1, specifier := "", declContext := some DeclContext.other } = none ∧
    findParentDecl { addr := 2, specifier := "ns::", declContext := some DeclContext.other } = none ∧
    ("" : String) ≠ "ns::" ∧
    areContainedInDifferentBlocks
      { addr := 1, specifier := "", declContext := some DeclContext.other }
      { addr := 2, specifier := "ns::", declContext := some DeclContext.other } = false := by
  decide

/-- C7, amended: for two declarations that do not both have an enclosing
block and of which neither has an enclosing class, the result is true exactly
when both scope paths are non-empty and differ, the scope path of a
declaration with an enclosing block being that of its enclosing function. -/
theorem areContainedInDifferentBlocks_no_container (a b : NamedDecl)
    (hnb : ¬ (a.parentFunctionOrMethod.isSome = true ∧ b.parentFunctionOrMethod.isSome = true))
    (ha : findParentDecl a = none) (hb : findParentDecl b = none) :
    areContainedInDifferentBlocks a b = true ↔
      getNestedNameSpecifierAsString (scopePathDecl a) ≠ "" ∧
      getNestedNameSpecifierAsString (scopePathDecl b) ≠ "" ∧
      getNestedNameSpecifierAsString (scopePathDecl a) ≠
        getNestedNameSpecifierAsString (scopePathDecl b) := by
  rw [← areContainedInDifferentNamespaces_iff]
  unfold areContainedInDifferentBlocks areContainedInDifferentBlocksAux scopePathDecl
  cases h1 : a.parentFunctionOrMethod <;> cases h2 : b.parentFunctionOrMethod <;>
    simp_all [Option.orElse]

theorem areContainedInDifferentBlocks_no_container_witness :
    areContainedInDifferentBlocks
        { addr := 1, specifier := "a::", declContext := some DeclContext.other }
        { addr := 2, specifier := "b::", declContext := some DeclContext.other } = true ↔
      ("a::" : String) ≠ "" ∧ ("b::" : String) ≠ "" ∧ ("a::" : String) ≠ "b::" :=
  areContainedInDifferentBlocks_no_container
    { addr := 1, specifier := "a::", declContext := some DeclContext.other }
    { addr := 2, specifier := "b::", declContext := some DeclContext.other }
    (by decide) rfl rfl

/-- C8: for two declarations that do not both have an enclosing block and that
both have an enclosing class, the result is true exactly when the two classes
are different entities; their names and namespaces play no part. -/
theorem areContainedInDifferentBlocks_both_containers (a b : NamedDecl) (r1 r2 : DeclRef)
    (hnb : ¬ (a.parentFunctionOrMethod.isSome = true ∧ b.parentFunctionOrMethod.isSome = true))
    (ha : findParentDecl a = some r1) (hb : findParentDecl b = some r2) :
    areContainedInDifferentBlocks a b = true ↔ r1.addr ≠ r2.addr := by
  unfold areContainedInDifferentBlocks areContainedInDifferentBlocksAux
  cases h1 : a.parentFunctionOrMethod <;> cases h2 : b.parentFunctionOrMethod <;>
    simp_all [Option.orElse, ptrNe]

theorem areContainedInDifferentBlocks_both_containers_witness :
    areContainedInDifferentBlocks
        { addr := 1, specifier := "a::S::",
          declContext := some (DeclContext.cxxRecord { addr := 7, specifier := "a::" }) }
        { addr := 2, specifier := "b::S::",
          declContext := some (DeclContext.cxxRecord { addr := 8, specifier := "b::" }) } = true ↔
      (7 : Nat) ≠ 8 :=
  areContainedInDifferentBlocks_both_containers
    { addr := 1, specifier := "a::S::",
      declContext := some (DeclContext.cxxRecord { addr := 7, specifier := "a::" }) }
    { addr := 2, specifier := "b::S::",
      declContext := some (DeclContext.cxxRecord { addr := 8, specifier := "b::" }) }
    { addr := 7, specifier := "a::" } { addr := 8, specifier := "b::" } (by decide) rfl rfl

/-- C9, counterexample: inside one method (address 1) of a class (address 5),
an enumerator of a local enumeration (no enclosing class found) and a local
variable (enclosing class found): exactly one has a container, the other has
an enclosing block, and the result is false. -/
theorem areContainedInDifferentBlocks_same_method_mixed :
    findParentDecl
      { addr := 10, declContext := some DeclContext.other,
        parentFunctionOrMethod := some { addr := 1 } } = none ∧
    findParentDecl
      { addr := 11, declContext := some (DeclContext.cxxMethod { addr := 5 }),
        parentFunctionOrMethod := some { addr := 1 } } = some { addr := 5 } ∧
    areContainedInDifferentBlocks
      { addr := 10, declContext := some DeclContext.other,
        parentFunctionOrMethod := some { addr := 1 } }
      { addr := 11, declContext := some (DeclContext.cxxMethod { addr := 5 }),
        parentFunctionOrMethod := some { addr := 1 } } = false := by
  decide

/-- C9, amended: for two declarations that do not both have an enclosing
block, of which exactly one has an enclosing class and the other has an
enclosing block, the result is true. -/
theorem areContainedInDifferentBlocks_container_vs_local (a b : NamedDecl)
    (hnb : ¬ (a.parentFunctionOrMethod.isSome = true ∧ b.parentFunctionOrMethod.isSome = true))
    (h : (findParentDecl a = none ∧ (findParentDecl b).isSome = true ∧
            a.parentFunctionOrMethod.isSome = true) ∨
         ((findParentDecl a).isSome = true ∧ findParentDecl b = none ∧
            b.parentFunctionOrMethod.isSome = true)) :
    areContainedInDifferentBlocks a b = true := by
  unfold areContainedInDifferentBlocks areContainedInDifferentBlocksAux
  cases h1 : a.parentFunctionOrMethod <;> cases h2 : b.parentFunctionOrMethod <;>
    cases h3 : findParentDecl a <;> cases h4 : findParentDecl b <;>
    simp_all [Option.orElse]

theorem areContainedInDifferentBlocks_container_vs_local_witness :
    areContainedInDifferentBlocks
      { addr := 10, declContext := some DeclContext.other,
        parentFunctionOrMethod := some { addr := 1 } }
      { addr := 11, declContext := some (DeclContext.cxxRecord { addr := 5 }) } = true :=
  areContainedInDifferentBlocks_container_vs_local
    { addr := 10, declContext := some DeclContext.other,
      parentFunctionOrMethod := some { addr := 1 } }
    { addr := 11, declContext := some (DeclContext.cxxRecord { addr := 5 }) }
    (by decide) (by decide)

/-- C10, counterexample: a function `ns::f` and a member of the class `ns::S`:
the scope-path strings `ns::` and `ns::S::` of the two declarations differ,
and the result is false, because the path of the class (`ns::`) is compared. -/
theorem areContainedInDifferentBlocks_member_vs_namespace :
    findParentDecl { addr := 10, specifier := "ns::", declContext := some DeclContext.other }
      = none ∧
    findParentDecl
      { addr := 11, specifier := "ns::S::",
        declContext := some (DeclContext.cxxRecord { addr := 5, specifier := "ns::" }) }
      = some { addr := 5, specifier := "ns::" } ∧
    ("ns::" : String) ≠ "ns::S::" ∧
    areContainedInDifferentBlocks
      { addr := 10, specifier := "ns::", declContext := some DeclContext.other }
      { addr := 11, specifier := "ns::S::",
        declContext := some (DeclContext.cxxRecord { addr := 5, specifier := "ns::" }) }
      = false := by
  decide

/-- C10, amended: for two declarations of which exactly one has an enclosing
class and the other has neither an enclosing block nor an enclosing class,
the result is true exactly when the scope-path string of the declaration
without a class differs from the scope-path string of the other
declaration's class. -/
theorem areContainedInDifferentBlocks_container_vs_global (a b : NamedDecl)
    (h : (findParentDecl a = none ∧ a.parentFunctionOrMethod = none ∧
            (findParentDecl b).isSome = true) ∨
         (findParentDecl b = none ∧ b.parentFunctionOrMethod = none ∧
            (findParentDecl a).isSome = true)) :
    areContainedInDifferentBlocks a b = true ↔ containerOrOwnPath a ≠ containerOrOwnPath b := by
  unfold areContainedInDifferentBlocks areContainedInDifferentBlocksAux containerOrOwnPath
  cases h1 : a.parentFunctionOrMethod <;> cases h2 : b.parentFunctionOrMethod <;>
    cases h3 : findParentDecl a <;> cases h4 : findParentDecl b <;>
    simp_all [Option.orElse, hasDifferentNamespaces]

theorem areContainedInDifferentBlocks_container_vs_global_witness :
    areContainedInDifferentBlocks
        { addr := 10, specifier := "a::", declContext := some DeclContext.other }
        { addr := 11, specifier := "ns::S::",
          declContext := some (DeclContext.cxxRecord { addr := 5, specifier := "ns::" }) }
        = true ↔
      containerOrOwnPath
          { addr := 10, specifier := "a::", declContext := some DeclContext.other } ≠
        containerOrOwnPath
          { addr := 11, specifier := "ns::S::",
            declContext := some (DeclContext.cxxRecord { addr := 5, specifier := "ns::" }) } :=
  areContainedInDifferentBlocks_container_vs_global
    { addr := 10, specifier := "a::", declContext := some DeclContext.other }
    { addr := 11, specifier := "ns::S::",
      declContext := some (DeclContext.cxxRecord { addr := 5, specifier := "ns::" }) }
    (by decide)

end Bsl

namespace Bsl

/-! ## The map of record lists -/

theorem mapFind_nil {α : Type} (k : String) : mapFind ([] : List (String × List α)) k = none :=
  rfl

theorem mapFind_cons {α : Type} (k' : String) (l : List α) (m : List (String × List α))
    (k : String) : mapFind ((k', l) :: m) k = if k = k' then some l else mapFind m k := by
  by_cases h : k = k'
  · simp [mapFind, List.lookup, h]
  · have hb : (k == k') = false := by simpa using h
    simp [mapFind, List.lookup, hb, h]

theorem mapFind_pushBack_same {α : Type} (m : List (String × List α)) (k : String) (x : α) :
    mapFind (pushBack m k x) k = some (recordsOf m k ++ [x]) := by
  induction m with
  | nil => simp [pushBack, mapFind_cons, recordsOf, mapFind_nil]
  | cons p rest ih =>
    obtain ⟨k', l⟩ := p
    by_cases h : k' = k
    · subst h
      simp [pushBack, mapFind_cons, recordsOf]
    · have h' : ¬ k = k' := fun e => h e.symm
      simp only [pushBack, h, if_false, mapFind_cons, h', recordsOf] at ih ⊢
      exact ih

theorem mapFind_pushBack_other {α : Type} (m : List (String × List α)) (k k' : String) (x : α)
    (h : k' ≠ k) : mapFind (pushBack m k x) k' = mapFind m k' := by
  induction m with
  | nil => simp [pushBack, mapFind_cons, mapFind_nil, h]
  | cons p rest ih =>
    obtain ⟨k0, l⟩ := p
    by_cases h0 : k0 = k
    · subst h0
      simp [pushBack, mapFind_cons, h]
    · simp only [pushBack, h0, if_false, mapFind_cons, ih]

theorem recordsOf_pushBack_same {α : Type} (m : List (String × List α)) (k : String) (x : α) :
    recordsOf (pushBack m k x) k = recordsOf m k ++ [x] := by
  simp [recordsOf, mapFind_pushBack_same]

theorem recordsOf_pushBack_other {α : Type} (m : List (String × List α)) (k k' : String) (x : α)
    (h : k' ≠ k) : recordsOf (pushBack m k x) k' = recordsOf m k' := by
  simp [recordsOf, mapFind_pushBack_other m k k' x h]

theorem mem_of_mapFind {α : Type} {m : List (String × List α)} {k : String} {l : List α}
    (h : mapFind m k = some l) {r : α} (hr : r ∈ l) : r ∈ recordsOf m k := by
  simp [recordsOf, h, hr]

/-! ## One call of the typographic check -/

theorem firstCollision_eq_none_iff (D : NamedDecl) (l : List NamedDecl) :
    firstCollision D l = none ↔ ∀ r ∈ l, skipsRecord D r = true := by
  induction l with
  | nil => simp [firstCollision]
  | cons r rest ih =>
    by_cases h : skipsRecord D r = true
    · simp [firstCollision, h, ih]
    · simp [firstCollision, h]

theorem firstCollision_eq_some {D r : NamedDecl} {l : List NamedDecl}
    (h : firstCollision D l = some r) :
    ∃ pre post, l = pre ++ r :: post ∧ (∀ x ∈ pre, skipsRecord D x = true) ∧
      skipsRecord D r = false := by
  induction l with
  | nil => simp [firstCollision] at h
  | cons x rest ih =>
    by_cases hx : skipsRecord D x = true
    · simp only [firstCollision, hx, if_true] at h
      obtain ⟨pre, post, e, hp, hr⟩ := ih h
      refine ⟨x :: pre, post, by rw [e]; rfl, ?_, hr⟩
      intro y hy
      rcases List.mem_cons.1 hy with rfl | hy
      · exact hx
      · exact hp y hy
    · simp only [firstCollision, hx] at h
      simp only [Bool.false_eq_true, if_false, Option.some.injEq] at h
      subst h
      exact ⟨[], rest, rfl, by simp, by simpa using hx⟩

/-- The three outcomes of one call. -/
theorem typoCheck_cases (m : Registry) (D : NamedDecl) :
    (typoIgnored D = true ∧ typoCheck m D = (m, [])) ∨
    (typoIgnored D = false ∧ ∃ r, firstCollision D (recordsOf m (removeAmbiguity D.name)) = some r ∧
      typoCheck m D = (m, typoDiags D r)) ∨
    (typoIgnored D = false ∧ firstCollision D (recordsOf m (removeAmbiguity D.name)) = none ∧
      typoCheck m D = (pushBack m (removeAmbiguity D.name) D, [])) := by
  by_cases hi : typoIgnored D = true
  · left; exact ⟨hi, by simp [typoCheck, hi]⟩
  · right
    have hi' : typoIgnored D = false := by simpa using hi
    cases hf : mapFind m (removeAmbiguity D.name) with
    | none =>
      right
      refine ⟨hi', by simp [recordsOf, hf, firstCollision], ?_⟩
      simp [typoCheck, hi', hf]
    | some l =>
      cases hc : firstCollision D l with
      | none =>
        right
        refine ⟨hi', by simp [recordsOf, hf, hc], ?_⟩
        simp [typoCheck, hi', hf, hc]
      | some r =>
        left
        refine ⟨hi', r, by simp [recordsOf, hf, hc], ?_⟩
        simp [typoCheck, hi', hf, hc]

/-! ## Runs of the typographic check -/

theorem typoRunFrom_nil (st : Registry × List Diag) : typoRunFrom st [] = st := rfl

theorem typoRunFrom_cons (st : Registry × List Diag) (d : NamedDecl) (ds : List NamedDecl) :
    typoRunFrom st (d :: ds) =
      typoRunFrom ((typoCheck st.1 d).1, st.2 ++ (typoCheck st.1 d).2) ds := rfl

theorem typoRunFrom_append (st : Registry × List Diag) (ds es : List NamedDecl) :
    typoRunFrom st (ds ++ es) = typoRunFrom (typoRunFrom st ds) es := by
  simp [typoRunFrom, List.foldl_append]

theorem typoRun_snoc (ds : List NamedDecl) (d : NamedDecl) :
    typoRun (ds ++ [d]) =
      ((typoCheck (typoRun ds).1 d).1, (typoRun ds).2 ++ (typoCheck (typoRun ds).1 d).2) := by
  simp [typoRun, typoRunFrom_append, typoRunFrom_cons, typoRunFrom_nil]

/-- Every record of a reachable registry passed the filter of lines 274–361 and
is stored under its canonical name. -/
theorem typoRun_records (ds : List NamedDecl) :
    ∀ k, ∀ r ∈ recordsOf (typoRun ds).1 k, typoIgnored r = false ∧ removeAmbiguity r.name = k := by
  induction ds using List.reverseRecOn with
  | nil => intro k r hr; simp [typoRun, typoRunFrom_nil, recordsOf, mapFind_nil] at hr
  | append_singleton ds d ih =>
    intro k r hr
    rw [typoRun_snoc] at hr
    simp only at hr
    rcases typoCheck_cases (typoRun ds).1 d with ⟨_, e⟩ | ⟨_, _, _, e⟩ | ⟨hi, _, e⟩
    · rw [e] at hr; exact ih k r hr
    · rw [e] at hr; exact ih k r hr
    · rw [e] at hr
      by_cases hk : k = removeAmbiguity d.name
      · subst hk
        rw [recordsOf_pushBack_same] at hr
        rcases List.mem_append.1 hr with hr | hr
        · exact ih _ r hr
        · simp at hr; subst hr; exact ⟨hi, rfl⟩
      · rw [recordsOf_pushBack_other _ _ _ _ hk] at hr
        exact ih k r hr

end Bsl

namespace Bsl

theorem isaFieldDecl_of_not_ignored {D : NamedDecl} (h : typoIgnored D = false) :
    isaFieldDecl D.kind = false := by
  cases hk : D.kind <;> simp_all [typoIgnored, isaFieldDecl]

/-- Away from field declarations the `continue` statements of the loop are
the three exemptions of the specification. -/
theorem skipsRecord_eq_not_specCollides {D r : NamedDecl} (hD : isaFieldDecl D.kind = false)
    (hr : isaFieldDecl r.kind = false) : skipsRecord D r = !specCollides D r := by
  have hv : (bothAre isaVarDecl D r && areTheSameVarDecls D r) = areTheSameVarDecls D r := by
    unfold bothAre areTheSameVarDecls
    cases isaVarDecl D.kind <;> cases isaVarDecl r.kind <;> simp
  have hf : bothAre isaFunctionDecl D r = (isaFunctionDecl D.kind && isaFunctionDecl r.kind) := by
    unfold bothAre
    cases isaFunctionDecl D.kind <;> cases isaFunctionDecl r.kind <;> simp
  unfold skipsRecord specCollides
  rw [hv, hf, hD, hr]
  simp [hasSameQualifiedName, Bool.and_assoc, Bool.or_assoc]

/-! ## Claims about the registry of the typographic check -/

/-- C11: in every registry reachable from the empty one by calls of the check,
each record found under a key `k` holds a declaration whose canonical name
`removeAmbiguity (name)` is `k`. -/
theorem typoRegistry_keys_are_canonical (ds : List NamedDecl) (k : String)
    (l : List NamedDecl) (r : NamedDecl) (hk : mapFind (typoRun ds).1 k = some l)
    (hr : r ∈ l) : removeAmbiguity r.name = k :=
  (typoRun_records ds k r (mem_of_mapFind hk hr)).2

theorem typoRegistry_keys_are_canonical_witness :
    mapFind (typoRun [sampleVarL]).1 "i" = some [sampleVarL] ∧ sampleVarL ∈ [sampleVarL] ∧
      removeAmbiguity sampleVarL.name = "i" :=
  ⟨by decide, by decide,
    typoRegistry_keys_are_canonical [sampleVarL] "i" [sampleVarL] sampleVarL (by decide)
      (by decide)⟩

/-- C12: in every reachable registry and for every offered declaration `d`, the
call emits either nothing or one diagnostic at `d` followed by one note, and
the note is at the earliest record under the canonical name of `d` that
collides with `d`: every record before it is an overload, the same variable or
in a distinct scope. -/
theorem typoCheck_cites_first_collision (ds : List NamedDecl) (d : NamedDecl) :
    (typoCheck (typoRun ds).1 d).2 = [] ∨
    ∃ pre r post,
      recordsOf (typoRun ds).1 (removeAmbiguity d.name) = pre ++ r :: post ∧
      (∀ x ∈ pre, specCollides d x = false) ∧ specCollides d r = true ∧
      (typoCheck (typoRun ds).1 d).2 =
        [{ location := d.location,
           message := "Different identifiers shall be typographically unambiguous",
           level := DiagLevel.warning },
         { location := r.location, message := "previous identifier found here",
           level := DiagLevel.note }] := by
  rcases typoCheck_cases (typoRun ds).1 d with ⟨_, e⟩ | ⟨hi, r, hc, e⟩ | ⟨_, _, e⟩
  · left; rw [e]
  · right
    obtain ⟨pre, post, hl, hpre, hr⟩ := firstCollision_eq_some hc
    have hd := isaFieldDecl_of_not_ignored hi
    have hrec : ∀ x ∈ pre ++ r :: post, isaFieldDecl x.kind = false := by
      intro x hx
      rw [← hl] at hx
      exact isaFieldDecl_of_not_ignored (typoRun_records ds _ x hx).1
    refine ⟨pre, r, post, hl, ?_, ?_, by rw [e]; rfl⟩
    · intro x hx
      have := hpre x hx
      rw [skipsRecord_eq_not_specCollides hd (hrec x (by simp [hx]))] at this
      simpa using this
    · rw [skipsRecord_eq_not_specCollides hd (hrec r (by simp))] at hr
      simpa using hr
  · left; rw [e]

/-- C13, counterexample: `l` is registered, then `I` of the same function is
offered; the call emits its diagnostic and afterwards no record for `I` is
in the registry. -/
theorem typoCheck_diagnosed_not_registered :
    typoIgnored sampleVarI = false ∧
    (typoCheck (typoRun [sampleVarL]).1 sampleVarI).2 =
      [{ location := 200,
         message := "Different identifiers shall be typographically unambiguous",
         level := DiagLevel.warning },
       { location := 100, message := "previous identifier found here",
         level := DiagLevel.note }] ∧
    sampleVarI ∉ recordsOf (typoCheck (typoRun [sampleVarL]).1 sampleVarI).1
      (removeAmbiguity sampleVarI.name) := by
  decide

/-- C13, amended: when the check emits its diagnostic for a declaration `d`, it
returns at once: the registry after the call is the registry before the call,
and `d` is not added to it. -/
theorem typoCheck_diagnosed_registry_unchanged (m : Registry) (d : NamedDecl)
    (h : (typoCheck m d).2 ≠ []) : (typoCheck m d).1 = m := by
  rcases typoCheck_cases m d with ⟨_, e⟩ | ⟨_, _, _, e⟩ | ⟨_, _, e⟩
  · rw [e]
  · rw [e]
  · rw [e] at h; exact absurd rfl h

theorem typoCheck_diagnosed_registry_unchanged_witness :
    (typoCheck (typoRun [sampleVarL]).1 sampleVarI).2 ≠ [] ∧
      (typoCheck (typoRun [sampleVarL]).1 sampleVarI).1 = (typoRun [sampleVarL]).1 :=
  ⟨by decide,
    typoCheck_diagnosed_registry_unchanged (typoRun [sampleVarL]).1 sampleVarI (by decide)⟩

/-- C14: when an eligible declaration `d` collides with no record under its
canonical name (the loop passes over each of them), the call emits nothing
and appends `d` at the end of the list of that key; the earlier records of
the key and the lists of all other keys are unchanged. -/
theorem typoCheck_registers_when_no_collision (m : Registry) (d : NamedDecl)
    (hd : typoIgnored d = false)
    (hc : ∀ r ∈ recordsOf m (removeAmbiguity d.name), skipsRecord d r = true) :
    (typoCheck m d).2 = [] ∧
    mapFind (typoCheck m d).1 (removeAmbiguity d.name) =
      some (recordsOf m (removeAmbiguity d.name) ++ [d]) ∧
    ∀ k, k ≠ removeAmbiguity d.name → mapFind (typoCheck m d).1 k = mapFind m k := by
  have hnone := (firstCollision_eq_none_iff d _).2 hc
  rcases typoCheck_cases m d with ⟨hi, _⟩ | ⟨_, r, hr, _⟩ | ⟨_, _, e⟩
  · rw [hd] at hi; cases hi
  · rw [hnone] at hr; cases hr
  · rw [e]
    exact ⟨rfl, mapFind_pushBack_same _ _ _, fun k hk => mapFind_pushBack_other _ _ _ _ hk⟩

theorem typoCheck_registers_when_no_collision_witness :
    (typoCheck (typoRun [sampleVarL]).1 sampleVarI2).2 = [] ∧
    mapFind (typoCheck (typoRun [sampleVarL]).1 sampleVarI2).1 (removeAmbiguity sampleVarI2.name) =
      some (recordsOf (typoRun [sampleVarL]).1 (removeAmbiguity sampleVarI2.name) ++
        [sampleVarI2]) ∧
    ∀ k, k ≠ removeAmbiguity sampleVarI2.name →
      mapFind (typoCheck (typoRun [sampleVarL]).1 sampleVarI2).1 k =
        mapFind (typoRun [sampleVarL]).1 k :=
  typoCheck_registers_when_no_collision (typoRun [sampleVarL]).1 sampleVarI2 (by decide)
    (by decide)

end Bsl

namespace Bsl

/-! ## Symmetry of the tests of the loop -/

theorem ptrNe_comm (p q : Option DeclRef) : ptrNe p q = ptrNe q p := by
  unfold ptrNe
  rw [Bool.eq_iff_iff]
  simp only [bne_iff_ne, ne_eq]
  exact ⟨fun h e => h e.symm, fun h e => h e.symm⟩

theorem hasDifferentNamespaces_comm (x y : Option DeclRef) :
    hasDifferentNamespaces x y = hasDifferentNamespaces y x := by
  unfold hasDifferentNamespaces
  rw [Bool.eq_iff_iff]
  simp only [bne_iff_ne, ne_eq]
  exact ⟨fun h e => h e.symm, fun h e => h e.symm⟩

theorem areContainedInDifferentNamespaces_comm (x y : Option DeclRef) :
    areContainedInDifferentNamespaces x y = areContainedInDifferentNamespaces y x := by
  rw [Bool.eq_iff_iff, areContainedInDifferentNamespaces_iff, areContainedInDifferentNamespaces_iff]
  exact ⟨fun h => ⟨h.2.1, h.1, fun e => h.2.2 e.symm⟩, fun h => ⟨h.2.1, h.1, fun e => h.2.2 e.symm⟩⟩

theorem areContainedInDifferentBlocksAux_comm (a b : NamedDecl) :
    areContainedInDifferentBlocksAux a b = areContainedInDifferentBlocksAux b a := by
  unfold areContainedInDifferentBlocksAux
  cases h1 : a.parentFunctionOrMethod <;> cases h2 : b.parentFunctionOrMethod <;>
    cases h3 : findParentDecl a <;> cases h4 : findParentDecl b <;>
    simp [Option.orElse, ptrNe_comm, areContainedInDifferentNamespaces_comm,
      hasDifferentNamespaces_comm]

theorem areContainedInDifferentBlocks_comm (a b : NamedDecl) :
    areContainedInDifferentBlocks a b = areContainedInDifferentBlocks b a := by
  unfold areContainedInDifferentBlocks
  rw [areContainedInDifferentBlocksAux_comm]

theorem hasSameQualifiedName_comm (a b : NamedDecl) :
    hasSameQualifiedName a b = hasSameQualifiedName b a := by
  unfold hasSameQualifiedName
  rw [Bool.eq_iff_iff]
  simp only [beq_iff_eq]
  exact ⟨Eq.symm, Eq.symm⟩

theorem bothAre_comm (isaT : DeclKind → Bool) (a b : NamedDecl) :
    bothAre isaT a b = bothAre isaT b a := by
  unfold bothAre
  cases isaT a.kind <;> cases isaT b.kind <;> rfl

theorem areTheSameVarDecls_comm (a b : NamedDecl) :
    areTheSameVarDecls a b = areTheSameVarDecls b a := by
  unfold areTheSameVarDecls
  rw [ptrNe_comm a.parentFunctionOrMethod, hasSameQualifiedName_comm a b]
  cases isaVarDecl a.kind <;> cases isaVarDecl b.kind <;> rfl

theorem skipsRecord_comm (a b : NamedDecl) : skipsRecord a b = skipsRecord b a := by
  unfold skipsRecord
  rw [bothAre_comm isaFunctionDecl a b, bothAre_comm isaVarDecl a b,
    hasSameQualifiedName_comm a b, areTheSameVarDecls_comm a b,
    areContainedInDifferentBlocks_comm a b]
  cases (bothAre isaFunctionDecl b a && hasSameQualifiedName b a) <;>
    cases (bothAre isaVarDecl b a && areTheSameVarDecls b a) <;>
    cases areContainedInDifferentBlocks b a <;>
    cases (isaParmVarDecl a.kind && isaFieldDecl b.kind) <;>
    cases (isaParmVarDecl b.kind && isaFieldDecl a.kind) <;> rfl

theorem collide_comm (a b : NamedDecl) : collide a b = collide b a := by
  unfold collide
  rw [skipsRecord_comm a b, Bool.eq_iff_iff]
  simp only [Bool.and_eq_true, beq_iff_eq]
  exact ⟨fun h => ⟨h.1.symm, h.2⟩, fun h => ⟨h.1.symm, h.2⟩⟩

/-! ## Runs on one and two declarations -/

theorem typoRun_single (A : NamedDecl) (hA : typoIgnored A = false) :
    typoRun [A] = ([(removeAmbiguity A.name, [A])], []) := by
  simp [typoRun, typoRunFrom_cons, typoRunFrom_nil, typoCheck, hA, mapFind, pushBack]

theorem typoRun_pair (A B : NamedDecl) (hA : typoIgnored A = false)
    (hB : typoIgnored B = false) :
    typoRun [A, B] =
      if collide B A = true then ([(removeAmbiguity A.name, [A])], typoDiags B A)
      else (pushBack [(removeAmbiguity A.name, [A])] (removeAmbiguity B.name) B, []) := by
  have h1 : typoRun [A, B] =
      ((typoCheck (typoRun [A]).1 B).1, (typoRun [A]).2 ++ (typoCheck (typoRun [A]).1 B).2) :=
    typoRun_snoc [A] B
  rw [h1, typoRun_single A hA]
  simp only [List.nil_append]
  unfold collide
  by_cases hk : removeAmbiguity B.name = removeAmbiguity A.name
  · by_cases hs : skipsRecord B A = true
    · simp [typoCheck, hB, mapFind_cons, hk, firstCollision, hs]
    · have hs' : skipsRecord B A = false := by simpa using hs
      simp [typoCheck, hB, mapFind_cons, hk, firstCollision, hs']
  · simp [typoCheck, hB, mapFind_cons, hk, mapFind_nil]

theorem typoDiags_ne_nil (D r : NamedDecl) : typoDiags D r ≠ [] := by
  simp [typoDiags]

end Bsl

namespace Bsl

theorem not_isaFunctionDecl_of_isaVarDecl {k : DeclKind} (h : isaVarDecl k = true) :
    isaFunctionDecl k = false ∧ isaFieldDecl k = false := by
  cases k <;> simp_all [isaVarDecl, isaFunctionDecl, isaFieldDecl]

/-- The tests of the loop for two variables that both are local to a function:
only the same variable or two different functions make the loop pass on. -/
theorem skipsRecord_locals (a b : NamedDecl) (f g : DeclRef) (hva : isaVarDecl a.kind = true)
    (hvb : isaVarDecl b.kind = true) (hq : a.qualifiedName ≠ b.qualifiedName)
    (hfa : a.parentFunctionOrMethod = some f) (hfb : b.parentFunctionOrMethod = some g) :
    skipsRecord b a = decide (f.addr ≠ g.addr) := by
  obtain ⟨hfa', hfla⟩ := not_isaFunctionDecl_of_isaVarDecl hva
  obtain ⟨hfb', hflb⟩ := not_isaFunctionDecl_of_isaVarDecl hvb
  have hq' : ¬ b.qualifiedName = a.qualifiedName := fun e => hq e.symm
  have hblk : areContainedInDifferentBlocks b a = decide (f.addr ≠ g.addr) := by
    simp [areContainedInDifferentBlocks, areContainedInDifferentBlocksAux, hfa, hfb, ptrNe]
    by_cases e : f.addr = g.addr
    · simp [e]
    · have e' : ¬ g.addr = f.addr := fun x => e x.symm
      simp [e, e']
  simp [skipsRecord, bothAre, hfa', hfb', hfla, hflb, hva, hvb, areTheSameVarDecls,
    hasSameQualifiedName, hq', hblk]

/-! ## Claims about runs of the typographic check -/

/-- C15: two local variables with different raw names (and so different
qualified names) and one canonical name, offered in turn to the empty
registry: in one function, exactly one diagnostic, at the second with its
note at the first; in two different functions, no diagnostic, and the
registry holds both. -/
theorem typoRun_two_locals (a b : NamedDecl) (f g : DeclRef)
    (ha : typoIgnored a = false) (hb : typoIgnored b = false)
    (hva : isaVarDecl a.kind = true) (hvb : isaVarDecl b.kind = true)
    (hname : a.name ≠ b.name) (hq : a.qualifiedName ≠ b.qualifiedName)
    (hcanon : removeAmbiguity a.name = removeAmbiguity b.name)
    (hfa : a.parentFunctionOrMethod = some f) (hfb : b.parentFunctionOrMethod = some g) :
    (f.addr = g.addr →
      (typoRun [a, b]).2 =
        [{ location := b.location,
           message := "Different identifiers shall be typographically unambiguous",
           level := DiagLevel.warning },
         { location := a.location, message := "previous identifier found here",
           level := DiagLevel.note }]) ∧
    (f.addr ≠ g.addr →
      (typoRun [a, b]).2 = [] ∧
      recordsOf (typoRun [a, b]).1 (removeAmbiguity a.name) = [a, b]) := by
  have _ := hname
  have hs := skipsRecord_locals a b f g hva hvb hq hfa hfb
  rw [typoRun_pair a b ha hb]
  unfold collide
  constructor
  · intro e
    have hs' : skipsRecord b a = false := by rw [hs]; simp [e]
    simp [hcanon, hs', typoDiags]
  · intro e
    have hs' : skipsRecord b a = true := by rw [hs]; simp [e]
    simp [hcanon, hs', pushBack, recordsOf, mapFind_cons]

theorem typoRun_two_locals_witness :
    ((1 : Nat) = 1 →
      (typoRun [sampleVarL, sampleVarI]).2 =
        [{ location := 200,
           message := "Different identifiers shall be typographically unambiguous",
           level := DiagLevel.warning },
         { location := 100, message := "previous identifier found here",
           level := DiagLevel.note }]) ∧
    ((1 : Nat) ≠ 1 →
      (typoRun [sampleVarL, sampleVarI]).2 = [] ∧
      recordsOf (typoRun [sampleVarL, sampleVarI]).1 (removeAmbiguity sampleVarL.name) =
        [sampleVarL, sampleVarI]) :=
  typoRun_two_locals sampleVarL sampleVarI { addr := 1 } { addr := 1 } (by decide) (by decide)
    (by decide) (by decide) (by decide) (by decide) (by decide) rfl rfl

/-- C16: for two eligible declarations `A` and `B`, offering `A` then `B` to
the empty registry emits a diagnostic exactly when offering `B` then `A`
does, namely exactly when the two collide.  When they collide, each order
emits exactly one diagnostic with its note: the warning at the declaration
offered second and the note at the one offered first, so the two orders
differ only in which declaration is the primary location and which the note.
When they do not collide, neither order emits anything. -/
theorem typoRun_pair_order (A B : NamedDecl) (hA : typoIgnored A = false)
    (hB : typoIgnored B = false) :
    ((typoRun [A, B]).2 ≠ [] ↔ (typoRun [B, A]).2 ≠ []) ∧
    ((typoRun [A, B]).2 ≠ [] ↔ collide A B = true) ∧
    (collide A B = true →
      (typoRun [A, B]).2 =
        [{ location := B.location,
           message := "Different identifiers shall be typographically unambiguous",
           level := DiagLevel.warning },
         { location := A.location, message := "previous identifier found here",
           level := DiagLevel.note }] ∧
      (typoRun [B, A]).2 =
        [{ location := A.location,
           message := "Different identifiers shall be typographically unambiguous",
           level := DiagLevel.warning },
         { location := B.location, message := "previous identifier found here",
           level := DiagLevel.note }]) ∧
    (collide A B = false → (typoRun [A, B]).2 = [] ∧ (typoRun [B, A]).2 = []) := by
  rw [typoRun_pair A B hA hB, typoRun_pair B A hB hA, collide_comm B A]
  by_cases h : collide A B = true
  · simp [h, typoDiags]
  · simp [h]

theorem typoRun_pair_order_witness :
    typoIgnored sampleVarL = false ∧ typoIgnored sampleVarI = false ∧
    collide sampleVarL sampleVarI = true ∧
    (typoRun [sampleVarL, sampleVarI]).2 =
      [{ location := 200,
         message := "Different identifiers shall be typographically unambiguous",
         level := DiagLevel.warning },
       { location := 100, message := "previous identifier found here",
         level := DiagLevel.note }] ∧
    (typoRun [sampleVarI, sampleVarL]).2 =
      [{ location := 100,
         message := "Different identifiers shall be typographically unambiguous",
         level := DiagLevel.warning },
       { location := 200, message := "previous identifier found here",
         level := DiagLevel.note }] :=
  ⟨by decide, by decide, by decide,
    (typoRun_pair_order sampleVarL sampleVarI (by decide) (by decide)).2.2.1 (by decide)⟩

/-- A run over eligible declarations no two of which collide emits nothing and
stores under each key the declarations with that canonical name, in the
order of the run. -/
theorem typoRun_of_no_collision (es : List NamedDecl)
    (he : ∀ d ∈ es, typoIgnored d = false)
    (hn : es.Pairwise (fun x y => collide x y = false)) :
    (typoRun es).2 = [] ∧
    ∀ k, recordsOf (typoRun es).1 k = es.filter (fun d => removeAmbiguity d.name == k) := by
  induction es using List.reverseRecOn with
  | nil =>
    exact ⟨rfl, fun k => by simp [typoRun, typoRunFrom_nil, recordsOf, mapFind_nil]⟩
  | append_singleton es d ih =>
    rw [List.pairwise_append] at hn
    obtain ⟨hn1, _, hn3⟩ := hn
    obtain ⟨ih1, ih2⟩ := ih (fun x hx => he x (by simp [hx])) hn1
    have hd : typoIgnored d = false := he d (by simp)
    have hskip : ∀ r ∈ recordsOf (typoRun es).1 (removeAmbiguity d.name),
        skipsRecord d r = true := by
      intro r hr
      rw [ih2] at hr
      obtain ⟨hr1, hr2⟩ := List.mem_filter.1 hr
      have hc := hn3 r hr1 d (by simp)
      unfold collide at hc
      rw [skipsRecord_comm]
      simpa [beq_iff_eq.1 hr2] using hc
    have hnone := (firstCollision_eq_none_iff d _).2 hskip
    have e : typoCheck (typoRun es).1 d =
        (pushBack (typoRun es).1 (removeAmbiguity d.name) d, []) := by
      rcases typoCheck_cases (typoRun es).1 d with ⟨hi, _⟩ | ⟨_, r, hr, _⟩ | ⟨_, _, e⟩
      · rw [hd] at hi; cases hi
      · rw [hnone] at hr; cases hr
      · exact e
    rw [typoRun_snoc, e]
    refine ⟨by simp [ih1], ?_⟩
    intro k
    by_cases hk : k = removeAmbiguity d.name
    · subst hk
      simp [recordsOf_pushBack_same, ih2, List.filter_append]
    · have hk' : ¬ removeAmbiguity d.name = k := fun x => hk x.symm
      simp [recordsOf_pushBack_other _ _ _ _ hk, ih2, List.filter_append, hk']

/-- C17: for a list of eligible declarations no two of which collide, offering
the list in any order to the empty registry emits no diagnostic and
registers every declaration of the list. -/
theorem typoRun_perm_of_no_collision (ds ds' : List NamedDecl) (hp : List.Perm ds' ds)
    (he : ∀ d ∈ ds, typoIgnored d = false)
    (hn : ds.Pairwise (fun x y => collide x y = false)) :
    (typoRun ds').2 = [] ∧
    ∀ d ∈ ds, d ∈ recordsOf (typoRun ds').1 (removeAmbiguity d.name) := by
  have hn' : ds'.Pairwise (fun x y => collide x y = false) :=
    (List.Perm.pairwise_iff (fun {x y} h => by rw [collide_comm]; exact h) hp).2 hn
  have he' : ∀ d ∈ ds', typoIgnored d = false := fun d hd => he d (hp.mem_iff.1 hd)
  obtain ⟨h1, h2⟩ := typoRun_of_no_collision ds' he' hn'
  refine ⟨h1, fun d hd => ?_⟩
  rw [h2]
  exact List.mem_filter.2 ⟨hp.mem_iff.2 hd, by simp⟩

theorem typoRun_perm_of_no_collision_witness :
    (typoRun [sampleVarI2, sampleVarL]).2 = [] ∧
    ∀ d ∈ [sampleVarL, sampleVarI2],
      d ∈ recordsOf (typoRun [sampleVarI2, sampleVarL]).1 (removeAmbiguity d.name) :=
  typoRun_perm_of_no_collision [sampleVarL, sampleVarI2] [sampleVarI2, sampleVarL]
    (List.Perm.swap _ _ _) (by decide) (by decide)

end Bsl

namespace Bsl

/-! ## The namespace-uniqueness check -/

theorem findFrom_isSome_iff (str hay : List Char) (i : Nat) :
    (findFrom str hay i).isSome = true ↔ str <:+: hay := by
  induction hay generalizing i with
  | nil =>
    cases str with
    | nil => simp [findFrom]
    | cons c t => simp [findFrom]
  | cons c rest ih =>
    rw [List.infix_cons_iff]
    by_cases hp : str <+: c :: rest
    · have : str.isPrefixOf (c :: rest) = true := List.isPrefixOf_iff_prefix.2 hp
      simp [findFrom, this, hp]
    · have : str.isPrefixOf (c :: rest) = false := by
        rw [Bool.eq_false_iff]; exact fun h => hp (List.isPrefixOf_iff_prefix.1 h)
      simp only [findFrom, this, hp, false_or]
      exact ih (i + 1)

theorem stringFind_isSome_iff (s str : String) :
    (stringFind s str).isSome = true ↔ str.data <:+: s.data :=
  findFrom_isSome_iff _ _ _

theorem nsFirstClash_eq_none_iff (spec : String) (l : List NsRecord) :
    nsFirstClash spec l = none ↔
      ∀ r ∈ l, r.spec = spec ∨ (¬ r.spec.data <:+: spec.data ∧ ¬ spec.data <:+: r.spec.data) := by
  induction l with
  | nil => simp [nsFirstClash]
  | cons r rest ih =>
    by_cases h1 : spec = r.spec
    · simp [nsFirstClash, h1.symm, ih]
    · have h1' : ¬ r.spec = spec := fun e => h1 e.symm
      by_cases h2 : (stringFind spec r.spec).isSome = true
      · have := (stringFind_isSome_iff _ _).1 h2
        simp [nsFirstClash, h1, h1', h2, this]
      · have h2n : ¬ r.spec.data <:+: spec.data := fun h => h2 ((stringFind_isSome_iff _ _).2 h)
        by_cases h3 : (stringFind r.spec spec).isSome = true
        · have := (stringFind_isSome_iff _ _).1 h3
          simp [nsFirstClash, h1, h1', h2, h3, this]
        · have h3n : ¬ spec.data <:+: r.spec.data :=
            fun h => h3 ((stringFind_isSome_iff _ _).2 h)
          simp [nsFirstClash, h1, h1', h2, h3, h2n, h3n, ih]

theorem nsFirstClash_eq_some {spec : String} {l : List NsRecord} {r : NsRecord}
    (h : nsFirstClash spec l = some r) :
    r ∈ l ∧ r.spec ≠ spec ∧ (r.spec.data <:+: spec.data ∨ spec.data <:+: r.spec.data) := by
  induction l with
  | nil => simp [nsFirstClash] at h
  | cons x rest ih =>
    by_cases h1 : spec = x.spec
    · simp only [nsFirstClash, h1, if_true] at h
      rw [← h1] at h
      obtain ⟨a, b, c⟩ := ih h
      exact ⟨List.mem_cons_of_mem _ a, b, c⟩
    · have h1' : ¬ x.spec = spec := fun e => h1 e.symm
      by_cases h2 : (stringFind spec x.spec).isSome = true
      · simp [nsFirstClash, h1, h2] at h
        subst h
        exact ⟨by simp, h1', Or.inl ((stringFind_isSome_iff _ _).1 h2)⟩
      · by_cases h3 : (stringFind x.spec spec).isSome = true
        · simp [nsFirstClash, h1, h2, h3] at h
          subst h
          exact ⟨by simp, h1', Or.inr ((stringFind_isSome_iff _ _).1 h3)⟩
        · simp [nsFirstClash, h1, h2, h3] at h
          obtain ⟨a, b, c⟩ := ih h
          exact ⟨List.mem_cons_of_mem _ a, b, c⟩

/-- The three outcomes of one call. -/
theorem nsCheck_cases (m : NsIndex) (D : NamedDecl) :
    (nsIgnored D = true ∧ nsCheck m D = (m, [])) ∨
    (nsIgnored D = false ∧ ∃ r, nsFirstClash D.specifier (recordsOf m D.name) = some r ∧
      nsCheck m D = (m, nsDiags D r)) ∨
    (nsIgnored D = false ∧ nsFirstClash D.specifier (recordsOf m D.name) = none ∧
      nsCheck m D = (pushBack m D.name { spec := D.specifier, D := D }, [])) := by
  by_cases hi : nsIgnored D = true
  · left; exact ⟨hi, by simp [nsCheck, hi]⟩
  · right
    have hi' : nsIgnored D = false := by simpa using hi
    cases hf : mapFind m D.name with
    | none =>
      right
      refine ⟨hi', by simp [recordsOf, hf, nsFirstClash], ?_⟩
      simp [nsCheck, hi', hf]
    | some l =>
      cases hc : nsFirstClash D.specifier l with
      | none =>
        right
        refine ⟨hi', by simp [recordsOf, hf, hc], ?_⟩
        simp [nsCheck, hi', hf, hc]
      | some r =>
        left
        refine ⟨hi', r, by simp [recordsOf, hf, hc], ?_⟩
        simp [nsCheck, hi', hf, hc]

theorem nsRun_pair (A B : NamedDecl) (hA : nsIgnored A = false) (hB : nsIgnored B = false)
    (hname : A.name = B.name) (hne : A.specifier ≠ B.specifier)
    (hsub : A.specifier.data <:+: B.specifier.data ∨ B.specifier.data <:+: A.specifier.data) :
    (nsRun [A, B]).2 = nsDiags B { spec := A.specifier, D := A } := by
  have hne' : ¬ B.specifier = A.specifier := fun e => hne e.symm
  have hclash : nsFirstClash B.specifier [{ spec := A.specifier, D := A }] =
      some { spec := A.specifier, D := A } := by
    rcases hsub with h | h
    · have := (stringFind_isSome_iff B.specifier A.specifier).2 h
      simp [nsFirstClash, hne', this]
    · have := (stringFind_isSome_iff A.specifier B.specifier).2 h
      by_cases h2 : (stringFind B.specifier A.specifier).isSome = true
      · simp [nsFirstClash, hne', h2]
      · simp [nsFirstClash, hne', h2, this]
  simp [nsRun, nsRunFrom, nsCheck, hA, hB, mapFind_nil, pushBack, mapFind_cons, hname, hclash]

/-- C18: two eligible declarations with one raw name, the qualifier of `A`
being a proper prefix of the qualifier of `B`: offered to the empty index in
either order, exactly one diagnostic is emitted, at the second offered, with
its note at the first. -/
theorem nsRun_nested_qualifiers (A B : NamedDecl) (hA : nsIgnored A = false)
    (hB : nsIgnored B = false) (hname : A.name = B.name)
    (hpre : A.specifier.data <+: B.specifier.data) (hne : A.specifier ≠ B.specifier) :
    (nsRun [A, B]).2 =
      [{ location := B.location,
         message := "A user-defined type name shall be a unique identifier within a namespace",
         level := DiagLevel.warning },
       { location := A.location,
         message := "previous user-defined with the same name found here",
         level := DiagLevel.note }] ∧
    (nsRun [B, A]).2 =
      [{ location := A.location,
         message := "A user-defined type name shall be a unique identifier within a namespace",
         level := DiagLevel.warning },
       { location := B.location,
         message := "previous user-defined with the same name found here",
         level := DiagLevel.note }] := by
  have hinf : A.specifier.data <:+: B.specifier.data := hpre.isInfix
  constructor
  · rw [nsRun_pair A B hA hB hname hne (Or.inl hinf)]; rfl
  · rw [nsRun_pair B A hB hA hname.symm (fun e => hne e.symm) (Or.inr hinf)]; rfl

theorem nsRun_nested_qualifiers_witness :
    (nsRun [sampleTypeB, sampleTypeBC]).2 =
      [{ location := 600,
         message := "A user-defined type name shall be a unique identifier within a namespace",
         level := DiagLevel.warning },
       { location := 400,
         message := "previous user-defined with the same name found here",
         level := DiagLevel.note }] ∧
    (nsRun [sampleTypeBC, sampleTypeB]).2 =
      [{ location := 400,
         message := "A user-defined type name shall be a unique identifier within a namespace",
         level := DiagLevel.warning },
       { location := 600,
         message := "previous user-defined with the same name found here",
         level := DiagLevel.note }] :=
  nsRun_nested_qualifiers sampleTypeB sampleTypeBC (by decide) (by decide) (by decide)
    ⟨"c::".data, by decide⟩ (by decide)

/-- C19, counterexample: `b::T` is registered and `a::b::T` is offered:
neither qualifier is a prefix of the other, yet a diagnostic is emitted and
the declaration is not registered, because `b::` occurs inside `a::b::`. -/
theorem nsCheck_inner_occurrence :
    nsIgnored sampleTypeAB = false ∧
    recordsOf (nsRun [sampleTypeB]).1 sampleTypeAB.name =
      [{ spec := "b::", D := sampleTypeB }] ∧
    ("b::".data.isPrefixOf "a::b::".data = false ∧ "a::b::".data.isPrefixOf "b::".data = false) ∧
    (nsCheck (nsRun [sampleTypeB]).1 sampleTypeAB).2 =
      [{ location := 500,
         message := "A user-defined type name shall be a unique identifier within a namespace",
         level := DiagLevel.warning },
       { location := 400,
         message := "previous user-defined with the same name found here",
         level := DiagLevel.note }] ∧
    (nsCheck (nsRun [sampleTypeB]).1 sampleTypeAB).1 = (nsRun [sampleTypeB]).1 := by
  decide

/-- C19, amended: the check emits a diagnostic for an eligible declaration `d`
only if some record stored under the raw name of `d` has a qualifier string
that differs from the qualifier of `d` and occurs in it as a substring, or in
which the qualifier of `d` occurs as a substring; when for every such record
the two qualifier strings are equal, or neither occurs in the other, no
diagnostic is emitted and `d` is registered. -/
theorem nsCheck_diagnoses_only_substrings (m : NsIndex) (d : NamedDecl)
    (hd : nsIgnored d = false) :
    ((nsCheck m d).2 ≠ [] →
      ∃ r ∈ recordsOf m d.name, r.spec ≠ d.specifier ∧
        (r.spec.data <:+: d.specifier.data ∨ d.specifier.data <:+: r.spec.data)) ∧
    ((∀ r ∈ recordsOf m d.name, r.spec = d.specifier ∨
        (¬ r.spec.data <:+: d.specifier.data ∧ ¬ d.specifier.data <:+: r.spec.data)) →
      (nsCheck m d).2 = [] ∧
      mapFind (nsCheck m d).1 d.name =
        some (recordsOf m d.name ++ [{ spec := d.specifier, D := d }])) := by
  rcases nsCheck_cases m d with ⟨hi, _⟩ | ⟨_, r, hr, e⟩ | ⟨_, hn, e⟩
  · rw [hd] at hi; cases hi
  · constructor
    · intro _
      obtain ⟨a, b, c⟩ := nsFirstClash_eq_some hr
      exact ⟨r, a, b, c⟩
    · intro hall
      rw [(nsFirstClash_eq_none_iff _ _).2 hall] at hr
      cases hr
  · rw [e]
    exact ⟨fun h => absurd rfl h, fun _ => ⟨rfl, mapFind_pushBack_same _ _ _⟩⟩

theorem nsCheck_diagnoses_only_substrings_witness :
    ((nsCheck (nsRun [sampleTypeB]).1 sampleTypeX).2 ≠ [] →
      ∃ r ∈ recordsOf (nsRun [sampleTypeB]).1 sampleTypeX.name, r.spec ≠ sampleTypeX.specifier ∧
        (r.spec.data <:+: sampleTypeX.specifier.data ∨
          sampleTypeX.specifier.data <:+: r.spec.data)) ∧
    ((∀ r ∈ recordsOf (nsRun [sampleTypeB]).1 sampleTypeX.name, r.spec = sampleTypeX.specifier ∨
        (¬ r.spec.data <:+: sampleTypeX.specifier.data ∧
          ¬ sampleTypeX.specifier.data <:+: r.spec.data)) →
      (nsCheck (nsRun [sampleTypeB]).1 sampleTypeX).2 = [] ∧
      mapFind (nsCheck (nsRun [sampleTypeB]).1 sampleTypeX).1 sampleTypeX.name =
        some (recordsOf (nsRun [sampleTypeB]).1 sampleTypeX.name ++
          [{ spec := sampleTypeX.specifier, D := sampleTypeX }])) :=
  nsCheck_diagnoses_only_substrings (nsRun [sampleTypeB]).1 sampleTypeX (by decide)

end Bsl

namespace Bsl

/-! ## The forwarding-reference overload check -/

/-- Positions at which the two parameter types agree leave the found
parameters as they are. -/
theorem paramLoop_of_same_types (fr : List Nat) (l1 l2 : List ParmVarDecl) (st : Found)
    (h : l1.map ParmVarDecl.typePtr = l2.map ParmVarDecl.typePtr) :
    paramLoop fr l1 l2 st = st := by
  induction l1 generalizing l2 with
  | nil => cases l2 <;> simp [paramLoop]
  | cons a r1 ih =>
    cases l2 with
    | nil => simp [paramLoop]
    | cons b r2 =>
      simp only [List.map_cons, List.cons.injEq] at h
      simp [paramLoop, h.1, ih r2 h.2]

theorem paramLoop_append (fr : List Nat) (pre1 pre2 l1 l2 : List ParmVarDecl) (st : Found)
    (h : pre1.map ParmVarDecl.typePtr = pre2.map ParmVarDecl.typePtr) :
    paramLoop fr (pre1 ++ l1) (pre2 ++ l2) st = paramLoop fr l1 l2 st := by
  induction pre1 generalizing pre2 with
  | nil =>
    cases pre2 with
    | nil => rfl
    | cons b r2 => simp at h
  | cons a r1 ih =>
    cases pre2 with
    | nil => simp at h
    | cons b r2 =>
      simp only [List.map_cons, List.cons.injEq] at h
      simp [paramLoop, h.1, ih r2 h.2]

/-- The scan of a list of two overloads visits four ordered pairs. -/
theorem scanOverloads_two (fr : List Nat) (F G : FunctionDecl) :
    scanOverloads fr [F, G] =
      pairDiags fr F F ++ pairDiags fr F G ++ (pairDiags fr G F ++ pairDiags fr G G) := by
  simp [scanOverloads, List.flatMap, List.flatten]

theorem pairDiags_self (fr : List Nat) (F : FunctionDecl) : pairDiags fr F F = [] := by
  simp [pairDiags]

/-- C20, counterexample: the overload list holds `f(T&&)` and `f(int)`, and the
parameter of the first is a recorded forwarding reference: the scan emits the
diagnostic and its note twice. -/
theorem scanOverloads_reports_twice :
    scanOverloads [1] [sampleForwarding, sampleInt] =
      [{ location := 11,
         message := "A function that contains an ambiguous forwarding " ++
           "reference as an argument shall not be overloaded.",
         level := DiagLevel.warning },
       { location := 21, message := "previous argument found here", level := DiagLevel.note },
       { location := 11,
         message := "A function that contains an ambiguous forwarding " ++
           "reference as an argument shall not be overloaded.",
         level := DiagLevel.warning },
       { location := 21, message := "previous argument found here",
         level := DiagLevel.note }] ∧
    ((scanOverloads [1] [sampleForwarding, sampleInt]).filter
      (fun d => d.level == DiagLevel.warning)).length = 2 := by
  decide

/-- C20, amended: for an overload list of two different functions with equally
many parameters whose types differ at exactly one position, where the
parameter `p` of one function at that position is a recorded forwarding
reference and the parameter `q` of the other is not, the scan emits the
diagnostic twice, once for each order in which the two functions are paired:
each time the warning at `p`, followed by its note at `q`.  This holds for
both orders of the list. -/
theorem scanOverloads_forwarding_pair (fr : List Nat) (F G : FunctionDecl)
    (pre1 post1 pre2 post2 : List ParmVarDecl) (p q : ParmVarDecl)
    (hne : F.addr ≠ G.addr)
    (hF : F.parameters = pre1 ++ p :: post1) (hG : G.parameters = pre2 ++ q :: post2)
    (hpre : pre1.map ParmVarDecl.typePtr = pre2.map ParmVarDecl.typePtr)
    (hpost : post1.map ParmVarDecl.typePtr = post2.map ParmVarDecl.typePtr)
    (hpq : p.typePtr ≠ q.typePtr) (hp : p.addr ∈ fr) (hq : q.addr ∉ fr) :
    scanOverloads fr [F, G] =
      [{ location := p.location,
         message := "A function that contains an ambiguous forwarding " ++
           "reference as an argument shall not be overloaded.",
         level := DiagLevel.warning },
       { location := q.location, message := "previous argument found here",
         level := DiagLevel.note },
       { location := p.location,
         message := "A function that contains an ambiguous forwarding " ++
           "reference as an argument shall not be overloaded.",
         level := DiagLevel.warning },
       { location := q.location, message := "previous argument found here",
         level := DiagLevel.note }] ∧
    scanOverloads fr [G, F] =
      [{ location := p.location,
         message := "A function that contains an ambiguous forwarding " ++
           "reference as an argument shall not be overloaded.",
         level := DiagLevel.warning },
       { location := q.location, message := "previous argument found here",
         level := DiagLevel.note },
       { location := p.location,
         message := "A function that contains an ambiguous forwarding " ++
           "reference as an argument shall not be overloaded.",
         level := DiagLevel.warning },
       { location := q.location, message := "previous argument found here",
         level := DiagLevel.note }] := by
  have hlen : F.parameters.length = G.parameters.length := by
    have h1 := congrArg List.length hpre
    have h2 := congrArg List.length hpost
    simp only [List.length_map] at h1 h2
    rw [hF, hG]
    simp [h1, h2]
  have hne' : ¬ G.addr = F.addr := fun e => hne e.symm
  have hqp : ¬ q.typePtr = p.typePtr := fun e => hpq e.symm
  have hFG : pairDiags fr F G = fwdDiags p q := by
    unfold pairDiags
    rw [if_neg hne, if_neg (by simpa using hlen), hF, hG, paramLoop_append fr _ _ _ _ _ hpre]
    simp [paramLoop, hpq, hp, paramLoop_of_same_types fr _ _ _ hpost]
  have hGF : pairDiags fr G F = fwdDiags p q := by
    unfold pairDiags
    rw [if_neg hne', if_neg (by simpa using hlen.symm), hF, hG,
      paramLoop_append fr _ _ _ _ _ hpre.symm]
    simp [paramLoop, hqp, hp, hq, paramLoop_of_same_types fr _ _ _ hpost.symm]
  rw [scanOverloads_two, scanOverloads_two, pairDiags_self, pairDiags_self, hFG, hGF]
  simp [fwdDiags]

theorem scanOverloads_forwarding_pair_witness :
    scanOverloads [1] [sampleForwarding, sampleInt] =
      [{ location := 11,
         message := "A function that contains an ambiguous forwarding " ++
           "reference as an argument shall not be overloaded.",
         level := DiagLevel.warning },
       { location := 21, message := "previous argument found here",
         level := DiagLevel.note },
       { location := 11,
         message := "A function that contains an ambiguous forwarding " ++
           "reference as an argument shall not be overloaded.",
         level := DiagLevel.warning },
       { location := 21, message := "previous argument found here",
         level := DiagLevel.note }] ∧
    scanOverloads [1] [sampleInt, sampleForwarding] =
      [{ location := 11,
         message := "A function that contains an ambiguous forwarding " ++
           "reference as an argument shall not be overloaded.",
         level := DiagLevel.warning },
       { location := 21, message := "previous argument found here",
         level := DiagLevel.note },
       { location := 11,
         message := "A function that contains an ambiguous forwarding " ++
           "reference as an argument shall not be overloaded.",
         level := DiagLevel.warning },
       { location := 21, message := "previous argument found here",
         level := DiagLevel.note }] :=
  scanOverloads_forwarding_pair [1] sampleForwarding sampleInt [] [] [] []
    { addr := 1, typePtr := 100, location := 11 } { addr := 2, typePtr := 200, location := 21 }
    (by decide) rfl rfl rfl rfl (by decide) (by decide) (by decide)

end Bsl

namespace Bsl

/-! ## Claims about the scan of one pair of overloads -/

theorem scanOverloads_single_params (fr : List Nat) (F G : FunctionDecl) (p q : ParmVarDecl)
    (hne : F.addr ≠ G.addr) (hF : F.parameters = [p]) (hG : G.parameters = [q])
    (hpq : p.typePtr ≠ q.typePtr) (hq : q.addr ∉ fr) :
    scanOverloads fr [F, G] = if p.addr ∈ fr then fwdDiags p q ++ fwdDiags p q else [] := by
  have hne' : ¬ G.addr = F.addr := fun e => hne e.symm
  have hqp : ¬ q.typePtr = p.typePtr := fun e => hpq e.symm
  rw [scanOverloads_two, pairDiags_self, pairDiags_self]
  by_cases hp : p.addr ∈ fr
  · simp [pairDiags, hne, hne', hF, hG, paramLoop, hpq, hqp, hp, hq]
  · simp [pairDiags, hne, hne', hF, hG, paramLoop, hpq, hqp, hp, hq]

theorem scanOverloads_single_params_swap (fr : List Nat) (F G : FunctionDecl)
    (p q : ParmVarDecl) (hne : F.addr ≠ G.addr) (hF : F.parameters = [p])
    (hG : G.parameters = [q]) (hpq : p.typePtr ≠ q.typePtr) (hq : q.addr ∉ fr) :
    scanOverloads fr [G, F] = if p.addr ∈ fr then fwdDiags p q ++ fwdDiags p q else [] := by
  have hne' : ¬ G.addr = F.addr := fun e => hne e.symm
  have hqp : ¬ q.typePtr = p.typePtr := fun e => hpq e.symm
  rw [scanOverloads_two, pairDiags_self, pairDiags_self]
  by_cases hp : p.addr ∈ fr
  · simp [pairDiags, hne, hne', hF, hG, paramLoop, hpq, hqp, hp, hq]
  · simp [pairDiags, hne, hne', hF, hG, paramLoop, hpq, hqp, hp, hq]

/-- C21, counterexample: the definitions of `f(T &&)` and `f(T const &)` are
offered and the parameter of the first is recorded; the parameter of the
second is not recorded, and the detector emits the diagnostic with its note,
twice. -/
theorem fwdRun_const_sibling_reported :
    sampleParmConstRef.addr ∉
      (fwdRun [FwdMatch.funcDecl sampleTemplateF, FwdMatch.parmVar sampleParmT 7,
        FwdMatch.funcDecl sampleConstRefF]).1.frParams ∧
    (fwdRun [FwdMatch.funcDecl sampleTemplateF, FwdMatch.parmVar sampleParmT 7,
        FwdMatch.funcDecl sampleConstRefF]).2 =
      [{ location := 11,
         message := "A function that contains an ambiguous forwarding " ++
           "reference as an argument shall not be overloaded.",
         level := DiagLevel.warning },
       { location := 31, message := "previous argument found here",
         level := DiagLevel.note },
       { location := 11,
         message := "A function that contains an ambiguous forwarding " ++
           "reference as an argument shall not be overloaded.",
         level := DiagLevel.warning },
       { location := 31, message := "previous argument found here",
         level := DiagLevel.note }] := by
  decide

/-- C21, amended: for an overload list of two different one-parameter
functions `f(T &&)` and `f(T const &)` whose parameter types differ, where the
parameter `q` of the second is not a recorded forwarding reference, the scan
emits nothing when the parameter `p` of the first is not recorded either; when
`p` is recorded it emits the diagnostic at `p` with its note at `q`, once
for each order of the pair.  This holds for both orders of the list. -/
theorem scanOverloads_const_sibling (fr : List Nat) (F G : FunctionDecl) (p q : ParmVarDecl)
    (hne : F.addr ≠ G.addr) (hF : F.parameters = [p]) (hG : G.parameters = [q])
    (hpq : p.typePtr ≠ q.typePtr) (hq : q.addr ∉ fr) :
    (p.addr ∉ fr → scanOverloads fr [F, G] = [] ∧ scanOverloads fr [G, F] = []) ∧
    (p.addr ∈ fr →
      scanOverloads fr [F, G] =
        [{ location := p.location,
           message := "A function that contains an ambiguous forwarding " ++
             "reference as an argument shall not be overloaded.",
           level := DiagLevel.warning },
         { location := q.location, message := "previous argument found here",
           level := DiagLevel.note },
         { location := p.location,
           message := "A function that contains an ambiguous forwarding " ++
             "reference as an argument shall not be overloaded.",
           level := DiagLevel.warning },
         { location := q.location, message := "previous argument found here",
           level := DiagLevel.note }] ∧
      scanOverloads fr [G, F] =
        [{ location := p.location,
           message := "A function that contains an ambiguous forwarding " ++
             "reference as an argument shall not be overloaded.",
           level := DiagLevel.warning },
         { location := q.location, message := "previous argument found here",
           level := DiagLevel.note },
         { location := p.location,
           message := "A function that contains an ambiguous forwarding " ++
             "reference as an argument shall not be overloaded.",
           level := DiagLevel.warning },
         { location := q.location, message := "previous argument found here",
           level := DiagLevel.note }]) := by
  rw [scanOverloads_single_params fr F G p q hne hF hG hpq hq,
    scanOverloads_single_params_swap fr F G p q hne hF hG hpq hq]
  exact ⟨fun h => by simp [h], fun h => by simp [h, fwdDiags]⟩

theorem scanOverloads_const_sibling_witness :
    (1 : Nat) ∈ [1] ∧
    scanOverloads [1] [sampleTemplateF, sampleConstRefF] =
      [{ location := 11,
         message := "A function that contains an ambiguous forwarding " ++
           "reference as an argument shall not be overloaded.",
         level := DiagLevel.warning },
       { location := 31, message := "previous argument found here",
         level := DiagLevel.note },
       { location := 11,
         message := "A function that contains an ambiguous forwarding " ++
           "reference as an argument shall not be overloaded.",
         level := DiagLevel.warning },
       { location := 31, message := "previous argument found here",
         level := DiagLevel.note }] ∧
    scanOverloads [1] [sampleConstRefF, sampleTemplateF] =
      [{ location := 11,
         message := "A function that contains an ambiguous forwarding " ++
           "reference as an argument shall not be overloaded.",
         level := DiagLevel.warning },
       { location := 31, message := "previous argument found here",
         level := DiagLevel.note },
       { location := 11,
         message := "A function that contains an ambiguous forwarding " ++
           "reference as an argument shall not be overloaded.",
         level := DiagLevel.warning },
       { location := 31, message := "previous argument found here",
         level := DiagLevel.note }] :=
  ⟨by decide,
    (scanOverloads_const_sibling [1] sampleTemplateF sampleConstRefF sampleParmT
      sampleParmConstRef (by decide) rfl rfl (by decide) (by decide)).2 (by decide)⟩

/-- C22, the code at the failing input `f(int a, T && b)` and
`f(long c, int d)` with `b` recorded: the types at the first position differ
and neither parameter there is recorded, yet the pair is reported at `b`,
because the reset of lines 167–168 is undone at the second position; with
the two positions exchanged the same pair is not reported. -/
theorem pairDiags_reset_then_found :
    pairDiags [5] sampleIntThenT sampleLongThenInt =
      [{ location := 51,
         message := "A function that contains an ambiguous forwarding " ++
           "reference as an argument shall not be overloaded.",
         level := DiagLevel.warning },
       { location := 71, message := "previous argument found here",
         level := DiagLevel.note }] ∧
    pairDiags [5] sampleTThenInt sampleIntThenLong = [] := by
  decide

/-- What the loop over the positions leaves in the found parameters was there
before the loop or comes from a position at which the types differ and the
found parameter is a recorded forwarding reference. -/
theorem paramLoop_found (fr : List Nat) (l1 l2 : List ParmVarDecl) (st : Found) :
    (∀ x y, (paramLoop fr l1 l2 st).param1 = some (x, y) →
      st.param1 = some (x, y) ∨
        ((x, y) ∈ l1.zip l2 ∧ x.typePtr ≠ y.typePtr ∧ x.addr ∈ fr)) ∧
    (∀ x y, (paramLoop fr l1 l2 st).param2 = some (x, y) →
      st.param2 = some (x, y) ∨
        ((y, x) ∈ l1.zip l2 ∧ y.typePtr ≠ x.typePtr ∧ x.addr ∈ fr)) := by
  induction l1 generalizing l2 st with
  | nil => exact ⟨fun x y h => Or.inl (by simpa [paramLoop] using h),
      fun x y h => Or.inl (by simpa [paramLoop] using h)⟩
  | cons a r1 ih =>
    cases l2 with
    | nil => exact ⟨fun x y h => Or.inl (by simpa [paramLoop] using h),
        fun x y h => Or.inl (by simpa [paramLoop] using h)⟩
    | cons b r2 =>
      by_cases ht : a.typePtr = b.typePtr
      · have e : paramLoop fr (a :: r1) (b :: r2) st = paramLoop fr r1 r2 st := by
          simp [paramLoop, ht]
        rw [e]
        obtain ⟨i1, i2⟩ := ih r2 st
        refine ⟨fun x y h => ?_, fun x y h => ?_⟩
        · rcases i1 x y h with h | ⟨h, h'⟩
          · exact Or.inl h
          · exact Or.inr ⟨by simp [h], h'⟩
        · rcases i2 x y h with h | ⟨h, h'⟩
          · exact Or.inl h
          · exact Or.inr ⟨by simp [h], h'⟩
      · by_cases ha : a.addr ∈ fr
        · have e : paramLoop fr (a :: r1) (b :: r2) st =
              paramLoop fr r1 r2 { st with param1 := some (a, b) } := by
            simp [paramLoop, ht, ha]
          rw [e]
          obtain ⟨i1, i2⟩ := ih r2 { st with param1 := some (a, b) }
          refine ⟨fun x y h => ?_, fun x y h => ?_⟩
          · rcases i1 x y h with h | ⟨h, h'⟩
            · simp only [Option.some.injEq, Prod.mk.injEq] at h
              obtain ⟨rfl, rfl⟩ := h
              exact Or.inr ⟨by simp, ht, ha⟩
            · exact Or.inr ⟨by simp [h], h'⟩
          · rcases i2 x y h with h | ⟨h, h'⟩
            · exact Or.inl h
            · exact Or.inr ⟨by simp [h], h'⟩
        · by_cases hb : b.addr ∈ fr
          · have e : paramLoop fr (a :: r1) (b :: r2) st =
                paramLoop fr r1 r2 { st with param2 := some (b, a) } := by
              simp [paramLoop, ht, ha, hb]
            rw [e]
            obtain ⟨i1, i2⟩ := ih r2 { st with param2 := some (b, a) }
            refine ⟨fun x y h => ?_, fun x y h => ?_⟩
            · rcases i1 x y h with h | ⟨h, h'⟩
              · exact Or.inl h
              · exact Or.inr ⟨by simp [h], h'⟩
            · rcases i2 x y h with h | ⟨h, h'⟩
              · simp only [Option.some.injEq, Prod.mk.injEq] at h
                obtain ⟨rfl, rfl⟩ := h
                exact Or.inr ⟨by simp, ht, hb⟩
              · exact Or.inr ⟨by simp [h], h'⟩
          · have e : paramLoop fr (a :: r1) (b :: r2) st =
                paramLoop fr r1 r2 { param1 := none, param2 := none } := by
              simp [paramLoop, ht, ha, hb]
            rw [e]
            obtain ⟨i1, i2⟩ := ih r2 { param1 := none, param2 := none }
            refine ⟨fun x y h => ?_, fun x y h => ?_⟩
            · rcases i1 x y h with h | ⟨h, h'⟩
              · cases h
              · exact Or.inr ⟨by simp [h], h'⟩
            · rcases i2 x y h with h | ⟨h, h'⟩
              · cases h
              · exact Or.inr ⟨by simp [h], h'⟩

/-- C23, counterexample: the overloads `template <typename T> void f(T &&)` and
`template <typename T, typename U> void f(U &&)`, whose parameters are both
recorded forwarding references: the pair is reported. -/
theorem pairDiags_both_recorded :
    (1 : Nat) ∈ [1, 9] ∧ (9 : Nat) ∈ [1, 9] ∧
    pairDiags [1, 9] sampleTemplateF sampleOtherTemplate =
      [{ location := 11,
         message := "A function that contains an ambiguous forwarding " ++
           "reference as an argument shall not be overloaded.",
         level := DiagLevel.warning },
       { location := 91, message := "previous argument found here",
         level := DiagLevel.note }] := by
  decide

/-- C23, amended: the detector emits a diagnostic for a pair of overloads only
if the two are different functions with equally many parameters and at some
position the two parameter types differ and at least one of the two
parameters at that position is a recorded forwarding reference. -/
theorem pairDiags_only_if (fr : List Nat) (F G : FunctionDecl)
    (h : pairDiags fr F G ≠ []) :
    F.addr ≠ G.addr ∧ F.parameters.length = G.parameters.length ∧
    ∃ ab ∈ F.parameters.zip G.parameters,
      ab.1.typePtr ≠ ab.2.typePtr ∧ (ab.1.addr ∈ fr ∨ ab.2.addr ∈ fr) := by
  unfold pairDiags at h
  by_cases ha : F.addr = G.addr
  · simp [ha] at h
  · by_cases hl : F.parameters.length = G.parameters.length
    · refine ⟨ha, hl, ?_⟩
      simp only [ha, hl, if_false, ne_eq, not_true_eq_false] at h
      obtain ⟨i1, i2⟩ := paramLoop_found fr F.parameters G.parameters {}
      cases h1 : (paramLoop fr F.parameters G.parameters {}).param1 with
      | some xy =>
        obtain ⟨x, y⟩ := xy
        rcases i1 x y h1 with h0 | ⟨hm, ht, hx⟩
        · cases h0
        · exact ⟨(x, y), hm, ht, Or.inl hx⟩
      | none =>
        cases h2 : (paramLoop fr F.parameters G.parameters {}).param2 with
        | some xy =>
          obtain ⟨x, y⟩ := xy
          rcases i2 x y h2 with h0 | ⟨hm, ht, hx⟩
          · cases h0
          · exact ⟨(y, x), hm, ht, Or.inr hx⟩
        | none => simp [h1, h2] at h
    · simp [ha, hl] at h

theorem pairDiags_only_if_witness :
    sampleTemplateF.addr ≠ sampleConstRefF.addr ∧
    sampleTemplateF.parameters.length = sampleConstRefF.parameters.length ∧
    ∃ ab ∈ sampleTemplateF.parameters.zip sampleConstRefF.parameters,
      ab.1.typePtr ≠ ab.2.typePtr ∧ (ab.1.addr ∈ [1] ∨ ab.2.addr ∈ [1]) :=
  pairDiags_only_if [1] sampleTemplateF sampleConstRefF (by decide)

end Bsl

namespace Bsl

/-! ## Claims about the state of the forwarding-reference check -/

theorem mapFind_append_singleton {α : Type} (m : List (String × List α)) (k : String)
    (l : List α) (k' : String) :
    mapFind (m ++ [(k, l)]) k' =
      match mapFind m k' with
      | some l' => some l'
      | none => if k' = k then some l else none := by
  induction m with
  | nil => simp [mapFind_cons, mapFind_nil]
  | cons p rest ih =>
    obtain ⟨k0, l0⟩ := p
    by_cases h : k' = k0
    · simp [mapFind_cons, h]
    · simp only [List.cons_append, mapFind_cons, h, if_false, ih]

theorem recordsOf_subscript {α : Type} (m : List (String × List α)) (k k' : String) :
    recordsOf (subscript m k) k' = recordsOf m k' := by
  unfold subscript
  by_cases h : (mapFind m k).isSome = true
  · simp [h]
  · simp only [h, if_false, recordsOf, mapFind_append_singleton, Bool.false_eq_true]
    cases h' : mapFind m k' with
    | some l' => simp
    | none =>
      by_cases hk : k' = k
      · simp [hk]
      · simp [hk]

theorem fwdRunFrom_append (st : FwdState × List Diag) (ms ns : List FwdMatch) :
    fwdRunFrom st (ms ++ ns) = fwdRunFrom (fwdRunFrom st ms) ns := by
  simp [fwdRunFrom, List.foldl_append]

theorem fwdRun_snoc (ms : List FwdMatch) (m : FwdMatch) :
    fwdRun (ms ++ [m]) =
      ((fwdCheck (fwdRun ms).1 m).1, (fwdRun ms).2 ++ (fwdCheck (fwdRun ms).1 m).2) := by
  simp [fwdRun, fwdRunFrom_append]
  simp [fwdRunFrom]

/-- The two outcomes of a call on a function. -/
theorem fwdCheck_funcDecl_cases (st : FwdState) (FD : FunctionDecl) :
    fwdCheck st (FwdMatch.funcDecl FD) = (st, []) ∨
    (FD.definitionIsSelf = true ∧ FD.hasMemberSpecializationInfo = false ∧
      FD.hasTemplateSpecializationInfo = false ∧
      fwdCheck st (FwdMatch.funcDecl FD) =
        ({ frParams := st.frParams,
           fds := subscript (pushBack st.fds FD.qualifiedName FD) FD.qualifiedName },
          scanOverloads st.frParams
            (recordsOf (subscript (pushBack st.fds FD.qualifiedName FD) FD.qualifiedName)
              FD.qualifiedName))) := by
  cases h1 : FD.definitionIsSelf with
  | false => left; simp [fwdCheck, h1]
  | true =>
    cases h2 : FD.hasMemberSpecializationInfo with
    | true => left; simp [fwdCheck, h1, h2]
    | false =>
      cases h3 : FD.hasTemplateSpecializationInfo with
      | true => left; simp [fwdCheck, h1, h2, h3]
      | false => right; simp [fwdCheck, h1, h2, h3]

/-- The two outcomes of a call on a parameter. -/
theorem fwdCheck_parmVar_cases (st : FwdState) (PVD : ParmVarDecl) (TTPD : Nat) :
    (recordableParm PVD TTPD = false ∧ fwdCheck st (FwdMatch.parmVar PVD TTPD) = (st, [])) ∨
    (recordableParm PVD TTPD = true ∧ ∃ name,
      fwdCheck st (FwdMatch.parmVar PVD TTPD) =
        ({ frParams := st.frParams.insert PVD.addr, fds := subscript st.fds name },
          scanOverloads (st.frParams.insert PVD.addr)
            (recordsOf (subscript st.fds name) name))) := by
  cases hp : PVD.parent with
  | none => left; simp [fwdCheck, recordableParm, hp]
  | some pp =>
    cases pp with
    | otherContext => left; simp [fwdCheck, recordableParm, hp]
    | function f =>
      cases ht : f.describedFunctionTemplate with
      | none => left; simp [fwdCheck, recordableParm, hp, ht]
      | some t =>
        cases hps : t.templateParameters with
        | none => left; simp [fwdCheck, recordableParm, hp, ht, hps]
        | some tps =>
          by_cases hm : TTPD ∈ tps
          · right
            exact ⟨by simp [recordableParm, hp, ht, hps, hm], f.qualifiedName,
              by simp [fwdCheck, hp, ht, hps, hm]⟩
          · left; simp [fwdCheck, recordableParm, hp, ht, hps, hm]

/-- The property of C24 is kept by every call. -/
theorem fwdCheck_overloads (st : FwdState) (m : FwdMatch)
    (hst : ∀ k, ∀ F ∈ recordsOf st.fds k,
      F.definitionIsSelf = true ∧ F.hasMemberSpecializationInfo = false ∧
        F.hasTemplateSpecializationInfo = false ∧ F.qualifiedName = k) :
    ∀ k, ∀ F ∈ recordsOf (fwdCheck st m).1.fds k,
      F.definitionIsSelf = true ∧ F.hasMemberSpecializationInfo = false ∧
        F.hasTemplateSpecializationInfo = false ∧ F.qualifiedName = k := by
  intro k F hF
  cases m with
  | funcDecl FD =>
    rcases fwdCheck_funcDecl_cases st FD with e | ⟨h1, h2, h3, e⟩
    · rw [e] at hF; exact hst k F hF
    · rw [e] at hF
      simp only [recordsOf_subscript] at hF
      by_cases hk : k = FD.qualifiedName
      · subst hk
        rw [recordsOf_pushBack_same] at hF
        rcases List.mem_append.1 hF with hF | hF
        · exact hst _ F hF
        · simp at hF
          subst hF
          exact ⟨h1, h2, h3, rfl⟩
      · rw [recordsOf_pushBack_other _ _ _ _ hk] at hF
        exact hst k F hF
  | parmVar PVD TTPD =>
    rcases fwdCheck_parmVar_cases st PVD TTPD with ⟨_, e⟩ | ⟨_, name, e⟩
    · rw [e] at hF; exact hst k F hF
    · rw [e] at hF
      simp only [recordsOf_subscript] at hF
      exact hst k F hF

theorem fwdRun_overloads (ms : List FwdMatch) :
    ∀ k, ∀ F ∈ recordsOf (fwdRun ms).1.fds k,
      F.definitionIsSelf = true ∧ F.hasMemberSpecializationInfo = false ∧
        F.hasTemplateSpecializationInfo = false ∧ F.qualifiedName = k := by
  induction ms using List.reverseRecOn with
  | nil => intro k F hF; simp [fwdRun, fwdRunFrom, recordsOf, mapFind_nil] at hF
  | append_singleton ms m ih =>
    rw [fwdRun_snoc]
    exact fwdCheck_overloads _ m ih

/-- C24: in every state reachable from the empty state by calls of the check,
every function in an overload list is its own defining declaration, is
neither a member specialisation nor a template specialisation, and is
stored under its own qualified name. -/
theorem fwdRun_overloads_are_definitions (ms : List FwdMatch) (k : String)
    (l : List FunctionDecl) (F : FunctionDecl) (hk : mapFind (fwdRun ms).1.fds k = some l)
    (hF : F ∈ l) :
    F.definitionIsSelf = true ∧ F.hasMemberSpecializationInfo = false ∧
      F.hasTemplateSpecializationInfo = false ∧ F.qualifiedName = k :=
  fwdRun_overloads ms k F (mem_of_mapFind hk hF)

theorem fwdRun_overloads_are_definitions_witness :
    mapFind (fwdRun [FwdMatch.funcDecl sampleTemplateF, FwdMatch.parmVar sampleParmT 7]).1.fds "f"
      = some [sampleTemplateF] ∧
    sampleTemplateF ∈ [sampleTemplateF] ∧
    (sampleTemplateF.definitionIsSelf = true ∧
      sampleTemplateF.hasMemberSpecializationInfo = false ∧
      sampleTemplateF.hasTemplateSpecializationInfo = false ∧
      sampleTemplateF.qualifiedName = "f") :=
  ⟨by decide, by decide,
    fwdRun_overloads_are_definitions
      [FwdMatch.funcDecl sampleTemplateF, FwdMatch.parmVar sampleParmT 7] "f"
      [sampleTemplateF] sampleTemplateF (by decide) (by decide)⟩

/-- C25: a call of the check on a function leaves the set of recorded
forwarding references as it is; a call on a parameter adds at most that
parameter, and only if its enclosing context is a function with a described
function template whose template parameter list contains the template type
parameter of the match; in every other case the call changes neither the set
nor the overload lists and emits nothing. -/
theorem fwdCheck_records_only_recordable (st : FwdState) :
    (∀ FD, (fwdCheck st (FwdMatch.funcDecl FD)).1.frParams = st.frParams) ∧
    (∀ PVD TTPD a, a ∈ (fwdCheck st (FwdMatch.parmVar PVD TTPD)).1.frParams →
      a ∈ st.frParams ∨ (a = PVD.addr ∧ recordableParm PVD TTPD = true)) ∧
    (∀ PVD TTPD, recordableParm PVD TTPD = false →
      fwdCheck st (FwdMatch.parmVar PVD TTPD) = (st, [])) := by
  refine ⟨fun FD => ?_, fun PVD TTPD a ha => ?_, fun PVD TTPD h => ?_⟩
  · rcases fwdCheck_funcDecl_cases st FD with e | ⟨_, _, _, e⟩ <;> rw [e]
  · rcases fwdCheck_parmVar_cases st PVD TTPD with ⟨_, e⟩ | ⟨hr, name, e⟩
    · rw [e] at ha; exact Or.inl ha
    · rw [e] at ha
      simp only [List.mem_insert_iff] at ha
      rcases ha with ha | ha
      · exact Or.inr ⟨ha, hr⟩
      · exact Or.inl ha
  · rcases fwdCheck_parmVar_cases st PVD TTPD with ⟨_, e⟩ | ⟨hr, _, _⟩
    · exact e
    · rw [h] at hr; cases hr

end Bsl

namespace Bsl

/-! ## Claims about `check_var_decl` and `VerifyConstCheck::check` -/

/-- The body of `check_var_decl` from line 244 on, for a variable that passes
the guards of lines 60–85 and 241–242. -/
theorem check_var_decl_of_guards (VD : VarDecl) (hvalid : VD.isInvalidDecl = false)
    (hce : VD.isConstexpr = false) (hname : VD.name.isEmpty = false)
    (hloc : VD.location ≠ 0) (hdep : VD.type.isDependentType = false) :
    check_var_decl (some VD) =
      if getRawTokenIdentifierStr VD.beginLoc = "const" then
        if VD.type.isPointerType = true then [warningAt VD.location msgLeftConstPointer]
        else [warningAt VD.location msgLeftConst]
      else if VD.type.isPointerType = true then
        thenTest (pointeeTest VD.type (storageStrippedName VD) VD.location)
          (pointerVariableTest VD.type (storageStrippedName VD) VD.location)
      else
        thenTest (pointerOnlyTest (storageStrippedName VD) VD.location)
          (valueVariableTest VD.type (storageStrippedName VD) VD.location) := by
  simp [check_var_decl, hvalid, hce, hname, hloc, hdep]

theorem thenTest_ne_nil (a b : List Diag) : thenTest a b ≠ [] ↔ a ≠ [] ∨ b ≠ [] := by
  cases a <;> simp [thenTest]

theorem thenTest_length_le (a b : List Diag) (ha : a.length ≤ 1) (hb : b.length ≤ 1) :
    (thenTest a b).length ≤ 1 := by
  cases a with
  | nil => exact hb
  | cons x t => exact ha

theorem pointeeTest_ne_nil (QT : QualType) (n : String) (Loc : Nat) :
    pointeeTest QT n Loc ≠ [] ↔
      (QT.pointeeIsConstQualified = true ∧ startswith n "pmut_" = true) ∨
      (QT.pointeeIsConstQualified = false ∧ startswith n "pmut_" = false ∧
        startswith n "pudm_" = false) := by
  unfold pointeeTest
  cases QT.pointeeIsConstQualified <;> cases startswith n "pmut_" <;>
    cases startswith n "pudm_" <;> simp

theorem pointerVariableTest_ne_nil (QT : QualType) (n : String) (Loc : Nat) :
    pointerVariableTest QT n Loc ≠ [] ↔
      (QT.isConstQualified = true ∧
        (startswith n "mut_" = true ∨ startswith n "pcst_mut_" = true ∨
          startswith n "pmut_mut_" = true ∨ startswith n "pudm_mut_" = true)) ∨
      (QT.isConstQualified = false ∧ startswith n "mut_" = false ∧
        startswith n "udm_" = false ∧ startswith n "pcst_mut_" = false ∧
        startswith n "pcst_udm_" = false ∧ startswith n "pmut_mut_" = false ∧
        startswith n "pmut_udm_" = false ∧ startswith n "pudm_mut_" = false ∧
        startswith n "pudm_udm_" = false) := by
  unfold pointerVariableTest
  cases QT.isConstQualified
  · simp only [Bool.false_eq_true, if_false, false_and, false_or, true_and]
    split_ifs with h
    · simp only [Bool.and_eq_true, Bool.not_eq_true'] at h
      simp [h]
    · simp only [Bool.and_eq_true, Bool.not_eq_true'] at h
      simp only [ne_eq, not_true_eq_false, false_iff]
      tauto
  · simp only [if_true, true_and, Bool.true_eq_false, false_and, or_false]
    split_ifs with h
    · simp only [Bool.or_eq_true] at h
      simp only [ne_eq, List.cons_ne_nil, not_false_eq_true, true_iff]
      tauto
    · simp only [Bool.or_eq_true] at h
      simp only [ne_eq, not_true_eq_false, false_iff]
      tauto

theorem tests_length_le (QT : QualType) (n : String) (Loc : Nat) :
    (pointeeTest QT n Loc).length ≤ 1 ∧ (pointerVariableTest QT n Loc).length ≤ 1 ∧
    (pointerOnlyTest n Loc).length ≤ 1 ∧ (valueVariableTest QT n Loc).length ≤ 1 := by
  unfold pointeeTest pointerVariableTest pointerOnlyTest valueVariableTest
  refine ⟨?_, ?_, ?_, ?_⟩ <;> split_ifs <;> simp

theorem check_var_decl_length_le (v : Option VarDecl) : (check_var_decl v).length ≤ 1 := by
  cases v with
  | none => simp [check_var_decl]
  | some VD =>
    obtain ⟨h1, h2, h3, h4⟩ :=
      tests_length_le VD.type (storageStrippedName VD) VD.location
    have ha := thenTest_length_le _ _ h1 h2
    have hb := thenTest_length_le _ _ h3 h4
    unfold check_var_decl
    simp only
    split_ifs <;> first | exact ha | exact hb | simp

theorem check_field_decl_length_le (f : Option FieldDecl) :
    (check_field_decl f).length ≤ 1 := by
  cases f with
  | none => simp [check_field_decl]
  | some FD =>
    unfold check_field_decl
    simp only
    split_ifs <;> simp

end Bsl

namespace Bsl

/-- C26, counterexample: an unnamed parameter of type `bool *`: it is
pointer-typed, not constexpr, not dependent and has no leading `const`
token, its pointee is not const and its (empty) name starts with neither
`pmut_` nor `pudm_`, and `check_var_decl` emits nothing. -/
theorem check_var_decl_unnamed_pointer :
    sampleUnnamedPointer.type.isPointerType = true ∧
    sampleUnnamedPointer.isConstexpr = false ∧
    sampleUnnamedPointer.type.isDependentType = false ∧
    getRawTokenIdentifierStr sampleUnnamedPointer.beginLoc ≠ "const" ∧
    sampleUnnamedPointer.type.pointeeIsConstQualified = false ∧
    startswith (storageStrippedName sampleUnnamedPointer) "pmut_" = false ∧
    startswith (storageStrippedName sampleUnnamedPointer) "pudm_" = false ∧
    check_var_decl (some sampleUnnamedPointer) = [] := by
  decide

theorem pointerRowsCorrect_verdicts :
    pointerRowsCorrect.length = 21 ∧
      ∀ r ∈ pointerRowsCorrect, check_var_decl (some (pointerRow r)) = [] := by
  decide

theorem pointerRowsError_verdicts :
    pointerRowsError.length = 31 ∧
      ∀ r ∈ pointerRowsError, (check_var_decl (some (pointerRow r))).length = 1 := by
  decide

/-- C26, amended: for every named, valid, pointer-typed, non-constexpr,
non-dependent variable with a valid location and without a leading `const`
token, `check_var_decl` emits a diagnostic if and only if, for the name after
the removal of the storage prefix: the pointee is const and the name starts
with `pmut_`; or the pointee is not const and the name starts with neither
`pmut_` nor `pudm_`; or the pointer is const and the name starts with `mut_`,
`pcst_mut_`, `pmut_mut_` or `pudm_mut_`; or the pointer is not const and the
name starts with none of the eight tokens of lines 285–292.  Each of the 21
rows marked correct in the table of the source comment gets no diagnostic and
each of the 31 rows marked error gets exactly one. -/
theorem check_var_decl_pointer_grammar :
    (∀ VD : VarDecl, VD.isInvalidDecl = false → VD.isConstexpr = false →
      VD.name.isEmpty = false → VD.location ≠ 0 → VD.type.isDependentType = false →
      VD.type.isPointerType = true → getRawTokenIdentifierStr VD.beginLoc ≠ "const" →
      (check_var_decl (some VD) ≠ [] ↔
        (VD.type.pointeeIsConstQualified = true ∧
          startswith (storageStrippedName VD) "pmut_" = true) ∨
        (VD.type.pointeeIsConstQualified = false ∧
          startswith (storageStrippedName VD) "pmut_" = false ∧
          startswith (storageStrippedName VD) "pudm_" = false) ∨
        (VD.type.isConstQualified = true ∧
          (startswith (storageStrippedName VD) "mut_" = true ∨
            startswith (storageStrippedName VD) "pcst_mut_" = true ∨
            startswith (storageStrippedName VD) "pmut_mut_" = true ∨
            startswith (storageStrippedName VD) "pudm_mut_" = true)) ∨
        (VD.type.isConstQualified = false ∧
          startswith (storageStrippedName VD) "mut_" = false ∧
          startswith (storageStrippedName VD) "udm_" = false ∧
          startswith (storageStrippedName VD) "pcst_mut_" = false ∧
          startswith (storageStrippedName VD) "pcst_udm_" = false ∧
          startswith (storageStrippedName VD) "pmut_mut_" = false ∧
          startswith (storageStrippedName VD) "pmut_udm_" = false ∧
          startswith (storageStrippedName VD) "pudm_mut_" = false ∧
          startswith (storageStrippedName VD) "pudm_udm_" = false))) ∧
    (pointerRowsCorrect.length = 21 ∧
      ∀ r ∈ pointerRowsCorrect, check_var_decl (some (pointerRow r)) = []) ∧
    (pointerRowsError.length = 31 ∧
      ∀ r ∈ pointerRowsError, (check_var_decl (some (pointerRow r))).length = 1) := by
  refine ⟨?_, pointerRowsCorrect_verdicts, pointerRowsError_verdicts⟩
  intro VD hvalid hce hname hloc hdep hptr htok
  rw [check_var_decl_of_guards VD hvalid hce hname hloc hdep, if_neg htok, if_pos hptr,
    thenTest_ne_nil, pointeeTest_ne_nil, pointerVariableTest_ne_nil, or_assoc]

theorem check_var_decl_pointer_grammar_witness :
    check_var_decl (some samplePointerVar) ≠ [] ↔
      (samplePointerVar.type.pointeeIsConstQualified = true ∧
        startswith (storageStrippedName samplePointerVar) "pmut_" = true) ∨
      (samplePointerVar.type.pointeeIsConstQualified = false ∧
        startswith (storageStrippedName samplePointerVar) "pmut_" = false ∧
        startswith (storageStrippedName samplePointerVar) "pudm_" = false) ∨
      (samplePointerVar.type.isConstQualified = true ∧
        (startswith (storageStrippedName samplePointerVar) "mut_" = true ∨
          startswith (storageStrippedName samplePointerVar) "pcst_mut_" = true ∨
          startswith (storageStrippedName samplePointerVar) "pmut_mut_" = true ∨
          startswith (storageStrippedName samplePointerVar) "pudm_mut_" = true)) ∨
      (samplePointerVar.type.isConstQualified = false ∧
        startswith (storageStrippedName samplePointerVar) "mut_" = false ∧
        startswith (storageStrippedName samplePointerVar) "udm_" = false ∧
        startswith (storageStrippedName samplePointerVar) "pcst_mut_" = false ∧
        startswith (storageStrippedName samplePointerVar) "pcst_udm_" = false ∧
        startswith (storageStrippedName samplePointerVar) "pmut_mut_" = false ∧
        startswith (storageStrippedName samplePointerVar) "pmut_udm_" = false ∧
        startswith (storageStrippedName samplePointerVar) "pudm_mut_" = false ∧
        startswith (storageStrippedName samplePointerVar) "pudm_udm_" = false) :=
  check_var_decl_pointer_grammar.1 samplePointerVar (by decide) (by decide) (by decide)
    (by decide) (by decide) (by decide) (by decide)

/-- C27: for a variable of type `bool` or `bool const` that is not a pointer
and has no leading `const` token, and for each of the thirteen name prefixes
followed by `i`, `check_var_decl` emits nothing exactly for the seven rows
marked correct in the table of the source comment, and exactly one diagnostic
for each of the other nineteen combinations, which are the rows marked
error. -/
theorem check_var_decl_value_table (p : String) (hp : p ∈ namePrefixes) (c : Bool) :
    (check_var_decl (some (valueRow (c, p ++ "i"))) = [] ↔ (c, p ++ "i") ∈ valueRowsCorrect) ∧
    ((c, p ++ "i") ∉ valueRowsCorrect →
      (c, p ++ "i") ∈ valueRowsError ∧
      (check_var_decl (some (valueRow (c, p ++ "i")))).length = 1) := by
  revert p c
  decide

theorem check_var_decl_value_table_witness :
    "cst_" ∈ namePrefixes ∧
    (check_var_decl (some (valueRow (false, "cst_" ++ "i"))) = [] ↔
      (false, "cst_" ++ "i") ∈ valueRowsCorrect) ∧
    ((false, "cst_" ++ "i") ∉ valueRowsCorrect →
      (false, "cst_" ++ "i") ∈ valueRowsError ∧
      (check_var_decl (some (valueRow (false, "cst_" ++ "i")))).length = 1) :=
  ⟨by decide, check_var_decl_value_table "cst_" (by decide) false⟩

/-- C28, counterexample: the variable `bool const pudm_udm_i` is not a
pointer and its name begins with the pointee token `pudm_`, and
`check_var_decl` emits nothing; the source comment marks this row correct. -/
theorem check_var_decl_value_pudm_udm :
    (valueRow (true, "pudm_udm_i")).type.isPointerType = false ∧
    startswith (storageStrippedName (valueRow (true, "pudm_udm_i"))) "pudm_" = true ∧
    (true, "pudm_udm_i") ∈ valueRowsCorrect ∧
    check_var_decl (some (valueRow (true, "pudm_udm_i"))) = [] := by
  decide

theorem storageStrippedName_of_empty (VD : VarDecl) (h : VD.name.isEmpty = true) :
    storageStrippedName VD = "" := by
  have hn : VD.name = "" := (isEmpty_eq_true_iff _).1 h
  have h1 : startswith "" "s_" = false := by decide
  have h2 : startswith "" "g_" = false := by decide
  simp [storageStrippedName, hn, h1, h2]

/-- C28, amended: for every valid, non-constexpr, non-dependent variable with
a valid location that is not a pointer, if its name (after the removal of the
storage prefix) begins with one of the eight pairs of a pointee token and a
variable token other than `pudm_udm_`, `check_var_decl` emits exactly one
diagnostic, whatever the constness of the type: the one about the pointer-only
name, or the one about a leading `const` token when there is one. -/
theorem check_var_decl_pointer_only_tokens (VD : VarDecl) (hvalid : VD.isInvalidDecl = false)
    (hce : VD.isConstexpr = false) (hloc : VD.location ≠ 0)
    (hdep : VD.type.isDependentType = false) (hptr : VD.type.isPointerType = false)
    (hp : startswith (storageStrippedName VD) "pcst_cst_" = true ∨
      startswith (storageStrippedName VD) "pcst_mut_" = true ∨
      startswith (storageStrippedName VD) "pcst_udm_" = true ∨
      startswith (storageStrippedName VD) "pmut_cst_" = true ∨
      startswith (storageStrippedName VD) "pmut_mut_" = true ∨
      startswith (storageStrippedName VD) "pmut_udm_" = true ∨
      startswith (storageStrippedName VD) "pudm_cst_" = true ∨
      startswith (storageStrippedName VD) "pudm_mut_" = true) :
    check_var_decl (some VD) =
      [warningAt VD.location
        (if getRawTokenIdentifierStr VD.beginLoc = "const" then msgLeftConst
          else msgPointerOnly)] := by
  have hname : VD.name.isEmpty = false := by
    cases h : VD.name.isEmpty with
    | false => rfl
    | true =>
      rw [storageStrippedName_of_empty VD h] at hp
      revert hp
      decide
  have hne : ¬ VD.type.isPointerType = true := by simp [hptr]
  have honly : pointerOnlyTest (storageStrippedName VD) VD.location =
      [warningAt VD.location msgPointerOnly] := by
    unfold pointerOnlyTest
    rw [if_pos]
    simp only [Bool.or_eq_true]
    tauto
  rw [check_var_decl_of_guards VD hvalid hce hname hloc hdep]
  by_cases htok : getRawTokenIdentifierStr VD.beginLoc = "const"
  · simp [htok, hptr]
  · simp [htok, hptr, honly, thenTest]

theorem check_var_decl_pointer_only_tokens_witness :
    check_var_decl (some samplePointerOnlyName) = [warningAt 5 msgPointerOnly] :=
  check_var_decl_pointer_only_tokens samplePointerOnlyName (by decide) (by decide) (by decide)
    (by decide) (by decide) (by decide)

/-- C29: for every named, valid, non-constexpr, non-dependent variable
declaration with a valid location whose first raw token is the identifier
`const`, `check_var_decl` emits exactly one diagnostic, the one that asks for
the qualifier on the right of the type (in its wording for pointers when the
type is a pointer), whatever the type and the name are. -/
theorem check_var_decl_left_const (VD : VarDecl) (hvalid : VD.isInvalidDecl = false)
    (hce : VD.isConstexpr = false) (hname : VD.name.isEmpty = false)
    (hloc : VD.location ≠ 0) (hdep : VD.type.isDependentType = false)
    (hb1 : VD.beginLoc.isInvalid = false) (hb2 : VD.beginLoc.isMacroID = false)
    (hb3 : VD.beginLoc.getRawTokenFails = false) (hb4 : VD.beginLoc.rawIdentifier = "const") :
    check_var_decl (some VD) =
      [warningAt VD.location
        (if VD.type.isPointerType = true then msgLeftConstPointer else msgLeftConst)] := by
  have htok : getRawTokenIdentifierStr VD.beginLoc = "const" := by
    simp [getRawTokenIdentifierStr, hb1, hb2, hb3, hb4]
  rw [check_var_decl_of_guards VD hvalid hce hname hloc hdep, if_pos htok]
  by_cases hptr : VD.type.isPointerType = true <;> simp [hptr]

theorem check_var_decl_left_const_witness :
    check_var_decl (some sampleLeftConst) = [warningAt 9 msgLeftConst] :=
  check_var_decl_left_const sampleLeftConst (by decide) (by decide) (by decide) (by decide)
    (by decide) (by decide) (by decide) (by decide) (by decide)

/-- C30: for every match result offered to `VerifyConstCheck::check`, a
variable or a field, at most one diagnostic is emitted in total. -/
theorem VerifyConstCheck_check_at_most_one (Result : VerifyMatch) :
    (VerifyConstCheck.check Result).length ≤ 1 := by
  cases Result with
  | varDecl VD =>
    have := check_var_decl_length_le (some VD)
    simpa [VerifyConstCheck.check, VerifyMatch.varNode, VerifyMatch.fieldNode,
      check_field_decl] using this
  | fieldDecl FD =>
    have := check_field_decl_length_le (some FD)
    simpa [VerifyConstCheck.check, VerifyMatch.varNode, VerifyMatch.fieldNode,
      check_var_decl] using this

end Bsl

namespace Bsl

/-! ## Declarations both registries pass over -/

theorem typoIgnored_of_unnamed_or_invalid (D : NamedDecl)
    (h : D.location = 0 ∨ D.name.isEmpty = true ∨ D.name.data.head? = some '_') :
    typoIgnored D = true := by
  unfold typoIgnored
  rcases h with h | h | h <;> simp [h]

theorem nsIgnored_of_unnamed_or_invalid (D : NamedDecl)
    (h : D.location = 0 ∨ D.name.isEmpty = true ∨ D.name.data.head? = some '_') :
    nsIgnored D = true := by
  unfold nsIgnored
  rcases h with h | h | h <;> simp [h]

theorem typoCheck_of_ignored (m : Registry) (D : NamedDecl) (h : typoIgnored D = true) :
    typoCheck m D = (m, []) := by
  simp [typoCheck, h]

theorem nsCheck_of_ignored (m : NsIndex) (D : NamedDecl) (h : nsIgnored D = true) :
    nsCheck m D = (m, []) := by
  simp [nsCheck, h]

theorem nsRunFrom_nil (st : NsIndex × List Diag) : nsRunFrom st [] = st := rfl

theorem nsRunFrom_cons (st : NsIndex × List Diag) (d : NamedDecl) (ds : List NamedDecl) :
    nsRunFrom st (d :: ds) =
      nsRunFrom ((nsCheck st.1 d).1, st.2 ++ (nsCheck st.1 d).2) ds := rfl

theorem nsRunFrom_append (st : NsIndex × List Diag) (ds es : List NamedDecl) :
    nsRunFrom st (ds ++ es) = nsRunFrom (nsRunFrom st ds) es := by
  simp [nsRunFrom, List.foldl_append]

theorem nsRun_snoc (ds : List NamedDecl) (d : NamedDecl) :
    nsRun (ds ++ [d]) =
      ((nsCheck (nsRun ds).1 d).1, (nsRun ds).2 ++ (nsCheck (nsRun ds).1 d).2) := by
  simp [nsRun, nsRunFrom_append, nsRunFrom_cons, nsRunFrom_nil]

/-- C31: a declaration whose location is invalid, whose name is empty or whose
name starts with `_` is passed over by the typographic check and by the
namespace-uniqueness check: the call emits nothing and returns the state it
was given, so a run in which the declaration is offered at any point ends in
the same state and emits the same diagnostics as the run without it. -/
theorem checks_pass_over_unnamed_or_invalid (D : NamedDecl)
    (h : D.location = 0 ∨ D.name.isEmpty = true ∨ D.name.data.head? = some '_') :
    (∀ m, typoCheck m D = (m, [])) ∧ (∀ m, nsCheck m D = (m, [])) ∧
    (∀ pre post, typoRun (pre ++ D :: post) = typoRun (pre ++ post)) ∧
    (∀ pre post, nsRun (pre ++ D :: post) = nsRun (pre ++ post)) := by
  have ht := typoIgnored_of_unnamed_or_invalid D h
  have hn := nsIgnored_of_unnamed_or_invalid D h
  refine ⟨fun m => typoCheck_of_ignored m D ht, fun m => nsCheck_of_ignored m D hn, ?_, ?_⟩
  · intro pre post
    simp only [typoRun, typoRunFrom_append, typoRunFrom_cons, typoCheck_of_ignored _ D ht,
      List.append_nil]
  · intro pre post
    simp only [nsRun, nsRunFrom_append, nsRunFrom_cons, nsCheck_of_ignored _ D hn,
      List.append_nil]

theorem checks_pass_over_unnamed_or_invalid_witness :
    (∀ m, typoCheck m sampleReserved = (m, [])) ∧ (∀ m, nsCheck m sampleReserved = (m, [])) ∧
    (∀ pre post, typoRun (pre ++ sampleReserved :: post) = typoRun (pre ++ post)) ∧
    (∀ pre post, nsRun (pre ++ sampleReserved :: post) = nsRun (pre ++ post)) :=
  checks_pass_over_unnamed_or_invalid sampleReserved (by decide)

/-! ## The scope relation as a whole -/

/-- C32: `areContainedInDifferentBlocks` gives the same result for a pair of
declarations and for the pair in the other order. -/
theorem areContainedInDifferentBlocks_symmetric (a b : NamedDecl) :
    areContainedInDifferentBlocks a b = areContainedInDifferentBlocks b a := by
  unfold areContainedInDifferentBlocks
  rw [areContainedInDifferentBlocksAux_comm a b]

/-- C37: whatever the two enclosing functions and the two parent classes are,
present or absent, one of the `return` statements before the final
`return false` is taken. -/
theorem areContainedInDifferentBlocks_final_return_unreachable (a b : NamedDecl) :
    (areContainedInDifferentBlocksAux a b).isSome = true := by
  unfold areContainedInDifferentBlocksAux
  cases h1 : a.parentFunctionOrMethod <;> cases h2 : b.parentFunctionOrMethod <;>
    cases h3 : findParentDecl a <;> cases h4 : findParentDecl b <;>
    simp [Option.orElse]

/-! ## The output of `removeAmbiguity` -/

theorem scanLoop_length_le_filter (l : List Char) :
    (scanLoop l).length ≤ (l.filter (fun c => c != '_')).length := by
  induction l using scanLoop_ind with
  | hnil => simp [scanLoop]
  | hus l ih => rw [scanLoop_cons_underscore]; simpa using ih
  | htab c r l hc hr ih =>
    rw [scanLoop_cons_table l hc hr]
    simpa [List.filter_cons, hc] using ih
  | hdig c d l h ih =>
    rw [scanLoop_cons_digraph l h]
    have hc := (switchTable_of_isDigraph h).1
    have hd : d ≠ '_' := by
      rw [isDigraph_iff] at h
      rcases h.2 with rfl | rfl <;> decide
    simp only [List.filter_cons, bne_iff_ne, ne_eq, hc, hd, not_false_eq_true, if_true,
      List.length_cons]
    omega
  | hcopy c l hc ht hd ih =>
    rw [scanLoop_cons_copy l hc ht hd]
    simpa [List.filter_cons, hc] using ih

theorem not_upper_of_stable {e : Char} (h : Stable e) : ¬ (65 ≤ e.toNat ∧ e.toNat ≤ 90) := by
  intro hu
  have h1 := tolower_toNat e
  rw [h.2.2, if_pos hu] at h1
  omega

theorem not_key_of_stable {e : Char} (h : Stable e) :
    e ∉ ['0', '1', 'l', 'L', '5', '2', 'h', 'H', '8'] := by
  have hk := (switchTable_eq_none_iff e).1 h.2.1
  intro hm
  simp only [List.mem_cons, List.mem_singleton, List.not_mem_nil, or_false] at hm
  rcases hm with rfl | rfl | rfl | rfl | rfl | rfl | rfl | rfl | rfl <;>
    revert hk <;> decide

/-- C33: for every string `s`, the normal form contains no underscore, no
letter `A`..`Z` and none of the characters `0`, `1`, `l`, `5`, `2`, `h`, `8`,
and it is not longer than the number of characters of `s` that are not
underscores. -/
theorem removeAmbiguity_alphabet_and_length (s : String) :
    (∀ e ∈ (removeAmbiguity s).data,
      e ≠ '_' ∧ ¬ (65 ≤ e.toNat ∧ e.toNat ≤ 90) ∧ e ∉ ['0', '1', 'l', '5', '2', 'h', '8']) ∧
    (removeAmbiguity s).length ≤ (s.data.filter (fun c => c != '_')).length := by
  constructor
  · intro e he
    have hst := stable_of_mem_removeAmbiguity s e he
    refine ⟨hst.1, not_upper_of_stable hst, ?_⟩
    have hk := not_key_of_stable hst
    intro hm
    apply hk
    simp only [List.mem_cons, List.mem_singleton, List.not_mem_nil, or_false] at hm ⊢
    tauto
  · have h := scanLoop_length_le_filter s.data
    show ((scanLoop s.data).map tolower).length ≤ _
    simpa using h

/-! ## Overloads in the typographic registry -/

/-- C34: for a list of eligible function definitions that all have the same
qualified name, offering them in turn to the empty registry emits no
diagnostic and registers every one of them. -/
theorem typoRun_overloads (ds : List NamedDecl) (q : String)
    (h : ∀ d ∈ ds, typoIgnored d = false ∧ isaFunctionDecl d.kind = true ∧
      d.qualifiedName = q) :
    (typoRun ds).2 = [] ∧
    ∀ d ∈ ds, d ∈ recordsOf (typoRun ds).1 (removeAmbiguity d.name) := by
  have hpw : ds.Pairwise (fun x y => collide x y = false) := by
    rw [List.pairwise_iff_forall_sublist]
    intro x y hxy
    have hx := h x (hxy.subset (by simp))
    have hy := h y (hxy.subset (by simp))
    simp [collide, skipsRecord, bothAre, hx.2.1, hy.2.1, hasSameQualifiedName, hx.2.2, hy.2.2]
  obtain ⟨h1, h2⟩ := typoRun_of_no_collision ds (fun d hd => (h d hd).1) hpw
  refine ⟨h1, fun d hd => ?_⟩
  rw [h2]
  exact List.mem_filter.2 ⟨hd, by simp⟩

theorem typoRun_overloads_witness :
    (typoRun [sampleFuncF1, sampleFuncF2]).2 = [] ∧
    ∀ d ∈ [sampleFuncF1, sampleFuncF2],
      d ∈ recordsOf (typoRun [sampleFuncF1, sampleFuncF2]).1 (removeAmbiguity d.name) :=
  typoRun_overloads [sampleFuncF1, sampleFuncF2] "ns::f" (by decide)

end Bsl

namespace Bsl

/-! ## Records of a reachable typographic registry -/

theorem specCollides_eq_false_iff (x y : NamedDecl) :
    specCollides x y = false ↔
      (isaFunctionDecl x.kind = true ∧ isaFunctionDecl y.kind = true ∧
        x.qualifiedName = y.qualifiedName) ∨
      areTheSameVarDecls x y = true ∨ areContainedInDifferentBlocks x y = true := by
  unfold specCollides
  cases isaFunctionDecl x.kind <;> cases isaFunctionDecl y.kind <;>
    cases areTheSameVarDecls x y <;> cases areContainedInDifferentBlocks x y <;> simp

/-- A record of the registry after a call was there before the call or is the
declaration of the call. -/
theorem mem_recordsOf_typoCheck {m : Registry} {d r : NamedDecl} {k : String}
    (h : r ∈ recordsOf (typoCheck m d).1 k) : r ∈ recordsOf m k ∨ r = d := by
  rcases typoCheck_cases m d with ⟨_, e⟩ | ⟨_, _, _, e⟩ | ⟨_, _, e⟩
  · rw [e] at h; exact Or.inl h
  · rw [e] at h; exact Or.inl h
  · rw [e] at h
    by_cases hk : k = removeAmbiguity d.name
    · subst hk
      rw [recordsOf_pushBack_same] at h
      rcases List.mem_append.1 h with h | h
      · exact Or.inl h
      · exact Or.inr (by simpa using h)
    · rw [recordsOf_pushBack_other _ _ _ _ hk] at h
      exact Or.inl h

theorem mem_recordsOf_typoRunFrom (ds : List NamedDecl) :
    ∀ (st : Registry × List Diag) (k : String) (r : NamedDecl),
      r ∈ recordsOf (typoRunFrom st ds).1 k → r ∈ recordsOf st.1 k ∨ r ∈ ds := by
  induction ds with
  | nil => intro st k r h; exact Or.inl h
  | cons d rest ih =>
    intro st k r h
    rw [typoRunFrom_cons] at h
    rcases ih _ k r h with h | h
    · rcases mem_recordsOf_typoCheck h with h | h
      · exact Or.inl h
      · exact Or.inr (by simp [h])
    · exact Or.inr (List.mem_cons_of_mem _ h)

theorem mem_recordsOf_typoRun {ds : List NamedDecl} {k : String} {r : NamedDecl}
    (h : r ∈ recordsOf (typoRun ds).1 k) : r ∈ ds := by
  rcases mem_recordsOf_typoRunFrom ds ([], []) k r h with h | h
  · simp [recordsOf, mapFind_nil] at h
  · exact h

theorem typoRun_records_pairwise (ds : List NamedDecl) :
    ∀ k, (recordsOf (typoRun ds).1 k).Pairwise (fun x y => specCollides x y = false) := by
  induction ds using List.reverseRecOn with
  | nil => intro k; simp [typoRun, typoRunFrom_nil, recordsOf, mapFind_nil]
  | append_singleton ds d ih =>
    intro k
    rw [typoRun_snoc]
    simp only
    rcases typoCheck_cases (typoRun ds).1 d with ⟨_, e⟩ | ⟨_, _, _, e⟩ | ⟨hi, hn, e⟩
    · rw [e]; exact ih k
    · rw [e]; exact ih k
    · rw [e]
      by_cases hk : k = removeAmbiguity d.name
      · subst hk
        rw [recordsOf_pushBack_same, List.pairwise_append]
        refine ⟨ih _, by simp, ?_⟩
        intro x hx y hy
        simp only [List.mem_singleton] at hy
        subst hy
        have hs := (firstCollision_eq_none_iff y _).1 hn x hx
        rw [skipsRecord_comm] at hs
        have hx' := isaFieldDecl_of_not_ignored (typoRun_records ds _ x hx).1
        have hy' := isaFieldDecl_of_not_ignored hi
        rw [skipsRecord_eq_not_specCollides hx' hy'] at hs
        simpa using hs
      · rw [recordsOf_pushBack_other _ _ _ _ hk]
        exact ih k

/-- C38: in every registry reachable from the empty one, two records at
different places of the list of one key do not collide: they are functions
with the same qualified name, or the same variable, or in different blocks.
A call that emits a diagnostic stores nothing; when no declaration is offered
twice, a declaration that was diagnosed is in no list of the registry. -/
theorem typoRun_records_do_not_collide (ds : List NamedDecl) :
    (∀ k, (recordsOf (typoRun ds).1 k).Pairwise (fun x y =>
      (isaFunctionDecl x.kind = true ∧ isaFunctionDecl y.kind = true ∧
        x.qualifiedName = y.qualifiedName) ∨
      areTheSameVarDecls x y = true ∨ areContainedInDifferentBlocks x y = true)) ∧
    (∀ d, (typoCheck (typoRun ds).1 d).2 ≠ [] →
      (typoCheck (typoRun ds).1 d).1 = (typoRun ds).1) ∧
    (∀ pre d post, ds = pre ++ d :: post → ds.Nodup →
      (typoCheck (typoRun pre).1 d).2 ≠ [] → ∀ k, d ∉ recordsOf (typoRun ds).1 k) := by
  refine ⟨fun k => ?_, fun d h => ?_, fun pre d post hds hnd h k hmem => ?_⟩
  · exact (typoRun_records_pairwise ds k).imp (fun {x y} hxy =>
      (specCollides_eq_false_iff x y).1 hxy)
  · rcases typoCheck_cases (typoRun ds).1 d with ⟨_, e⟩ | ⟨_, _, _, e⟩ | ⟨_, _, e⟩
    · rw [e]
    · rw [e]
    · rw [e] at h; exact absurd rfl h
  · have hsame : (typoCheck (typoRun pre).1 d).1 = (typoRun pre).1 := by
      rcases typoCheck_cases (typoRun pre).1 d with ⟨_, e⟩ | ⟨_, _, _, e⟩ | ⟨_, _, e⟩
      · rw [e]
      · rw [e]
      · rw [e] at h; exact absurd rfl h
    subst hds
    have hrun : typoRun (pre ++ d :: post) =
        typoRunFrom ((typoRun pre).1, (typoRun pre).2 ++ (typoCheck (typoRun pre).1 d).2)
          post := by
      simp only [typoRun, typoRunFrom_append, typoRunFrom_cons]
      rw [show (typoCheck (typoRunFrom ([], []) pre).1 d).1 = (typoRunFrom ([], []) pre).1 from
        hsame]
    rw [hrun] at hmem
    rw [List.nodup_append] at hnd
    obtain ⟨_, hnd2, hdisj⟩ := hnd
    rcases mem_recordsOf_typoRunFrom post _ k d hmem with hm | hm
    · exact hdisj (mem_recordsOf_typoRun hm) (by simp)
    · exact (List.nodup_cons.1 hnd2).1 hm

end Bsl

namespace Bsl

/-! ## Left-side `const` on fields, and storage prefixes -/

/-- C35, the code at the failing input `const bool *m_p`: the field is named
and valid, its location is valid and its first raw token is `const`, but its
type, a pointer, is not const-qualified itself, and `check_field_decl` emits
nothing; the field `const bool m_b` gets the diagnostic. -/
theorem check_field_decl_pointer_to_const :
    sampleFieldPointerToConst.isInvalidDecl = false ∧
    sampleFieldPointerToConst.location ≠ 0 ∧
    sampleFieldPointerToConst.name.isEmpty = false ∧
    getRawTokenIdentifierStr sampleFieldPointerToConst.beginLoc = "const" ∧
    sampleFieldPointerToConst.type.isConstQualified = false ∧
    check_field_decl (some sampleFieldPointerToConst) = [] ∧
    check_field_decl (some sampleFieldLeftConst) = [warningAt 6 msgLeftConst] := by
  decide

theorem check_var_decl_eq_nameGrammar (VD : VarDecl) (hvalid : VD.isInvalidDecl = false)
    (hce : VD.isConstexpr = false) (hname : VD.name.isEmpty = false)
    (hloc : VD.location ≠ 0) (hdep : VD.type.isDependentType = false) :
    check_var_decl (some VD) =
      nameGrammar VD.type (getRawTokenIdentifierStr VD.beginLoc) (storageStrippedName VD)
        VD.location := by
  rw [check_var_decl_of_guards VD hvalid hce hname hloc hdep]
  unfold nameGrammar
  by_cases htok : getRawTokenIdentifierStr VD.beginLoc = "const" <;>
    by_cases hptr : VD.type.isPointerType = true <;> simp [htok, hptr]

/-- C36, the code at the failing input `static bool s_g_mut_x`, a static data
member: after `s_` the code also removes `g_`, because a static data member
is not a local variable, and applies the grammar to `mut_x`, which is
accepted; the grammar applied to the remaining name `g_mut_x` and the same
type emits a diagnostic.  For every variable that passes the guards,
`check_var_decl` is the grammar applied to the name the two removals leave. -/
theorem check_var_decl_static_member_double_strip :
    (∀ VD : VarDecl, VD.isInvalidDecl = false → VD.isConstexpr = false →
      VD.name.isEmpty = false → VD.location ≠ 0 → VD.type.isDependentType = false →
      check_var_decl (some VD) =
        nameGrammar VD.type (getRawTokenIdentifierStr VD.beginLoc) (storageStrippedName VD)
          VD.location) ∧
    sampleStaticMember.name = "s_" ++ "g_mut_x" ∧
    sampleStaticMember.isStaticDataMember = true ∧
    storageStrippedName sampleStaticMember = "mut_x" ∧
    check_var_decl (some sampleStaticMember) = [] ∧
    nameGrammar sampleStaticMember.type (getRawTokenIdentifierStr sampleStaticMember.beginLoc)
      "g_mut_x" sampleStaticMember.location = [warningAt 3 msgValueMustBeConst] := by
  refine ⟨check_var_decl_eq_nameGrammar, ?_⟩
  decide

/-! ## Records of a reachable namespace-uniqueness index -/

theorem mem_recordsOf_nsCheck {m : NsIndex} {d : NamedDecl} {r : NsRecord} {k : String}
    (h : r ∈ recordsOf (nsCheck m d).1 k) : r ∈ recordsOf m k ∨ r.D = d := by
  rcases nsCheck_cases m d with ⟨_, e⟩ | ⟨_, _, _, e⟩ | ⟨_, _, e⟩
  · rw [e] at h; exact Or.inl h
  · rw [e] at h; exact Or.inl h
  · rw [e] at h
    by_cases hk : k = d.name
    · subst hk
      rw [recordsOf_pushBack_same] at h
      rcases List.mem_append.1 h with h | h
      · exact Or.inl h
      · simp only [List.mem_singleton] at h
        exact Or.inr (by rw [h])
    · rw [recordsOf_pushBack_other _ _ _ _ hk] at h
      exact Or.inl h

theorem mem_recordsOf_nsRunFrom (ds : List NamedDecl) :
    ∀ (st : NsIndex × List Diag) (k : String) (r : NsRecord),
      r ∈ recordsOf (nsRunFrom st ds).1 k → r ∈ recordsOf st.1 k ∨ r.D ∈ ds := by
  induction ds with
  | nil => intro st k r h; exact Or.inl h
  | cons d rest ih =>
    intro st k r h
    rw [nsRunFrom_cons] at h
    rcases ih _ k r h with h | h
    · rcases mem_recordsOf_nsCheck h with h | h
      · exact Or.inl h
      · exact Or.inr (by simp [h])
    · exact Or.inr (List.mem_cons_of_mem _ h)

theorem mem_recordsOf_nsRun {ds : List NamedDecl} {k : String} {r : NsRecord}
    (h : r ∈ recordsOf (nsRun ds).1 k) : r.D ∈ ds := by
  rcases mem_recordsOf_nsRunFrom ds ([], []) k r h with h | h
  · simp [recordsOf, mapFind_nil] at h
  · exact h

theorem nsCheck_diagnosed_unchanged (m : NsIndex) (d : NamedDecl)
    (h : (nsCheck m d).2 ≠ []) : (nsCheck m d).1 = m := by
  rcases nsCheck_cases m d with ⟨_, e⟩ | ⟨_, _, _, e⟩ | ⟨_, _, e⟩
  · rw [e]
  · rw [e]
  · rw [e] at h; exact absurd rfl h

theorem nsRun_records_pairwise (ds : List NamedDecl) :
    ∀ k, (recordsOf (nsRun ds).1 k).Pairwise (fun x y =>
      x.spec = y.spec ∨ (¬ x.spec.data <:+: y.spec.data ∧ ¬ y.spec.data <:+: x.spec.data)) := by
  induction ds using List.reverseRecOn with
  | nil => intro k; simp [nsRun, nsRunFrom_nil, recordsOf, mapFind_nil]
  | append_singleton ds d ih =>
    intro k
    rw [nsRun_snoc]
    simp only
    rcases nsCheck_cases (nsRun ds).1 d with ⟨_, e⟩ | ⟨_, _, _, e⟩ | ⟨_, hn, e⟩
    · rw [e]; exact ih k
    · rw [e]; exact ih k
    · rw [e]
      by_cases hk : k = d.name
      · subst hk
        rw [recordsOf_pushBack_same, List.pairwise_append]
        refine ⟨ih _, by simp, ?_⟩
        intro x hx y hy
        simp only [List.mem_singleton] at hy
        subst hy
        exact (nsFirstClash_eq_none_iff _ _).1 hn x hx
      · rw [recordsOf_pushBack_other _ _ _ _ hk]
        exact ih k

/-- C39: in every index reachable from the empty one, two records at
different places of the list of one name have qualifier strings that are
equal or such that neither occurs in the other as a substring.  A call that
emits a diagnostic stores nothing; when no declaration is offered twice, a
declaration that was diagnosed is in no record of the index. -/
theorem nsRun_records_do_not_clash (ds : List NamedDecl) :
    (∀ k, (recordsOf (nsRun ds).1 k).Pairwise (fun x y =>
      x.spec = y.spec ∨
        (¬ x.spec.data <:+: y.spec.data ∧ ¬ y.spec.data <:+: x.spec.data))) ∧
    (∀ d, (nsCheck (nsRun ds).1 d).2 ≠ [] → (nsCheck (nsRun ds).1 d).1 = (nsRun ds).1) ∧
    (∀ pre d post, ds = pre ++ d :: post → ds.Nodup →
      (nsCheck (nsRun pre).1 d).2 ≠ [] →
      ∀ k, ∀ r ∈ recordsOf (nsRun ds).1 k, r.D ≠ d) := by
  refine ⟨nsRun_records_pairwise ds, fun d h => nsCheck_diagnosed_unchanged _ d h,
    fun pre d post hds hnd h k r hmem hrd => ?_⟩
  have hsame := nsCheck_diagnosed_unchanged _ d h
  subst hds
  have hrun : nsRun (pre ++ d :: post) =
      nsRunFrom ((nsRun pre).1, (nsRun pre).2 ++ (nsCheck (nsRun pre).1 d).2) post := by
    simp only [nsRun, nsRunFrom_append, nsRunFrom_cons]
    rw [show (nsCheck (nsRunFrom ([], []) pre).1 d).1 = (nsRunFrom ([], []) pre).1 from hsame]
  rw [hrun] at hmem
  rw [List.nodup_append] at hnd
  obtain ⟨_, hnd2, hdisj⟩ := hnd
  rcases mem_recordsOf_nsRunFrom post _ k r hmem with hm | hm
  · have := mem_recordsOf_nsRun hm
    rw [hrd] at this
    exact hdisj this (by simp)
  · rw [hrd] at hm
    exact (List.nodup_cons.1 hnd2).1 hm

/-- C40: the namespace-uniqueness check neither diagnoses nor registers a
declaration whose name contains `nullptr_t` or `max_align_t` as a substring:
the call emits nothing and returns the index it was given.  The classes
`outer::my_nullptr_t_box` and `outer::inner::my_nullptr_t_box`, offered to the
empty index, leave it empty and yield no diagnostic. -/
theorem nsCheck_passes_over_nullptr_t :
    (∀ D : NamedDecl,
      "nullptr_t".data <:+: D.name.data ∨ "max_align_t".data <:+: D.name.data →
      ∀ m, nsCheck m D = (m, [])) ∧
    nsRun [sampleBoxOuter, sampleBoxInner] = ([], []) := by
  refine ⟨fun D h m => ?_, by decide⟩
  apply nsCheck_of_ignored
  unfold nsIgnored
  rcases h with h | h
  · have := (stringFind_isSome_iff D.name "nullptr_t").2 h
    simp [this]
  · have := (stringFind_isSome_iff D.name "max_align_t").2 h
    simp [this]

theorem nsCheck_passes_over_nullptr_t_witness :
    ∀ m, nsCheck m sampleBoxOuter = (m, []) :=
  nsCheck_passes_over_nullptr_t.1 sampleBoxOuter
    (Or.inl ⟨"my_".data, "_box".data, by decide⟩)

end Bsl
